import Mathlib

/-!
Verification of the LBaaS configuration-translation core
(`common_lb_schema.py`, `lb_translator_base.py`, `nginx_translator.py`,
`f5_translator.py`, `avi_translator.py`).

The Python code manipulates JSON-shaped dictionaries.  We embed the Python
value universe as the inductive type `JVal` (null / bool / int / str / list /
dict), with dictionaries as ordered key-value lists.  Python operations that
can raise are modelled in `Except PyErr`; operations whose Python behaviour
is total (truthiness, `dict.get`, string formatting) are total functions.
Python string formatting of non-string values uses `pyRepr`, which is exact
for scalars (the only values our statements evaluate it on); for containers
it follows Python's `repr` layout without the quote-switching and
non-printable-character refinements.  Only integers are modelled as numbers
(the repository's configurations contain no floats).
-/

namespace LBaaS

/-- A Python value of the JSON-shaped universe the translators manipulate:
`None`, `bool`, `int`, `str`, `list`, `dict` (ordered key/value pairs with
string keys, as produced by JSON parsing and dict literals). -/
inductive JVal where
  | null
  | bool (b : Bool)
  | int (n : Int)
  | str (s : String)
  | arr (elems : List JVal)
  | obj (fields : List (String × JVal))
deriving Repr, BEq, Inhabited

/-- A Python dictionary with string keys. -/
abbrev PyDict := List (String × JVal)

/-- First binding of `key`, if any (Python dictionaries have unique keys, so
first-match lookup models `d[key]` / `d.get(key)`). -/
def lookupKey : PyDict → String → Option JVal
  | [], _ => none
  | (k, v) :: rest, key => if k = key then some v else lookupKey rest key

/-- `d.get(key, default)`. -/
def getD (o : PyDict) (k : String) (d : JVal) : JVal := (lookupKey o k).getD d

/-- `key in d`. -/
def hasKey (o : PyDict) (k : String) : Bool := (lookupKey o k).isSome

/-- Python truthiness of a value (`bool(v)`). -/
def truthy : JVal → Bool
  | .null => false
  | .bool b => b
  | .int n => n != 0
  | .str s => !s.isEmpty
  | .arr xs => !xs.isEmpty
  | .obj kvs => !kvs.isEmpty

/-- The numeric value of a Python number, with `True == 1` and `False == 0`. -/
def numVal : JVal → Option Int
  | .bool b => some (if b then 1 else 0)
  | .int n => some n
  | _ => none

mutual
/-- Python `==` on the modelled universe.  Booleans and integers compare
numerically (`True == 1`); lists compare pointwise; dictionaries compare
pointwise on their ordered bindings (the translators only ever compare
strings, where this is exact). -/
def pyEq : JVal → JVal → Bool
  | .null, .null => true
  | .str a, .str b => a == b
  | .arr a, .arr b => pyEqList a b
  | .obj a, .obj b => pyEqObj a b
  | a, b =>
    match numVal a, numVal b with
    | some m, some n => m == n
    | _, _ => false

def pyEqList : List JVal → List JVal → Bool
  | [], [] => true
  | a :: as_, b :: bs => pyEq a b && pyEqList as_ bs
  | _, _ => false

def pyEqObj : List (String × JVal) → List (String × JVal) → Bool
  | [], [] => true
  | (ka, va) :: as_, (kb, vb) :: bs => ka == kb && pyEq va vb && pyEqObj as_ bs
  | _, _ => false
end

/-- Python `v in xs` for a list `xs`. -/
def pyMem (v : JVal) (xs : List JVal) : Bool := xs.any (fun x => pyEq x v)

/-- The Python exceptions the translation core can raise.  Messages are
modelled for `ValueError` (the validation errors, whose text the code
constructs) and `OSError` (filesystem failures, injected by the
environment); `TypeError`/`AttributeError` messages are interpreter-made and
not modelled. -/
inductive PyErr where
  | valueError (msg : String)
  | typeError
  | attributeError
  | osError (msg : String)
deriving Repr, DecidableEq

/-- The result of running a piece of Python code: a value or a raised
exception. -/
abbrev PyResult (α : Type) := Except PyErr α

/-- `str(e)` for a caught exception (interpreter-made texts are a fixed
placeholder). -/
def pyErrStr : PyErr → String
  | .valueError m => m
  | .osError m => m
  | .typeError => "unsupported operand type(s)"
  | .attributeError => "object has no attribute"

/-- The single-quoted string form used by `pyRepr`. -/
def pyReprString (s : String) : String :=
  "'" ++ String.join (s.toList.map (fun c =>
    if c = '\\' then "\\\\"
    else if c = '\'' then "\\'"
    else if c = '\n' then "\\n"
    else if c = '\r' then "\\r"
    else if c = '\t' then "\\t"
    else String.singleton c)) ++ "'"

mutual
/-- Python `repr` on the modelled universe: exact for `None`, booleans and
integers; strings single-quoted escaping backslash, quote, newline, carriage
return and tab (Python's quote-switching and non-printable escapes are not
reproduced); containers in Python's bracketed layout. -/
def pyRepr : JVal → String
  | .null => "None"
  | .bool true => "True"
  | .bool false => "False"
  | .int n => toString n
  | .str s => pyReprString s
  | .arr xs => "[" ++ pyReprList xs ++ "]"
  | .obj kvs => "\x7b" ++ pyReprObj kvs ++ "\x7d"

def pyReprList : List JVal → String
  | [] => ""
  | [x] => pyRepr x
  | x :: y :: rest => pyRepr x ++ ", " ++ pyReprList (y :: rest)

def pyReprObj : List (String × JVal) → String
  | [] => ""
  | [(k, v)] => pyReprString k ++ ": " ++ pyRepr v
  | (k, v) :: e :: rest => pyReprString k ++ ": " ++ pyRepr v ++ ", " ++ pyReprObj (e :: rest)
end

/-- Python `str(v)` (used by f-string interpolation): the string itself for
strings, `repr`-style text otherwise. -/
def pyStrOf : JVal → String
  | .str s => s
  | v => pyRepr v

/-- `str` attribute access on a value: raises `AttributeError` unless the
value is a string (models calling `.replace`, `.split`, `.lower` …). -/
def asStr : JVal → PyResult String
  | .str s => .ok s
  | _ => .error .attributeError

/-- `dict` attribute access on a value: raises unless the value is a dict
(models calling `.get` on it). -/
def asDict : JVal → PyResult PyDict
  | .obj kvs => .ok kvs
  | _ => .error .attributeError

/-- Python iteration over a value: list elements, string characters (as
one-character strings), dictionary keys; anything else raises `TypeError`. -/
def pyIterate : JVal → PyResult (List JVal)
  | .arr xs => .ok xs
  | .str s => .ok (s.toList.map (fun c => .str (String.singleton c)))
  | .obj kvs => .ok (kvs.map (fun kv => .str kv.1))
  | _ => .error .typeError

/-- Python `v > k` against an integer literal: numeric comparison, raising
`TypeError` for non-numbers. -/
def pyGtInt (v : JVal) (k : Int) : PyResult Bool :=
  match numVal v with
  | some n => .ok (decide (n > k))
  | none => .error .typeError

/-- `sep.join(v)`: iterates `v`; every element must be a string. -/
def pyJoin (sep : String) (v : JVal) : PyResult String := do
  let xs ← pyIterate v
  let ss ← xs.mapM asStr
  return String.intercalate sep ss

/-- Left-to-right, non-overlapping replacement of a non-empty pattern, on
character lists; the fuel argument (instantiated with the list's length)
only makes the recursion structural. -/
def pyReplaceAux (pat rep : List Char) : Nat → List Char → List Char
  | _, [] => []
  | 0, cs => cs
  | fuel + 1, c :: cs =>
    if pat.isPrefixOf (c :: cs) then
      rep ++ pyReplaceAux pat rep fuel (List.drop (pat.length - 1) cs)
    else
      c :: pyReplaceAux pat rep fuel cs

/-- Python `s.replace(pat, rep)`: left-to-right non-overlapping; an empty
pattern matches before every character and at the end. -/
def pyStrReplace (s pat rep : String) : String :=
  if pat.toList.isEmpty then
    String.mk (rep.toList ++ (s.toList.map (fun c => c :: rep.toList)).flatten)
  else
    String.mk (pyReplaceAux pat.toList rep.toList s.toList.length s.toList)

/-- `v.replace(pat, rep)` (requires a string). -/
def pyReplace (v : JVal) (pat rep : String) : PyResult String := do
  let s ← asStr v
  return pyStrReplace s pat rep

/-- `v.split(sep)` for a one-character separator (requires a string);
`String.splitOn` matches Python's `str.split(sep)` semantics. -/
def pySplit (v : JVal) (sep : String) : PyResult (List String) := do
  let s ← asStr v
  return s.splitOn sep

/-- The elements of a `list`-valued section, each of which the Python code
calls `.get` on: `some` when the value is a list of dicts, `none` when
iterating it and calling `.get` on its elements would raise (used where the
code runs `[x.get('id') for x in section]`). -/
def asDictList : JVal → Option (List PyDict)
  | .arr xs => xs.mapM (fun x => match x with | .obj kvs => some kvs | _ => none)
  | _ => none

/-- `_get_pool_by_id` / `_get_certificate_by_id`'s scan body: walk the
iterated elements in order, returning the first dict whose `id` compares
equal, raising as Python would at the first non-dict element reached. -/
def findById : List JVal → JVal → PyResult (Option PyDict)
  | [], _ => .ok none
  | .obj p :: rest, wanted =>
    if pyEq (getD p "id" .null) wanted then .ok (some p) else findById rest wanted
  | _ :: _, _ => .error .attributeError

/-- `LBTranslatorBase._get_pool_by_id`: linear scan over `pools`, `None`
when absent. -/
def get_pool_by_id (pools : JVal) (pool_id : JVal) : PyResult (Option PyDict) := do
  let xs ← pyIterate pools
  findById xs pool_id

/-- `LBTranslatorBase._get_certificate_by_id`: linear scan over
`certificates`, `None` when absent. -/
def get_certificate_by_id (certificates : JVal) (cert_id : JVal) : PyResult (Option PyDict) := do
  let xs ← pyIterate certificates
  findById xs cert_id

/-- The trailing mTLS checks of `LBTranslatorBase._validate_config`
(`mtls.get('enabled')` onward). -/
def validate_config_mtls (config : PyDict) (vs : PyDict) : PyResult Unit :=
  match getD vs "mtls" (.obj []) with
  | .obj mtls =>
    if truthy (getD mtls "enabled" .null) then
      let client_ca_cert_id := getD mtls "client_ca_cert_id" .null
      if !truthy client_ca_cert_id then
        .error (.valueError "Client CA certificate ID must be specified for mTLS")
      else
        match asDictList (getD config "certificates" (.arr [])) with
        | some cs =>
          if !pyMem client_ca_cert_id (cs.map (fun c => getD c "id" .null)) then
            .error (.valueError ("Referenced client_ca_cert_id '" ++ pyStrOf client_ca_cert_id
              ++ "' not found in certificates"))
          else .ok ()
        | none => .error .typeError
    else .ok ()
  | _ => .error .attributeError

/-- `LBTranslatorBase._validate_config`: the checks in source order.
Top-level sections, the six required virtual-server fields, a non-empty
`pools` list, the `pool_id` reference, then — only under
`protocol == 'https'` — the SSL checks, and finally the mTLS checks. -/
def validate_config (config : PyDict) : PyResult Unit :=
  if !hasKey config "metadata" then .error (.valueError "Missing required section: metadata")
  else if !hasKey config "virtual_server" then
    .error (.valueError "Missing required section: virtual_server")
  else if !hasKey config "pools" then .error (.valueError "Missing required section: pools")
  else
    match getD config "virtual_server" (.obj []) with
    | .obj vs =>
      if !hasKey vs "id" then .error (.valueError "Missing required virtual server field: id")
      else if !hasKey vs "name" then
        .error (.valueError "Missing required virtual server field: name")
      else if !hasKey vs "ip_address" then
        .error (.valueError "Missing required virtual server field: ip_address")
      else if !hasKey vs "port" then
        .error (.valueError "Missing required virtual server field: port")
      else if !hasKey vs "protocol" then
        .error (.valueError "Missing required virtual server field: protocol")
      else if !hasKey vs "pool_id" then
        .error (.valueError "Missing required virtual server field: pool_id")
      else
        let pools := getD config "pools" (.arr [])
        if !truthy pools then .error (.valueError "At least one pool must be defined")
        else
          match asDictList pools with
          | some ps =>
            let pool_id := getD vs "pool_id" .null
            if !pyMem pool_id (ps.map (fun p => getD p "id" .null)) then
              .error (.valueError ("Referenced pool_id '" ++ pyStrOf pool_id
                ++ "' not found in pools"))
            else
              if pyEq (getD vs "protocol" .null) (.str "https") then
                match getD vs "ssl" (.obj []) with
                | .obj ssl =>
                  if !truthy (getD ssl "enabled" .null) then
                    .error (.valueError "SSL must be enabled for HTTPS protocol")
                  else
                    let cert_id := getD ssl "certificate_id" .null
                    if !truthy cert_id then
                      .error (.valueError "Certificate ID must be specified for SSL")
                    else
                      match asDictList (getD config "certificates" (.arr [])) with
                      | some cs =>
                        if !pyMem cert_id (cs.map (fun c => getD c "id" .null)) then
                          .error (.valueError ("Referenced certificate_id '" ++ pyStrOf cert_id
                            ++ "' not found in certificates"))
                        else validate_config_mtls config vs
                      | none => .error .typeError
                | _ => .error .attributeError
              else validate_config_mtls config vs
          | none => .error .typeError
    | _ => .error .typeError

/-- The configuration is shaped so that `_validate_config` runs without a
Python type fault: `virtual_server` (and its `ssl`/`mtls` members) are
dicts when present, `pools` and `certificates` are lists of dicts when
present. -/
def WFConfig (config : PyDict) : Bool :=
  (match lookupKey config "virtual_server" with
   | some (.obj vs) =>
     (match lookupKey vs "ssl" with
      | some (.obj _) => true | some _ => false | none => true) &&
     (match lookupKey vs "mtls" with
      | some (.obj _) => true | some _ => false | none => true)
   | some _ => false
   | none => true) &&
  (match lookupKey config "pools" with
   | some v => (asDictList v).isSome | none => true) &&
  (match lookupKey config "certificates" with
   | some v => (asDictList v).isSome | none => true)

/-- The dict a value `.get(..., {})` produced, reading `{}` for non-dicts
(total accessor used to state conditions; the theorems restrict to
`WFConfig`, where the two agree with Python). -/
def dictOrEmpty : JVal → PyDict
  | .obj kvs => kvs
  | _ => []

/-- The failure condition of claim C1 exactly as the claim states it:
conditions (a)–(d) and (g) as in the code, (e) protocol `https` with
`ssl.enabled` false, and (f) `ssl.enabled` true with `ssl.certificate_id`
unset or unresolved — (f) NOT guarded by the protocol. -/
def specFailureCondOriginal (config : PyDict) : Bool :=
  let vs := dictOrEmpty (getD config "virtual_server" (.obj []))
  let ssl := dictOrEmpty (getD vs "ssl" (.obj []))
  let mtls := dictOrEmpty (getD vs "mtls" (.obj []))
  let certIds := (asDictList (getD config "certificates" (.arr []))).getD []
    |>.map (fun c => getD c "id" .null)
  !hasKey config "metadata" || !hasKey config "virtual_server" || !hasKey config "pools" ||
  !hasKey vs "id" || !hasKey vs "name" || !hasKey vs "ip_address" || !hasKey vs "port" ||
  !hasKey vs "protocol" || !hasKey vs "pool_id" ||
  !truthy (getD config "pools" (.arr [])) ||
  !pyMem (getD vs "pool_id" .null)
    (((asDictList (getD config "pools" (.arr []))).getD []).map (fun p => getD p "id" .null)) ||
  (pyEq (getD vs "protocol" .null) (.str "https") && !truthy (getD ssl "enabled" .null)) ||
  (truthy (getD ssl "enabled" .null) &&
    (!truthy (getD ssl "certificate_id" .null) ||
     !pyMem (getD ssl "certificate_id" .null) certIds)) ||
  (truthy (getD mtls "enabled" .null) &&
    (!truthy (getD mtls "client_ca_cert_id" .null) ||
     !pyMem (getD mtls "client_ca_cert_id" .null) certIds))

/-- The amended failure condition: as `specFailureCondOriginal`, but the
certificate condition (f) only applies when the protocol is `https` — which
is what the code checks. -/
def specFailureCondAmended (config : PyDict) : Bool :=
  let vs := dictOrEmpty (getD config "virtual_server" (.obj []))
  let ssl := dictOrEmpty (getD vs "ssl" (.obj []))
  let mtls := dictOrEmpty (getD vs "mtls" (.obj []))
  let certIds := (asDictList (getD config "certificates" (.arr []))).getD []
    |>.map (fun c => getD c "id" .null)
  !hasKey config "metadata" || !hasKey config "virtual_server" || !hasKey config "pools" ||
  !hasKey vs "id" || !hasKey vs "name" || !hasKey vs "ip_address" || !hasKey vs "port" ||
  !hasKey vs "protocol" || !hasKey vs "pool_id" ||
  !truthy (getD config "pools" (.arr [])) ||
  !pyMem (getD vs "pool_id" .null)
    (((asDictList (getD config "pools" (.arr []))).getD []).map (fun p => getD p "id" .null)) ||
  (pyEq (getD vs "protocol" .null) (.str "https") && !truthy (getD ssl "enabled" .null)) ||
  (pyEq (getD vs "protocol" .null) (.str "https") && truthy (getD ssl "enabled" .null) &&
    (!truthy (getD ssl "certificate_id" .null) ||
     !pyMem (getD ssl "certificate_id" .null) certIds)) ||
  (truthy (getD mtls "enabled" .null) &&
    (!truthy (getD mtls "client_ca_cert_id" .null) ||
     !pyMem (getD mtls "client_ca_cert_id" .null) certIds))


def mtlsFailCond (config : LBaaS.PyDict) (vs : LBaaS.PyDict) : Bool :=
  let mtls := LBaaS.dictOrEmpty (LBaaS.getD vs "mtls" (JVal.obj []))
  let certIds := ((LBaaS.asDictList (LBaaS.getD config "certificates" (JVal.arr []))).getD []).map
    (fun c => LBaaS.getD c "id" JVal.null)
  LBaaS.truthy (LBaaS.getD mtls "enabled" JVal.null) &&
    (!LBaaS.truthy (LBaaS.getD mtls "client_ca_cert_id" JVal.null) ||
     !LBaaS.pyMem (LBaaS.getD mtls "client_ca_cert_id" JVal.null) certIds)

/-- The id-derivation slug: `fqdn.replace('.', '-')` (a one-character
pattern, so equal to the character-wise map). -/
def slug (s : String) : String :=
  String.mk (s.toList.map (fun c => if c = '.' then '-' else c))

/-- The `LBAlgorithm` enumeration values, in source order. -/
def lbAlgorithmValues : List JVal :=
  [.str "round_robin", .str "least_connections", .str "ip_hash",
   .str "least_requests", .str "weighted_round_robin", .str "fastest_response"]

/-- The `PersistenceType` enumeration values, in source order. -/
def persistenceTypeValues : List JVal :=
  [.str "none", .str "source_ip", .str "cookie", .str "app_cookie",
   .str "http_header", .str "tls_session_id", .str "custom"]

/-- The `ClientAuthType` enumeration values, in source order. -/
def clientAuthTypeValues : List JVal := [.str "none", .str "optional", .str "required"]

/-- The `LBProtocol` enumeration values, in source order. -/
def lbProtocolValues : List String := ["http", "https", "tcp", "udp"]

/-- ASCII `str.lower()` (the protocol strings the code lowers are ASCII). -/
def pyLower (s : String) : String := String.mk (s.toList.map Char.toLower)

/-- Protocol standardization of `create_standard_config`: lowered value when
in the `LBProtocol` enumeration, else `"http"` (the input has already been
lowered once; the source lowers it again in the test). -/
def standardize_protocol (protocol : String) : String :=
  if pyLower protocol ∈ lbProtocolValues then pyLower protocol else "http"

/-- Algorithm standardization of `create_standard_config`: enumeration
values stand, the aliases `round-robin`/`least_conn` are mapped, and any
other value passes through unchanged (the if/elif chain has no else). -/
def standardize_algorithm (lb_method : JVal) : JVal :=
  if pyMem lb_method lbAlgorithmValues then lb_method
  else if pyEq lb_method (.str "round-robin") then .str "round_robin"
  else if pyEq lb_method (.str "least_conn") then .str "least_connections"
  else lb_method

/-- Persistence standardization of `create_standard_config`: enumeration
values stand, everything else becomes `"none"`. -/
def standardize_persistence_type (persistence_type : JVal) : JVal :=
  if pyMem persistence_type persistenceTypeValues then persistence_type else .str "none"

/-- Client-auth standardization of `create_standard_config`: enumeration
values stand, everything else becomes `"none"`. -/
def standardize_client_auth_type (client_auth_type : JVal) : JVal :=
  if pyMem client_auth_type clientAuthTypeValues then client_auth_type else .str "none"

/-- One pool member of `CommonLBSchema.create_standard_config`: `idx` is the
length of `pool_members` at append time (the loop appends in order, so the
i-th server sees `len(pool_members) == i`). -/
def build_pool_member (idx : Nat) (server : PyDict) : JVal :=
  .obj [
    ("id", getD server "id" (.str ("server-" ++ toString (idx + 1)))),
    ("name", getD server "fqdn" (getD server "ip" (.str ""))),
    ("ip_address", getD server "ip" (.str "")),
    ("port", getD server "server_port" (.int 80)),
    ("weight", getD server "weight" (.int 1)),
    ("enabled", .bool true),
    ("monitor", .str "http"),
    ("backup", getD server "backup" (.bool false)),
    ("max_connections", getD server "max_connections" (.int 0)),
    ("connection_limit", getD server "connection_limit" (.int 0))]

/-- The body of `CommonLBSchema.create_standard_config` once the two
string-typed inputs (`vip_fqdn`, `protocol`) have been read: builds the
standardized IR from a VIP intent, a server list and a placement decision.
Every other input value is carried or defaulted without a type requirement.
String lowering is modelled on ASCII. -/
def create_standard_config_body (vip_config : PyDict) (servers : List PyDict)
    (placement_decision : PyDict) (vip_fqdn protocol0 : String) : JVal :=
  let vip_ip := getD vip_config "vip_ip" (.str "")
  let port := getD vip_config "port" (.int 80)
  let protocol := pyLower protocol0
  let environment := getD vip_config "environment" (.str "")
  let datacenter := getD vip_config "datacenter" (.str "")
  let lb_method := getD vip_config "lb_method" (.str "round_robin")
  let persistence_type := getD vip_config "persistence_type" (.str "none")
  let persistence_cookie_name := getD vip_config "persistence_cookie_name" (.str "SERVERID")
  let persistence_timeout := getD vip_config "persistence_timeout" (.int 3600)
  let mtls_enabled := getD vip_config "mtls_enabled" (.bool false)
  let client_auth_type := getD vip_config "client_auth_type" (.str "none")
  let client_ca_cert := getD vip_config "client_ca_cert" (.str "")
  let std_protocol := standardize_protocol protocol
  let std_algorithm := standardize_algorithm lb_method
  let std_persistence_type := standardize_persistence_type persistence_type
  let std_client_auth_type := standardize_client_auth_type client_auth_type
  let pool_members : List JVal := servers.enum.map (fun p => build_pool_member p.1 p.2)
  let persistence_base : PyDict := [("type", std_persistence_type), ("timeout", persistence_timeout)]
  let persistence_config : PyDict :=
    if pyMem std_persistence_type [JVal.str "cookie", JVal.str "app_cookie"] then
      persistence_base ++ [
        ("cookie_name", persistence_cookie_name),
        ("cookie_mode", getD vip_config "cookie_mode" (.str "insert")),
        ("cookie_path", getD vip_config "cookie_path" (.str "/")),
        ("cookie_attributes", getD vip_config "cookie_attributes" (.str ""))]
    else if pyEq std_persistence_type (.str "http_header") then
      persistence_base ++ [
        ("header_name", getD vip_config "persistence_header_name" (.str "X-Persistence"))]
    else persistence_base
  let pool : PyDict := [
    ("id", .str ("pool-" ++ slug vip_fqdn)),
    ("name", .str ("pool-" ++ vip_fqdn)),
    ("members", .arr pool_members),
    ("algorithm", std_algorithm),
    ("monitor", .obj [
      ("type", .str "http"),
      ("interval", getD vip_config "monitor_interval" (.int 5)),
      ("timeout", getD vip_config "monitor_timeout" (.int 15)),
      ("retries", getD vip_config "monitor_retries" (.int 3)),
      ("http_method", getD vip_config "monitor_http_method" (.str "GET")),
      ("http_path", getD vip_config "monitor_http_path" (.str "/")),
      ("http_version", getD vip_config "monitor_http_version" (.str "1.1")),
      ("expected_codes", getD vip_config "monitor_expected_codes" (.str "200")),
      ("expected_text", getD vip_config "monitor_expected_text" (.str ""))]),
    ("persistence", .obj persistence_config),
    ("connection_limit", getD vip_config "pool_connection_limit" (.int 0)),
    ("service_down_action", getD vip_config "service_down_action" (.str "none"))]
  let ssl_enabled := std_protocol == "https"
  let ssl_config : PyDict := [
    ("enabled", .bool ssl_enabled),
    ("certificate_id", .str ("cert-" ++ slug vip_fqdn)),
    ("protocols", getD vip_config "ssl_protocols" (.arr [.str "TLSv1.2", .str "TLSv1.3"])),
    ("ciphers", getD vip_config "ssl_ciphers" (.str "")),
    ("prefer_server_ciphers", getD vip_config "prefer_server_ciphers" (.bool true)),
    ("session_cache", getD vip_config "ssl_session_cache" (.bool true)),
    ("session_timeout", getD vip_config "ssl_session_timeout" (.int 300))]
  let client_ca_cert_id : JVal :=
    if truthy mtls_enabled then .str ("ca-cert-" ++ slug vip_fqdn) else .str ""
  let mtls_config : PyDict := [
    ("enabled", mtls_enabled),
    ("client_auth_type", std_client_auth_type),
    ("client_ca_cert_id", client_ca_cert_id),
    ("verify_depth", getD vip_config "mtls_verify_depth" (.int 1)),
    ("crl_enabled", getD vip_config "mtls_crl_enabled" (.bool false)),
    ("ocsp_enabled", getD vip_config "mtls_ocsp_enabled" (.bool false))]
  let virtual_server : PyDict := [
    ("id", .str ("vs-" ++ slug vip_fqdn)),
    ("name", .str ("vs-" ++ vip_fqdn)),
    ("ip_address", vip_ip),
    ("port", port),
    ("protocol", .str std_protocol),
    ("pool_id", getD pool "id" .null),
    ("ssl", .obj ssl_config),
    ("mtls", .obj mtls_config),
    ("enabled", .bool true),
    ("connection_limit", getD vip_config "vs_connection_limit" (.int 0)),
    ("connection_rate_limit", getD vip_config "vs_connection_rate_limit" (.int 0)),
    ("http", .obj [
      ("x_forwarded_for", getD vip_config "x_forwarded_for" (.bool true)),
      ("x_forwarded_proto", getD vip_config "x_forwarded_proto" (.bool true)),
      ("redirect_http_to_https", getD vip_config "redirect_http_to_https" (.bool false)),
      ("hsts_enabled", getD vip_config "hsts_enabled" (.bool false)),
      ("hsts_max_age", getD vip_config "hsts_max_age" (.int 31536000)),
      ("hsts_include_subdomains", getD vip_config "hsts_include_subdomains" (.bool false)),
      ("hsts_preload", getD vip_config "hsts_preload" (.bool false))])]
  let certificates : List JVal :=
    (if ssl_enabled then
      [JVal.obj [
        ("id", getD ssl_config "certificate_id" .null),
        ("name", .str ("cert-" ++ vip_fqdn)),
        ("type", getD vip_config "cert_type" (.str "self_signed")),
        ("common_name", .str vip_fqdn),
        ("sans", getD vip_config "cert_sans" (.arr [.str vip_fqdn])),
        ("key_type", getD vip_config "cert_key_type" (.str "RSA")),
        ("key_size", getD vip_config "cert_key_size" (.int 2048))]]
     else []) ++
    (if truthy mtls_enabled then
      [JVal.obj [
        ("id", client_ca_cert_id),
        ("name", .str ("ca-cert-" ++ vip_fqdn)),
        ("type", .str "imported"),
        ("content", if truthy client_ca_cert then client_ca_cert
                    else .str "# Placeholder for CA certificate")]]
     else [])
  JVal.obj [
    ("metadata", .obj [
      ("schema_version", .str "1.0"),
      ("lb_type", getD placement_decision "lb_type" (.str "")),
      ("environment", environment),
      ("datacenter", datacenter),
      ("created_by", .str "LBaaS"),
      ("description", .str ("Load balancer configuration for " ++ vip_fqdn))]),
    ("virtual_server", .obj virtual_server),
    ("pools", .arr [.obj pool]),
    ("certificates", .arr certificates),
    ("policies", .arr [])]

/-- `CommonLBSchema.create_standard_config`: reads `vip_fqdn` and
`protocol` (the two values the Python applies `str` methods to — a
non-string raises `AttributeError`, at `.replace`/`.lower`), then builds
the configuration dict from `create_standard_config_body`. -/
def create_standard_config (vip_config : PyDict) (servers : List PyDict)
    (placement_decision : PyDict) : PyResult JVal := do
  let vip_fqdn ← asStr (getD vip_config "vip_fqdn" (.str ""))
  let protocol0 ← asStr (getD vip_config "protocol" (.str "HTTP"))
  return create_standard_config_body vip_config servers placement_decision vip_fqdn protocol0

/-! ### `json.dumps(..., indent=2)` and `json.loads`

`to_json` serializes with `json.dumps(config, indent=2)` and the F5/AVI
generators with `json.dumps(..., indent=2)`; `from_json` parses with
`json.loads`.  The model covers the fragment of JSON the IR uses: `null`,
booleans, integers, strings, arrays, objects (no floats).  `dumps` is
modelled with CPython's `ensure_ascii` escaping (`\uXXXX` above `0x7E`,
surrogate pairs for astral characters, `indent=2` whitespace and the
`(',', ': ')` separators that `indent` selects); `loads` is a
whitespace-tolerant recursive-descent parser with the same string-escape
rules, building each object left to right with Python's dict insert-or-
overwrite semantics. -/

/-- The decimal digit character of `n < 10`. -/
def digitChar (n : Nat) : Char := Char.ofNat ('0'.toNat + n)

/-- The lowercase hex digit character of `n < 16` (CPython emits lowercase). -/
def hexDigitChar (n : Nat) : Char :=
  if n < 10 then Char.ofNat ('0'.toNat + n) else Char.ofNat ('a'.toNat + (n - 10))

/-- A `\uXXXX` escape for `n < 0x10000`. -/
def hexEscape (n : Nat) : List Char :=
  ['\\', 'u', hexDigitChar (n / 4096 % 16), hexDigitChar (n / 256 % 16),
   hexDigitChar (n / 16 % 16), hexDigitChar (n % 16)]

/-- One string character as CPython's `ensure_ascii` JSON encoder emits it. -/
def jsonEscapeChar (c : Char) : List Char :=
  if c = '"' then ['\\', '"']
  else if c = '\\' then ['\\', '\\']
  else if c = '\n' then ['\\', 'n']
  else if c = '\r' then ['\\', 'r']
  else if c = '\t' then ['\\', 't']
  else if c = Char.ofNat 8 then ['\\', 'b']
  else if c = Char.ofNat 12 then ['\\', 'f']
  else if c.toNat < 0x20 then hexEscape c.toNat
  else if c.toNat < 0x7F then [c]
  else if c.toNat < 0x10000 then hexEscape c.toNat
  else
    hexEscape (0xD800 + (c.toNat - 0x10000) / 0x400) ++
    hexEscape (0xDC00 + (c.toNat - 0x10000) % 0x400)

/-- A JSON string literal (quotes plus escaped content). -/
def jsonQuote (s : String) : List Char := '"' :: (s.toList.flatMap jsonEscapeChar ++ ['"'])

/-- The decimal digits of `n`, least significant first. -/
def natDigitsRev (n : Nat) : List Char :=
  if h : n < 10 then [digitChar n]
  else digitChar (n % 10) :: natDigitsRev (n / 10)
termination_by n
decreasing_by exact Nat.div_lt_self (by omega) (by omega)

/-- `str(i)` for an integer: optional minus sign and decimal digits. -/
def intChars (i : Int) : List Char :=
  if i < 0 then '-' :: (natDigitsRev i.natAbs).reverse else (natDigitsRev i.natAbs).reverse

/-- A newline plus `n` spaces of indentation. -/
def nlIndent (n : Nat) : List Char := '\n' :: List.replicate n ' '

mutual
/-- Render a value as `json.dumps(v, indent=2)` does, at indentation `ind`. -/
def renderJson (ind : Nat) : JVal → List Char
  | .null => 'n' :: ['u', 'l', 'l']
  | .bool true => 't' :: ['r', 'u', 'e']
  | .bool false => 'f' :: ['a', 'l', 's', 'e']
  | .int i => intChars i
  | .str s => jsonQuote s
  | .arr [] => ['[', ']']
  | .arr (x :: xs) =>
    '[' :: (nlIndent (ind + 2) ++ renderJson (ind + 2) x ++ renderArrRest (ind + 2) xs ++
      nlIndent ind ++ [']'])
  | .obj [] => ['{', '}']
  | .obj (kv :: kvs) =>
    '{' :: (nlIndent (ind + 2) ++ jsonQuote kv.1 ++ ':' :: ' ' :: renderJson (ind + 2) kv.2 ++
      renderObjRest (ind + 2) kvs ++ nlIndent ind ++ ['}'])

/-- The remaining array items, each preceded by a comma and a fresh line. -/
def renderArrRest (ind : Nat) : List JVal → List Char
  | [] => []
  | x :: xs => ',' :: (nlIndent ind ++ renderJson ind x ++ renderArrRest ind xs)

/-- The remaining object members, each preceded by a comma and a fresh line. -/
def renderObjRest (ind : Nat) : List (String × JVal) → List Char
  | [] => []
  | kv :: kvs =>
    ',' :: (nlIndent ind ++ jsonQuote kv.1 ++ ':' :: ' ' :: renderJson ind kv.2 ++
      renderObjRest ind kvs)
end

/-- `json.dumps(v, indent=2)`. -/
def json_dumps_indent2 (v : JVal) : String := String.mk (renderJson 0 v)

/-- `CommonLBSchema.to_json`: `json.dumps(config, indent=2)`. -/
def to_json (config : JVal) : String := json_dumps_indent2 config

/-- JSON whitespace (the characters `json.loads` skips between tokens). -/
def isJsonWS (c : Char) : Bool := c = ' ' || c = '\t' || c = '\n' || c = '\r'

/-- Drop leading JSON whitespace. -/
def skipWS : List Char → List Char
  | c :: cs => if isJsonWS c then skipWS cs else c :: cs
  | [] => []

/-- The value of a hex digit character, if it is one. -/
def hexDigitVal (c : Char) : Option Nat :=
  if '0' ≤ c ∧ c ≤ '9' then some (c.toNat - '0'.toNat)
  else if 'a' ≤ c ∧ c ≤ 'f' then some (c.toNat - 'a'.toNat + 10)
  else if 'A' ≤ c ∧ c ≤ 'F' then some (c.toNat - 'A'.toNat + 10)
  else none

/-- Four hex digits as a number. -/
def hex4Val (a b c d : Char) : Option Nat := do
  let x0 ← hexDigitVal a
  let x1 ← hexDigitVal b
  let x2 ← hexDigitVal c
  let x3 ← hexDigitVal d
  return ((x0 * 16 + x1) * 16 + x2) * 16 + x3

/-- A decimal digit? -/
def isDigitC (c : Char) : Bool := '0' ≤ c && c ≤ '9'

/-- String-body parser: consumes up to and including the closing quote,
undoing the two-character escapes and `\uXXXX` (joining a high/low
surrogate pair into one character, as `json.loads` does). -/
def parseJsonString (acc : List Char) : List Char → Option (String × List Char)
  | '"' :: rest => some (String.mk acc.reverse, rest)
  | '\\' :: 'u' :: a :: b :: c :: d :: '\\' :: 'u' :: e :: f :: g :: h2 :: rest2 =>
    (match hex4Val a b c d with
     | none => none
     | some n =>
       if 0xD800 ≤ n ∧ n < 0xDC00 then
         match hex4Val e f g h2 with
         | some m =>
           if 0xDC00 ≤ m ∧ m < 0xE000 then
             parseJsonString (Char.ofNat (0x10000 + (n - 0xD800) * 0x400 + (m - 0xDC00)) :: acc)
               rest2
           else parseJsonString (Char.ofNat n :: acc) ('\\' :: 'u' :: e :: f :: g :: h2 :: rest2)
         | none => parseJsonString (Char.ofNat n :: acc) ('\\' :: 'u' :: e :: f :: g :: h2 :: rest2)
       else parseJsonString (Char.ofNat n :: acc) ('\\' :: 'u' :: e :: f :: g :: h2 :: rest2))
  | '\\' :: 'u' :: a :: b :: c :: d :: rest =>
    (match hex4Val a b c d with
     | none => none
     | some n => parseJsonString (Char.ofNat n :: acc) rest)
  | '\\' :: e :: rest =>
    if e = '"' then parseJsonString ('"' :: acc) rest
    else if e = '\\' then parseJsonString ('\\' :: acc) rest
    else if e = '/' then parseJsonString ('/' :: acc) rest
    else if e = 'n' then parseJsonString ('\n' :: acc) rest
    else if e = 'r' then parseJsonString ('\r' :: acc) rest
    else if e = 't' then parseJsonString ('\t' :: acc) rest
    else if e = 'b' then parseJsonString (Char.ofNat 8 :: acc) rest
    else if e = 'f' then parseJsonString (Char.ofNat 12 :: acc) rest
    else none
  | c :: rest => parseJsonString (c :: acc) rest
  | [] => none
termination_by cs => cs.length
decreasing_by all_goals first | (simp; omega) | omega | simp_arith

/-- Leading run of decimal digits. -/
def takeDigitRun : List Char → List Char × List Char
  | c :: cs =>
    if isDigitC c then
      let p := takeDigitRun cs
      (c :: p.1, p.2)
    else ([], c :: cs)
  | [] => ([], [])

/-- The number a most-significant-first digit run denotes. -/
def digitRunVal (ds : List Char) : Nat :=
  ds.foldl (fun acc c => acc * 10 + (c.toNat - '0'.toNat)) 0

/-- Integer token parser: optional minus sign and a digit run.  A following
`.`/`e`/`E` (a float) is outside the modelled fragment and rejected. -/
def parseJsonInt (cs : List Char) : Option (Int × List Char) :=
  let sr : Bool × List Char := match cs with | '-' :: r => (true, r) | _ => (false, cs)
  let dr := takeDigitRun sr.2
  if dr.1.isEmpty then none
  else
    match dr.2 with
    | '.' :: _ => none
    | 'e' :: _ => none
    | 'E' :: _ => none
    | r => some (if sr.1 then -(digitRunVal dr.1 : Int) else (digitRunVal dr.1 : Int), r)

/-- Insert-or-overwrite a binding, as Python dict assignment does: an
existing key keeps its position and takes the new value, a new key is
appended. -/
def dictInsert (kvs : PyDict) (k : String) (v : JVal) : PyDict :=
  if hasKey kvs k then kvs.map (fun kv => if kv.1 = k then (k, v) else kv) else kvs ++ [(k, v)]

/-- Build a dict from parsed members left to right (`json.loads` object
semantics: a duplicated key keeps its first position with the last value). -/
def dictFromPairs (ps : PyDict) : PyDict :=
  ps.foldl (fun acc kv => dictInsert acc kv.1 kv.2) []

mutual
/-- One JSON value (fuel-structured recursive descent; fuel one larger than
the input length always suffices). -/
def parseJsonValue (fuel : Nat) (cs : List Char) : Option (JVal × List Char) :=
  match fuel with
  | 0 => none
  | fuel + 1 =>
    match skipWS cs with
    | 'n' :: 'u' :: 'l' :: 'l' :: r => some (.null, r)
    | 't' :: 'r' :: 'u' :: 'e' :: r => some (.bool true, r)
    | 'f' :: 'a' :: 'l' :: 's' :: 'e' :: r => some (.bool false, r)
    | '"' :: r =>
      match parseJsonString [] r with
      | some (s, r2) => some (.str s, r2)
      | none => none
    | '[' :: r =>
      (match skipWS r with
       | ']' :: r2 => some (.arr [], r2)
       | r2 =>
         match parseJsonItems fuel r2 with
         | some (xs, r3) => some (.arr xs, r3)
         | none => none)
    | '{' :: r =>
      (match skipWS r with
       | '}' :: r2 => some (.obj [], r2)
       | r2 =>
         match parseJsonMembers fuel r2 with
         | some (ps, r3) => some (.obj (dictFromPairs ps), r3)
         | none => none)
    | c :: r => if c = '-' || isDigitC c then
        match parseJsonInt (c :: r) with
        | some (i, r2) => some (.int i, r2)
        | none => none
      else none
    | [] => none

/-- One-or-more comma-separated array items up to the closing bracket. -/
def parseJsonItems (fuel : Nat) (cs : List Char) : Option (List JVal × List Char) :=
  match fuel with
  | 0 => none
  | fuel + 1 =>
    match parseJsonValue fuel cs with
    | none => none
    | some (v, r) =>
      match skipWS r with
      | ',' :: r2 =>
        (match parseJsonItems fuel r2 with
         | some (vs, r3) => some (v :: vs, r3)
         | none => none)
      | ']' :: r2 => some ([v], r2)
      | _ => none

/-- One-or-more `"key": value` members up to the closing brace. -/
def parseJsonMembers (fuel : Nat) (cs : List Char) :
    Option (List (String × JVal) × List Char) :=
  match fuel with
  | 0 => none
  | fuel + 1 =>
    match skipWS cs with
    | '"' :: r =>
      (match parseJsonString [] r with
       | none => none
       | some (k, r1) =>
         match skipWS r1 with
         | ':' :: r2 =>
           (match parseJsonValue fuel r2 with
            | none => none
            | some (v, r3) =>
              match skipWS r3 with
              | ',' :: r4 =>
                (match parseJsonMembers fuel r4 with
                 | some (ps, r5) => some ((k, v) :: ps, r5)
                 | none => none)
              | '}' :: r4 => some ([(k, v)], r4)
              | _ => none)
         | _ => none)
    | _ => none
end

/-- `json.loads(s)` on the modelled fragment (`none` models
`JSONDecodeError`, and the unmodelled float forms). -/
def json_loads (s : String) : Option JVal :=
  match parseJsonValue (s.toList.length + 1) s.toList with
  | some (v, r) => if (skipWS r).isEmpty then some v else none
  | none => none

/-- `CommonLBSchema.from_json`: `json.loads(json_str)`. -/
def from_json (json_str : String) : Option JVal := json_loads json_str

/-- Pairwise-distinct strings. -/
def keysDistinct : List String → Bool
  | [] => true
  | k :: ks => !ks.contains k && keysDistinct ks

mutual
/-- Every dict reachable in the value has pairwise-distinct keys — true of
every value that exists as a Python object, since Python dicts cannot hold
a key twice. -/
def nodupKeys : JVal → Bool
  | .arr xs => nodupKeysList xs
  | .obj kvs => keysDistinct (kvs.map Prod.fst) && nodupKeysMembers kvs
  | _ => true

def nodupKeysList : List JVal → Bool
  | [] => true
  | x :: xs => nodupKeys x && nodupKeysList xs

def nodupKeysMembers : List (String × JVal) → Bool
  | [] => true
  | kv :: kvs => nodupKeys kv.2 && nodupKeysMembers kvs
end

/-- The character after a rendered integer may not extend the number token. -/
def jsonNumDelim : List Char → Prop
  | [] => True
  | c :: _ => isDigitC c = false ∧ c ≠ '.' ∧ c ≠ 'e' ∧ c ≠ 'E'

/-! ### The NGINX generator (`NginxTranslator._generate_vendor_config`) -/

/-- The load-balancing-method lines of the NGINX upstream block:
`least_conn;` for `least_connections`, `ip_hash;` for `ip_hash`, and the
round-robin comment (no directive) for everything else. -/
def nginx_algorithm_lines (algorithm : JVal) : List String :=
  if pyEq algorithm (.str "least_connections") then ["        least_conn;"]
  else if pyEq algorithm (.str "ip_hash") then ["        ip_hash;"]
  else ["        # Using default round robin"]

/-- One `server …;` upstream line (address, port, weight, optional
`backup` and `max_conns`). -/
def nginx_member_line (member : JVal) : PyResult String := do
  let m ← asDict member
  let base := "        server " ++ pyStrOf (getD m "ip_address" .null) ++ ":" ++
    pyStrOf (getD m "port" .null) ++ " weight=" ++ pyStrOf (getD m "weight" (.int 1))
  let base := if truthy (getD m "backup" (.bool false)) then base ++ " backup" else base
  let max_conns := getD m "max_connections" (.int 0)
  let gt ← pyGtInt max_conns 0
  let base := if gt then base ++ " max_conns=" ++ pyStrOf max_conns else base
  return base ++ ";"

/-- The lines of `NginxTranslator._generate_vendor_config`, in emission
order; the artifact is their newline join. -/
def nginx_config_lines (metadata virtual_server pools certificates : JVal) :
    PyResult (List String) := do
  let vsd ← asDict virtual_server
  let poolOpt ← get_pool_by_id pools (getD vsd "pool_id" (.str ""))
  let pool ← (match poolOpt with
    | some p =>
      if p.isEmpty then
        Except.error (.valueError ("Pool with ID " ++ pyStrOf (getD vsd "pool_id" .null) ++
          " not found"))
      else Except.ok p
    | none =>
      Except.error (.valueError ("Pool with ID " ++ pyStrOf (getD vsd "pool_id" .null) ++
        " not found")))
  let ssl ← asDict (getD vsd "ssl" (.obj []))
  let ssl_enabled := truthy (getD ssl "enabled" (.bool false))
  let mtls ← asDict (getD vsd "mtls" (.obj []))
  let mtls_enabled := truthy (getD mtls "enabled" (.bool false))
  let md ← asDict metadata
  let header : List String := [
    "# NGINX Load Balancer Configuration for " ++ pyStrOf (getD vsd "name" (.str "")),
    "# Environment: " ++ pyStrOf (getD md "environment" (.str "")),
    "# Datacenter: " ++ pyStrOf (getD md "datacenter" (.str "")),
    "# Generated by: " ++ pyStrOf (getD md "created_by" (.str "LBaaS")),
    "",
    "events \x7b",
    "    worker_connections 1024;",
    "\x7d",
    "",
    "http \x7b",
    "    include       /etc/nginx/mime.types;",
    "    default_type  application/octet-stream;",
    "",
    "    log_format  main  '$remote_addr - $remote_user [$time_local] \"$request\" '",
    "                      '$status $body_bytes_sent \"$http_referer\" '",
    "                      '\"$http_user_agent\" \"$http_x_forwarded_for\"';",
    "",
    "    access_log  /var/log/nginx/access.log  main;",
    "",
    "    sendfile        on;",
    "    keepalive_timeout  65;",
    "",
    "    upstream " ++ pyStrOf (getD pool "name" (.str "backend")) ++ " \x7b"]
  let algLines := nginx_algorithm_lines (getD pool "algorithm" (.str "round_robin"))
  let persistence ← asDict (getD pool "persistence" (.obj []))
  let persistence_type := getD persistence "type" (.str "none")
  let stickyLines : List String :=
    if pyEq persistence_type (.str "cookie") then
      ["        # Cookie-based persistence",
       "        sticky cookie " ++ pyStrOf (getD persistence "cookie_name" (.str "SERVERID")) ++
         " expires=" ++ pyStrOf (getD persistence "timeout" (.int 3600)) ++ "s path=" ++
         pyStrOf (getD persistence "cookie_path" (.str "/")) ++ ";"]
    else []
  let membersIter ← pyIterate (getD pool "members" (.arr []))
  let memberLines ← membersIter.mapM nginx_member_line
  let port := getD vsd "port" (.int 80)
  let sslLines ←
    if ssl_enabled then do
      let certOpt ← get_certificate_by_id certificates (getD ssl "certificate_id" (.str ""))
      let certLines : List String :=
        match certOpt with
        | some cert =>
          if cert.isEmpty then []
          else
            ["        ssl_certificate     /etc/nginx/ssl/" ++
               pyStrOf (getD cert "name" (.str "server")) ++ ".crt;",
             "        ssl_certificate_key /etc/nginx/ssl/" ++
               pyStrOf (getD cert "name" (.str "server")) ++ ".key;"]
        | none => []
      let joined ← pyJoin " " (getD ssl "protocols" (.arr [.str "TLSv1.2", .str "TLSv1.3"]))
      let cipherLines : List String :=
        if truthy (getD ssl "ciphers" (.str "")) then
          ["        ssl_ciphers " ++ pyStrOf (getD ssl "ciphers" (.str "")) ++ ";"] ++
          (if truthy (getD ssl "prefer_server_ciphers" (.bool true)) then
            ["        ssl_prefer_server_ciphers on;"] else [])
        else []
      let cacheLines : List String :=
        if truthy (getD ssl "session_cache" (.bool true)) then
          ["        ssl_session_cache shared:SSL:10m;",
           "        ssl_session_timeout " ++ pyStrOf (getD ssl "session_timeout" (.int 300)) ++
             "m;"]
        else []
      let mtlsLines ←
        if mtls_enabled then do
          let client_auth_type := getD mtls "client_auth_type" (.str "none")
          let verifyLines : List String :=
            if pyEq client_auth_type (.str "required") then ["        ssl_verify_client on;"]
            else if pyEq client_auth_type (.str "optional") then
              ["        ssl_verify_client optional;"]
            else []
          let caOpt ← get_certificate_by_id certificates (getD mtls "client_ca_cert_id" (.str ""))
          let caLines : List String :=
            match caOpt with
            | some ca =>
              if ca.isEmpty then []
              else
                ["        ssl_client_certificate /etc/nginx/ssl/" ++
                   pyStrOf (getD ca "name" (.str "ca")) ++ ".crt;"]
            | none => []
          let depthLines : List String :=
            ["        ssl_verify_depth " ++ pyStrOf (getD mtls "verify_depth" (.int 1)) ++ ";"]
          let crlLines : List String :=
            if truthy (getD mtls "crl_enabled" (.bool false)) then
              ["        ssl_crl /etc/nginx/ssl/crl.pem;"]
            else []
          pure (verifyLines ++ caLines ++ depthLines ++ crlLines)
        else pure []
      pure (["        listen " ++ pyStrOf port ++ " ssl;"] ++ certLines ++
        ["        ssl_protocols " ++ joined ++ ";"] ++ cipherLines ++ cacheLines ++ mtlsLines)
    else pure ["        listen " ++ pyStrOf port ++ ";"]
  let serverName ← pyReplace (getD vsd "name" (.str "")) "vs-" ""
  let http ← asDict (getD vsd "http" (.obj []))
  let bodyLines ←
    if truthy (getD http "redirect_http_to_https" (.bool false)) && !ssl_enabled then
      pure ["        return 301 https://$host$request_uri;"]
    else do
      let headerLines : List String :=
        (if truthy (getD http "x_forwarded_for" (.bool true)) then
          ["            proxy_set_header X-Real-IP $remote_addr;",
           "            proxy_set_header X-Forwarded-For $proxy_add_x_forwarded_for;"]
         else []) ++
        (if truthy (getD http "x_forwarded_proto" (.bool true)) then
          ["            proxy_set_header X-Forwarded-Proto $scheme;"]
         else []) ++
        ["            proxy_set_header Host $host;"]
      let conn_limit := getD vsd "connection_limit" (.int 0)
      let gt ← pyGtInt conn_limit 0
      let limitLines : List String :=
        if gt then ["            limit_conn conn_limit_per_ip " ++ pyStrOf conn_limit ++ ";"]
        else []
      let hstsLines : List String :=
        if ssl_enabled && truthy (getD http "hsts_enabled" (.bool false)) then
          let hsts_options := "max-age=" ++ pyStrOf (getD http "hsts_max_age" (.int 31536000))
          let hsts_options :=
            if truthy (getD http "hsts_include_subdomains" (.bool false)) then
              hsts_options ++ "; includeSubDomains"
            else hsts_options
          let hsts_options :=
            if truthy (getD http "hsts_preload" (.bool false)) then hsts_options ++ "; preload"
            else hsts_options
          ["            add_header Strict-Transport-Security \"" ++ hsts_options ++ "\" always;"]
        else []
      pure (["", "        location / \x7b",
        "            proxy_pass http://" ++ pyStrOf (getD pool "name" (.str "backend")) ++ ";"] ++
        headerLines ++ limitLines ++ hstsLines ++ ["        \x7d"])
  return header ++ algLines ++ stickyLines ++ memberLines ++ ["    \x7d", "", "    server \x7b"] ++
    sslLines ++ ["        server_name " ++ serverName ++ ";"] ++ bodyLines ++ ["    \x7d", "\x7d"]

/-- `NginxTranslator._generate_vendor_config`: the newline join of
`nginx_config_lines`. -/
def nginx_generate_vendor_config (metadata virtual_server pools certificates : JVal) :
    PyResult String := do
  let lines ← nginx_config_lines metadata virtual_server pools certificates
  return String.intercalate "\n" lines

/-! ### The F5 generator (`F5Translator._generate_vendor_config`) -/

/-- The F5 algorithm chain: `f5_algorithm = "round-robin"` then the
if/elif reassignments, in source order. -/
def f5_algorithm_mode (algorithm : JVal) : String :=
  if pyEq algorithm (.str "least_connections") then "least-connections-member"
  else if pyEq algorithm (.str "fastest_response") then "fastest-app-response"
  else if pyEq algorithm (.str "weighted_round_robin") then "weighted-round-robin"
  else if pyEq algorithm (.str "ip_hash") then "ip-hash"
  else "round-robin"

/-- `F5Translator._translate_persistence_type`: the fixed lookup table with
default `"none"`. -/
def f5_translate_persistence_type (persistence_type : JVal) : String :=
  if pyEq persistence_type (.str "source_ip") then "source_addr"
  else if pyEq persistence_type (.str "cookie") then "cookie"
  else if pyEq persistence_type (.str "app_cookie") then "app_cookie"
  else if pyEq persistence_type (.str "http_header") then "hash"
  else if pyEq persistence_type (.str "tls_session_id") then "ssl"
  else if pyEq persistence_type (.str "custom") then "universal"
  else "none"

/-- One F5 pool member dict. -/
def f5_member_config (member : JVal) : PyResult JVal := do
  let m ← asDict member
  let base : PyDict := [
    ("name", getD m "name" (getD m "ip_address" .null)),
    ("address", getD m "ip_address" .null),
    ("port", getD m "port" (.int 80)),
    ("weight", getD m "weight" (.int 1)),
    ("monitor", .str "http"),
    ("state", if truthy (getD m "enabled" (.bool true)) then .str "enabled" else .str "disabled")]
  let conn_limit := getD m "connection_limit" (.int 0)
  let gt ← pyGtInt conn_limit 0
  let base := if gt then base ++ [("connectionLimit", conn_limit)] else base
  let base := if truthy (getD m "backup" (.bool false)) then base ++ [("priorityGroup", .int 1)]
    else base
  return .obj base

/-- The F5 declaration dict built by `F5Translator._generate_vendor_config`
before its `json.dumps`. -/
def f5_build_config (metadata virtual_server pools certificates : JVal) : PyResult JVal := do
  let vsd ← asDict virtual_server
  let poolOpt ← get_pool_by_id pools (getD vsd "pool_id" (.str ""))
  let pool ← (match poolOpt with
    | some p =>
      if p.isEmpty then
        Except.error (.valueError ("Pool with ID " ++ pyStrOf (getD vsd "pool_id" .null) ++
          " not found"))
      else Except.ok p
    | none =>
      Except.error (.valueError ("Pool with ID " ++ pyStrOf (getD vsd "pool_id" .null) ++
        " not found")))
  let ssl ← asDict (getD vsd "ssl" (.obj []))
  let ssl_enabled := truthy (getD ssl "enabled" (.bool false))
  let mtls ← asDict (getD vsd "mtls" (.obj []))
  let mtls_enabled := truthy (getD mtls "enabled" (.bool false))
  let membersIter ← pyIterate (getD pool "members" (.arr []))
  let pool_members ← membersIter.mapM f5_member_config
  let f5_algorithm := f5_algorithm_mode (getD pool "algorithm" (.str "round_robin"))
  let monitor ← asDict (getD pool "monitor" (.obj []))
  let pool_name ← pyReplace (getD pool "name" (.str "pool")) "-" "_"
  let f5_pool_base : PyDict := [
    ("name", .str pool_name),
    ("members", .arr pool_members),
    ("monitor", .obj [
      ("type", getD monitor "type" (.str "http")),
      ("send", .str ("GET " ++ pyStrOf (getD monitor "http_path" (.str "/")) ++
        " HTTP/1.1\\r\\nHost: \\r\\nConnection: close\\r\\n\\r\\n")),
      ("recv", getD monitor "expected_text" (.str "")),
      ("interval", getD monitor "interval" (.int 5)),
      ("timeout", getD monitor "timeout" (.int 16)),
      ("retries", getD monitor "retries" (.int 3))]),
    ("load_balancing_mode", .str f5_algorithm)]
  let persistence ← asDict (getD pool "persistence" (.obj []))
  let persistence_type := getD persistence "type" (.str "none")
  let f5_pool : PyDict :=
    if !pyEq persistence_type (.str "none") then
      f5_pool_base ++ [("persistence", .obj [
        ("type", .str (f5_translate_persistence_type persistence_type)),
        ("cookie_name",
          if pyMem persistence_type [JVal.str "cookie", JVal.str "app_cookie"] then
            getD persistence "cookie_name" (.str "SERVERID")
          else .null),
        ("timeout", getD persistence "timeout" (.int 3600))])]
    else f5_pool_base
  let profiles : List JVal := [.str "http", .str "tcp"] ++
    (if ssl_enabled then
      [JVal.str "clientssl"] ++ (if mtls_enabled then [JVal.str "serverssl"] else [])
     else [])
  let vs_name ← pyReplace (getD vsd "name" (.str "vs")) "-" "_"
  let f5_vs : PyDict := [
    ("name", .str vs_name),
    ("destination", .str (pyStrOf (getD vsd "ip_address" .null) ++ ":" ++
      pyStrOf (getD vsd "port" (.int 80)))),
    ("pool", .str pool_name),
    ("profiles", .arr profiles),
    ("source_address_translation", .obj [("type", .str "automap")]),
    ("translate_address", .bool true),
    ("translate_port", .bool true)]
  let conn_limit := getD vsd "connection_limit" (.int 0)
  let gt1 ← pyGtInt conn_limit 0
  let f5_vs := if gt1 then f5_vs ++ [("connection_limit", conn_limit)] else f5_vs
  let conn_rate_limit := getD vsd "connection_rate_limit" (.int 0)
  let gt2 ← pyGtInt conn_rate_limit 0
  let f5_vs := if gt2 then f5_vs ++ [("rate_limit", conn_rate_limit)] else f5_vs
  let f5_vs ←
    if ssl_enabled then do
      let certOpt ← get_certificate_by_id certificates (getD ssl "certificate_id" (.str ""))
      match certOpt with
      | some cert =>
        if cert.isEmpty then pure f5_vs
        else do
          let cert_name ← pyReplace (getD cert "name" (.str "server")) "-" "_"
          let f5_ssl : PyDict := [
            ("name", .str ("ssl_" ++ cert_name)),
            ("cert", .str ("/config/ssl/ssl.crt/" ++ cert_name ++ ".crt")),
            ("key", .str ("/config/ssl/ssl.key/" ++ cert_name ++ ".key")),
            ("ciphers", getD ssl "ciphers" (.str "DEFAULT")),
            ("protocols", getD ssl "protocols" (.arr [.str "TLSv1.2", .str "TLSv1.3"]))]
          let f5_ssl ←
            if mtls_enabled then do
              let client_auth_type := getD mtls "client_auth_type" (.str "none")
              if !pyEq client_auth_type (.str "none") then do
                let caOpt ← get_certificate_by_id certificates
                  (getD mtls "client_ca_cert_id" (.str ""))
                match caOpt with
                | some ca =>
                  if ca.isEmpty then pure f5_ssl
                  else do
                    let ca_cert_name ← pyReplace (getD ca "name" (.str "ca")) "-" "_"
                    let f5_ssl := f5_ssl ++ [
                      ("client_auth", client_auth_type),
                      ("ca_file", .str ("/config/ssl/ssl.crt/" ++ ca_cert_name ++ ".crt")),
                      ("verify_depth", getD mtls "verify_depth" (.int 1))]
                    let f5_ssl :=
                      if truthy (getD mtls "crl_enabled" (.bool false)) then
                        f5_ssl ++ [("crl_file", .str ("/config/ssl/ssl.crl/" ++ ca_cert_name ++
                          ".crl"))]
                      else f5_ssl
                    pure f5_ssl
                | none => pure f5_ssl
              else pure f5_ssl
            else pure f5_ssl
          pure (f5_vs ++ [("ssl", .obj f5_ssl)])
      | none => pure f5_vs
    else pure f5_vs
  let http_settings := getD vsd "http" (.obj [])
  let f5_vs ←
    if truthy http_settings then do
      let http ← asDict http_settings
      let f5_http : PyDict :=
        (if truthy (getD http "x_forwarded_for" (.bool true)) then
          [("insert_xforwarded_for", JVal.bool true)] else []) ++
        (if truthy (getD http "redirect_http_to_https" (.bool false)) then
          [("redirect_http_to_https", JVal.bool true)] else []) ++
        (if ssl_enabled && truthy (getD http "hsts_enabled" (.bool false)) then
          [("hsts_enabled", JVal.bool true),
           ("hsts_max_age", getD http "hsts_max_age" (.int 31536000)),
           ("hsts_include_subdomains", getD http "hsts_include_subdomains" (.bool false)),
           ("hsts_preload", getD http "hsts_preload" (.bool false))]
         else [])
      pure (f5_vs ++ [("http", .obj f5_http)])
    else pure f5_vs
  let md ← asDict metadata
  return .obj [
    ("class", .str "ADC"),
    ("schemaVersion", .str "3.0.0"),
    ("id", .str ("LBaaS_" ++ pyStrOf (getD md "environment" .null) ++ "_" ++
      pyStrOf (getD md "datacenter" .null))),
    ("label", .str ("LBaaS configuration for " ++ pyStrOf (getD vsd "name" (.str "")))),
    ("remark", .str ("Generated by " ++ pyStrOf (getD md "created_by" (.str "LBaaS")) ++
      " for " ++ pyStrOf (getD md "environment" .null) ++ " in " ++
      pyStrOf (getD md "datacenter" .null))),
    ("controls", .obj [("class", .str "Controls"), ("trace", .bool true),
      ("logLevel", .str "debug")]),
    ("pools", .arr [f5_pool |> JVal.obj]),
    ("virtualServers", .arr [f5_vs |> JVal.obj])]

/-- `F5Translator._generate_vendor_config`: the built declaration dict,
serialized with `json.dumps(..., indent=2)`. -/
def f5_generate_vendor_config (metadata virtual_server pools certificates : JVal) :
    PyResult String := do
  let cfg ← f5_build_config metadata virtual_server pools certificates
  return json_dumps_indent2 cfg

/-! ### The AVI generator (`AviTranslator._generate_vendor_config`) -/

/-- `AviTranslator._translate_lb_algorithm`: the fixed lookup table with
default `LB_ALGORITHM_ROUND_ROBIN`. -/
def avi_translate_lb_algorithm (algorithm : JVal) : String :=
  if pyEq algorithm (.str "round_robin") then "LB_ALGORITHM_ROUND_ROBIN"
  else if pyEq algorithm (.str "least_connections") then "LB_ALGORITHM_LEAST_CONNECTIONS"
  else if pyEq algorithm (.str "ip_hash") then "LB_ALGORITHM_CONSISTENT_HASH"
  else if pyEq algorithm (.str "least_requests") then "LB_ALGORITHM_FEWEST_SERVERS"
  else if pyEq algorithm (.str "fastest_response") then "LB_ALGORITHM_FASTEST_RESPONSE"
  else if pyEq algorithm (.str "weighted_round_robin") then "LB_ALGORITHM_ROUND_ROBIN"
  else "LB_ALGORITHM_ROUND_ROBIN"

/-- `AviTranslator._translate_persistence_type`: the fixed lookup table with
default `PERSISTENCE_TYPE_NONE`. -/
def avi_translate_persistence_type (persistence_type : JVal) : String :=
  if pyEq persistence_type (.str "source_ip") then "PERSISTENCE_TYPE_CLIENT_IP_ADDRESS"
  else if pyEq persistence_type (.str "cookie") then "PERSISTENCE_TYPE_HTTP_COOKIE"
  else if pyEq persistence_type (.str "app_cookie") then "PERSISTENCE_TYPE_APP_COOKIE"
  else if pyEq persistence_type (.str "http_header") then "PERSISTENCE_TYPE_CUSTOM_HTTP_HEADER"
  else if pyEq persistence_type (.str "tls_session_id") then "PERSISTENCE_TYPE_TLS"
  else if pyEq persistence_type (.str "custom") then "PERSISTENCE_TYPE_CUSTOM_SERVER"
  else "PERSISTENCE_TYPE_NONE"

/-- One AVI pool server dict. -/
def avi_server_config (member : JVal) : PyResult JVal := do
  let m ← asDict member
  let base : PyDict := [
    ("ip", .obj [("addr", getD m "ip_address" .null), ("type", .str "V4")]),
    ("port", getD m "port" (.int 80)),
    ("hostname", getD m "name" (.str "")),
    ("ratio", getD m "weight" (.int 1)),
    ("enabled", getD m "enabled" (.bool true))]
  let conn_limit := getD m "connection_limit" (.int 0)
  let gt ← pyGtInt conn_limit 0
  let base := if gt then base ++ [("connection_limit", conn_limit)] else base
  return .obj base

/-- The accepted-versions entries for the SSL protocols value: one entry per
recognized `TLSv1.2`/`TLSv1.3` element, in order. -/
def avi_accepted_versions (protocols : List JVal) : List JVal :=
  protocols.foldr (fun p acc =>
    if pyEq p (.str "TLSv1.2") then JVal.obj [("type", .str "SSL_VERSION_TLS1_2")] :: acc
    else if pyEq p (.str "TLSv1.3") then JVal.obj [("type", .str "SSL_VERSION_TLS1_3")] :: acc
    else acc) []

/-- The AVI configuration dict built by
`AviTranslator._generate_vendor_config` before its `json.dumps`. -/
def avi_build_config (metadata virtual_server pools certificates : JVal) : PyResult JVal := do
  let vsd ← asDict virtual_server
  let poolOpt ← get_pool_by_id pools (getD vsd "pool_id" (.str ""))
  let pool ← (match poolOpt with
    | some p =>
      if p.isEmpty then
        Except.error (.valueError ("Pool with ID " ++ pyStrOf (getD vsd "pool_id" .null) ++
          " not found"))
      else Except.ok p
    | none =>
      Except.error (.valueError ("Pool with ID " ++ pyStrOf (getD vsd "pool_id" .null) ++
        " not found")))
  let ssl ← asDict (getD vsd "ssl" (.obj []))
  let ssl_enabled := truthy (getD ssl "enabled" (.bool false))
  let mtls ← asDict (getD vsd "mtls" (.obj []))
  let mtls_enabled := truthy (getD mtls "enabled" (.bool false))
  let membersIter ← pyIterate (getD pool "members" (.arr []))
  let pool_servers ← membersIter.mapM avi_server_config
  let avi_algorithm := avi_translate_lb_algorithm (getD pool "algorithm" (.str "round_robin"))
  let monitor ← asDict (getD pool "monitor" (.obj []))
  let codes ← pySplit (getD monitor "expected_codes" (.str "200")) ","
  let health_monitor : PyDict := [
    ("type", getD monitor "type" (.str "HTTP")),
    ("http_monitor", .obj [
      ("http_method", getD monitor "http_method" (.str "GET")),
      ("http_request", getD monitor "http_path" (.str "/")),
      ("http_response_code", .arr (codes.map (fun c => JVal.obj [("code", .str c.trim)])))]),
    ("monitor_port", getD monitor "port" (.int 0)),
    ("receive_timeout", getD monitor "timeout" (.int 15)),
    ("failed_checks", getD monitor "retries" (.int 3)),
    ("send_interval", getD monitor "interval" (.int 5))]
  let persistence ← asDict (getD pool "persistence" (.obj []))
  let persistence_type := getD persistence "type" (.str "none")
  let persistence_profile : Option PyDict :=
    if !pyEq persistence_type (.str "none") then
      some ([("type", .str (avi_translate_persistence_type persistence_type))] ++
        (if pyMem persistence_type [JVal.str "cookie", JVal.str "app_cookie"] then
          [("cookie_name", getD persistence "cookie_name" (.str "SERVERID")),
           ("timeout", getD persistence "timeout" (.int 3600))]
         else if pyEq persistence_type (.str "http_header") then
          [("http_header_name", getD persistence "header_name" (.str "X-Persistence"))]
         else []))
    else none
  let avi_pool : PyDict := [
    ("name", getD pool "name" (.str "pool")),
    ("servers", .arr pool_servers),
    ("lb_algorithm", .str avi_algorithm),
    ("health_monitor_refs", .arr [.str "/api/healthmonitor?name=System-HTTP"]),
    ("health_monitor", .obj health_monitor),
    ("enabled", .bool true)]
  let avi_pool : PyDict :=
    match persistence_profile with
    | some pp => avi_pool ++ [("persistence_profile", .obj pp)]
    | none => avi_pool
  let ssl_profile : Option PyDict ←
    if ssl_enabled then do
      let certOpt ← get_certificate_by_id certificates (getD ssl "certificate_id" (.str ""))
      match certOpt with
      | some cert =>
        if cert.isEmpty then pure none
        else do
          let cert_name := pyStrOf (getD cert "name" (.str "server"))
          let protocols := getD ssl "protocols" (.arr [.str "TLSv1.2", .str "TLSv1.3"])
          let protoList ← pyIterate protocols
          let base : PyDict := [
            ("name", .str ("ssl-" ++ cert_name)),
            ("certificate_refs", .arr [.str ("/api/sslkeyandcertificate?name=" ++ cert_name)]),
            ("ssl_profile_ref", .str "/api/sslprofile?name=System-Standard"),
            ("enabled", .bool true),
            ("accepted_versions", .arr (avi_accepted_versions protoList))]
          let base :=
            if truthy (getD ssl "ciphers" (.str "")) then
              base ++ [("cipher_suites", getD ssl "ciphers" (.str ""))]
            else base
          let base ←
            if mtls_enabled then do
              let client_auth_type := getD mtls "client_auth_type" (.str "none")
              if !pyEq client_auth_type (.str "none") then do
                let caOpt ← get_certificate_by_id certificates
                  (getD mtls "client_ca_cert_id" (.str ""))
                match caOpt with
                | some ca =>
                  if ca.isEmpty then pure base
                  else do
                    let ca_cert_name := pyStrOf (getD ca "name" (.str "ca"))
                    pure (base ++ [
                      ("client_auth", .bool true),
                      ("ca_certs", .arr [.str ("/api/sslkeyandcertificate?name=" ++
                        ca_cert_name)]),
                      ("client_auth_require",
                        .bool (pyEq client_auth_type (.str "required"))),
                      ("validate_depth", getD mtls "verify_depth" (.int 1))])
                | none => pure base
              else pure base
            else pure base
          pure (some base)
      | none => pure none
    else pure none
  let http ← asDict (getD vsd "http" (.obj []))
  let http_profile_inner : PyDict :=
    [("x_forwarded_proto_enabled", getD http "x_forwarded_proto" (.bool true)),
     ("x_forwarded_for_enabled", getD http "x_forwarded_for" (.bool true))] ++
    (if ssl_enabled && truthy (getD http "hsts_enabled" (.bool false)) then
      [("hsts_enabled", JVal.bool true),
       ("hsts_max_age", getD http "hsts_max_age" (.int 31536000))] ++
      (if truthy (getD http "hsts_include_subdomains" (.bool false)) then
        [("hsts_subdomains_enabled", JVal.bool true)] else []) ++
      (if truthy (getD http "hsts_preload" (.bool false)) then
        [("hsts_preload_enabled", JVal.bool true)] else [])
     else [])
  let http_profile : PyDict := [
    ("name", .str ("http-" ++ pyStrOf (getD vsd "name" (.str "vs")))),
    ("type", .str "APPLICATION_PROFILE_TYPE_HTTP"),
    ("http_profile", .obj http_profile_inner)]
  let vs_name := getD vsd "name" (.str "vs")
  let avi_vs : PyDict := [
    ("name", vs_name),
    ("enabled", getD vsd "enabled" (.bool true)),
    ("services", .arr [.obj [("port", getD vsd "port" (.int 80)),
      ("enable_ssl", .bool ssl_enabled)]]),
    ("vip", .arr [.obj [("ip_address", .obj [("addr", getD vsd "ip_address" .null),
      ("type", .str "V4")]), ("enabled", .bool true)]]),
    ("pool_ref", .str ("/api/pool?name=" ++ pyStrOf (getD pool "name" (.str "pool")))),
    ("application_profile_ref", .str ("/api/applicationprofile?name=" ++
      ("http-" ++ pyStrOf (getD vsd "name" (.str "vs"))))),
    ("network_profile_ref", .str "/api/networkprofile?name=System-TCP-Proxy")]
  let avi_vs : PyDict :=
    match ssl_profile with
    | some sp => avi_vs ++ [
        ("ssl_profile_ref", .str ("/api/sslprofile?name=" ++ pyStrOf (getD sp "name" .null))),
        ("ssl_key_and_certificate_refs", getD sp "certificate_refs" .null)]
    | none => avi_vs
  let conn_limit := getD vsd "connection_limit" (.int 0)
  let gt ← pyGtInt conn_limit 0
  let avi_vs := if gt then avi_vs ++ [("connection_limit", conn_limit)] else avi_vs
  let avi_vs :=
    if truthy (getD http "redirect_http_to_https" (.bool false)) then
      avi_vs ++ [("http_policies", .arr [.obj [
        ("name", .str ("redirect-" ++ pyStrOf vs_name)),
        ("http_request_policy", .obj [("rules", .arr [.obj [
          ("name", .str "redirect-http-to-https"),
          ("redirect_action", .obj [
            ("protocol", .str "HTTPS"),
            ("port", .int 443),
            ("status_code", .str "HTTP_REDIRECT_STATUS_CODE_302")])]])])]])]
    else avi_vs
  let md ← asDict metadata
  let avi_config : PyDict := [
    ("pools", .arr [.obj avi_pool]),
    ("virtual_services", .arr [.obj avi_vs]),
    ("application_profiles", .arr [.obj http_profile]),
    ("tenant", getD md "environment" (.str "admin")),
    ("version", .str "20.1.1"),
    ("description", .str ("Generated by " ++ pyStrOf (getD md "created_by" (.str "LBaaS")) ++
      " for " ++ pyStrOf (getD md "environment" .null) ++ " in " ++
      pyStrOf (getD md "datacenter" .null)))]
  let avi_config : PyDict :=
    match ssl_profile with
    | some sp => avi_config ++ [("ssl_profiles", .arr [.obj sp])]
    | none => avi_config
  return .obj avi_config

/-- `AviTranslator._generate_vendor_config`: the built dict, serialized with
`json.dumps(..., indent=2)`. -/
def avi_generate_vendor_config (metadata virtual_server pools certificates : JVal) :
    PyResult String := do
  let cfg ← avi_build_config metadata virtual_server pools certificates
  return json_dumps_indent2 cfg

/-! ### The shared translate/deploy contract (`LBTranslatorBase`) -/

/-- `LBTranslatorBase.translate_config` for a given vendor generator:
validate, extract the four sections, generate. -/
def translate_config (gen : JVal → JVal → JVal → JVal → PyResult String)
    (standard_config : PyDict) : PyResult String := do
  validate_config standard_config
  let metadata := getD standard_config "metadata" (.obj [])
  let virtual_server := getD standard_config "virtual_server" (.obj [])
  let pools := getD standard_config "pools" (.arr [])
  let certificates := getD standard_config "certificates" (.arr [])
  gen metadata virtual_server pools certificates

/-- The NGINX translator's `translate_config`. -/
def nginx_translate_config (standard_config : PyDict) : PyResult String :=
  translate_config nginx_generate_vendor_config standard_config

/-- The F5 translator's `translate_config`. -/
def f5_translate_config (standard_config : PyDict) : PyResult String :=
  translate_config f5_generate_vendor_config standard_config

/-- The AVI translator's `translate_config`. -/
def avi_translate_config (standard_config : PyDict) : PyResult String :=
  translate_config avi_generate_vendor_config standard_config

/-- `NginxTranslator._get_file_extension`. -/
def nginx_get_file_extension : String := "conf"

/-- `F5Translator._get_file_extension`. -/
def f5_get_file_extension : String := "json"

/-- `AviTranslator._get_file_extension`. -/
def avi_get_file_extension : String := "json"

/-- The filesystem outcomes the environment injects into `deploy`: `some
msg` makes the corresponding call (`os.makedirs`, `open`/`write`) raise
`OSError(msg)`. -/
structure DeployEnv where
  makedirs_error : Option String
  write_error : Option String

/-- `os.path.join(dir, file)`: an absolute `file` wins; otherwise the parts
are joined, inserting `/` unless `dir` is empty or already ends in `/`. -/
def os_path_join (dir file : String) : String :=
  if file.toList.head? = some '/' then file
  else if dir = "" then file
  else if dir.toList.getLast? = some '/' then dir ++ file
  else dir ++ "/" ++ file

/-- The body of `LBTranslatorBase.deploy`'s `try` block: translate, create
the directory, compute the artifact path, write, run the vendor hook, then
add `config_path` and `lb_type` to whatever dict the hook returned. -/
def deploy_pipeline (translate : PyDict → PyResult String) (ext : String)
    (hook : PyDict → String → PyResult JVal) (env : DeployEnv)
    (standard_config : PyDict) (output_dir : String) : PyResult PyDict := do
  let _vendor_config ← translate standard_config
  match env.makedirs_error with
  | some m => Except.error (.osError m)
  | none => pure ()
  let vsd ← asDict (getD standard_config "virtual_server" (.obj []))
  let vs_name := getD vsd "name" (.str "unknown")
  let config_path := os_path_join output_dir (pyStrOf vs_name ++ "." ++ ext)
  match env.write_error with
  | some m => Except.error (.osError m)
  | none => pure ()
  let deploy_result ← hook standard_config config_path
  let dr ← asDict deploy_result
  let md ← asDict (getD standard_config "metadata" (.obj []))
  return dictInsert (dictInsert dr "config_path" (.str config_path)) "lb_type"
    (getD md "lb_type" (.str ""))

/-- The artifact path `deploy` computes (available from the moment the
virtual-server name has been read). -/
def deploy_config_path (ext : String) (standard_config : PyDict) (output_dir : String) :
    String :=
  os_path_join output_dir
    (pyStrOf (getD (dictOrEmpty (getD standard_config "virtual_server" (.obj []))) "name"
      (.str "unknown")) ++ "." ++ ext)

/-- `LBTranslatorBase.deploy`: the `try` body with every exception caught
and converted to `{'success': False, 'error': f"Exception during deployment:
{e}"}`. -/
def deploy (translate : PyDict → PyResult String) (ext : String)
    (hook : PyDict → String → PyResult JVal) (env : DeployEnv)
    (standard_config : PyDict) (output_dir : String) : PyDict :=
  match deploy_pipeline translate ext hook env standard_config output_dir with
  | .ok d => d
  | .error e =>
    [("success", .bool false),
     ("error", .str ("Exception during deployment: " ++ pyErrStr e))]

/-! ### Statement accessors and well-typedness -/

/-- The `virtual_server` section of a configuration, as a dict. -/
def configVirtualServer (kvs : PyDict) : PyDict :=
  dictOrEmpty (getD kvs "virtual_server" (.obj []))

/-- The first pool of a configuration, as a dict. -/
def configFirstPool (kvs : PyDict) : PyDict :=
  match getD kvs "pools" (.arr []) with
  | .arr (p :: _) => dictOrEmpty p
  | _ => []

/-- The `ssl` block of the virtual server. -/
def configSSL (kvs : PyDict) : PyDict :=
  dictOrEmpty (getD (configVirtualServer kvs) "ssl" (.obj []))

/-- The `mtls` block of the virtual server. -/
def configMtls (kvs : PyDict) : PyDict :=
  dictOrEmpty (getD (configVirtualServer kvs) "mtls" (.obj []))

/-- The algorithm of the first pool of the configuration the IR builder
returns (`none` when the builder raises). -/
def builderFirstPoolAlgorithm (vip_config : PyDict) (servers : List PyDict)
    (placement_decision : PyDict) : Option JVal :=
  match create_standard_config vip_config servers placement_decision with
  | .ok (.obj kvs) => some (getD (configFirstPool kvs) "algorithm" .null)
  | _ => none

/-- The id of the first pool of the configuration the IR builder returns. -/
def builderFirstPoolId (vip_config : PyDict) (servers : List PyDict)
    (placement_decision : PyDict) : Option JVal :=
  match create_standard_config vip_config servers placement_decision with
  | .ok (.obj kvs) => some (getD (configFirstPool kvs) "id" .null)
  | _ => none

/-- The first entry of the F5 declaration's `virtualServers`, as a dict. -/
def f5FirstVirtualServer (cfg : JVal) : PyDict :=
  match getD (dictOrEmpty cfg) "virtualServers" (.arr []) with
  | .arr (v :: _) => dictOrEmpty v
  | _ => []

/-- The field, if present, is a string. -/
def strIfPresent (kvs : PyDict) (k : String) : Bool :=
  match lookupKey kvs k with
  | some (.str _) => true
  | some _ => false
  | none => true

/-- The field, if present, is a dict. -/
def dictIfPresent (kvs : PyDict) (k : String) : Bool :=
  match lookupKey kvs k with
  | some (.obj _) => true
  | some _ => false
  | none => true

/-- The field, if present, is a number (an int or a bool). -/
def numIfPresent (kvs : PyDict) (k : String) : Bool :=
  match lookupKey kvs k with
  | some v => (numVal v).isSome
  | none => true

/-- The field, if present, is a list of strings. -/
def strListIfPresent (kvs : PyDict) (k : String) : Bool :=
  match lookupKey kvs k with
  | some (.arr xs) => xs.all (fun x => match x with | .str _ => true | _ => false)
  | some _ => false
  | none => true

/-- A pool member whose compared fields carry their schema types. -/
def memberWellTyped (m : JVal) : Bool :=
  match m with
  | .obj kvs => numIfPresent kvs "max_connections" && numIfPresent kvs "connection_limit"
  | _ => false

/-- A pool whose generator-touched fields carry their schema types (and
which, like every dict with an `id`, is non-empty, so the generators'
`if not pool` guard passes). -/
def poolWellTyped (p : JVal) : Bool :=
  match p with
  | .obj kvs =>
    !kvs.isEmpty && strIfPresent kvs "name" && dictIfPresent kvs "monitor" &&
    dictIfPresent kvs "persistence" &&
    (match lookupKey kvs "monitor" with
     | some (.obj m) => strIfPresent m "expected_codes"
     | _ => true) &&
    (match lookupKey kvs "members" with
     | some (.arr ms) => ms.all memberWellTyped
     | none => true
     | some _ => false)
  | _ => false

/-- A certificate entry whose `name` (used in emitted paths) is a string. -/
def certWellTyped (c : JVal) : Bool :=
  match c with
  | .obj kvs => strIfPresent kvs "name"
  | _ => false

/-- The fields the generators compare, iterate, split or `.replace` carry
the types the schema gives them (validation does not check any of this). -/
def WellTypedConfig (config : PyDict) : Bool :=
  dictIfPresent config "metadata" &&
  (match lookupKey config "virtual_server" with
   | some (.obj vs) =>
     strIfPresent vs "name" && dictIfPresent vs "ssl" && dictIfPresent vs "mtls" &&
     dictIfPresent vs "http" && numIfPresent vs "connection_limit" &&
     numIfPresent vs "connection_rate_limit" &&
     (match lookupKey vs "ssl" with
      | some (.obj ssl) => strListIfPresent ssl "protocols"
      | _ => true)
   | _ => false) &&
  (match lookupKey config "pools" with
   | some (.arr ps) => ps.all poolWellTyped
   | _ => false) &&
  (match lookupKey config "certificates" with
   | some (.arr cs) => cs.all certWellTyped
   | none => true
   | some _ => false)

/-! ### Concrete configurations for the closed statements -/

/-- An HTTP configuration that validates, with `ssl.enabled` true but an
unresolvable certificate reference (the protocol is not `https`, so the
code never looks at it). -/
def cexHttpSslOrphan : PyDict := [
  ("metadata", .obj [("environment", .str "DEV"), ("datacenter", .str "DC1"),
    ("lb_type", .str "NGINX")]),
  ("virtual_server", .obj [
    ("id", .str "vs-1"), ("name", .str "vs-app.example.com"),
    ("ip_address", .str "10.1.2.3"), ("port", .int 80), ("protocol", .str "http"),
    ("pool_id", .str "pool-1"),
    ("ssl", .obj [("enabled", .bool true), ("certificate_id", .str "cert-missing")])]),
  ("pools", .arr [.obj [("id", .str "pool-1"), ("name", .str "pool-app.example.com"),
    ("members", .arr [.obj [("ip_address", .str "10.0.0.1"), ("port", .int 8080),
      ("weight", .int 1)]]),
    ("monitor", .obj []), ("persistence", .obj [])]])]

/-- A validating HTTP configuration whose only deviation from the schema
types is a string-valued `max_connections` on its pool member. -/
def cexStringMaxConns : PyDict := [
  ("metadata", .obj []),
  ("virtual_server", .obj [
    ("id", .str "vs-1"), ("name", .str "vs-app"), ("ip_address", .str "10.1.2.3"),
    ("port", .int 80), ("protocol", .str "http"), ("pool_id", .str "pool-1")]),
  ("pools", .arr [.obj [("id", .str "pool-1"), ("name", .str "pool-app"),
    ("members", .arr [.obj [("ip_address", .str "10.0.0.1"), ("port", .int 8080),
      ("weight", .int 1), ("max_connections", .str "10")]]),
    ("monitor", .obj []), ("persistence", .obj [])]])]

/-- A validating configuration with mTLS enabled and required and its CA
certificate present, but `ssl.enabled` false (protocol `tcp`). -/
def cexMtlsNoSsl : PyDict := [
  ("metadata", .obj []),
  ("virtual_server", .obj [
    ("id", .str "vs-1"), ("name", .str "vs-api"), ("ip_address", .str "10.1.2.3"),
    ("port", .int 8443), ("protocol", .str "tcp"), ("pool_id", .str "pool-1"),
    ("ssl", .obj [("enabled", .bool false)]),
    ("mtls", .obj [("enabled", .bool true), ("client_auth_type", .str "required"),
      ("client_ca_cert_id", .str "ca-1"), ("verify_depth", .int 3)])]),
  ("pools", .arr [.obj [("id", .str "pool-1"), ("name", .str "pool-api"),
    ("members", .arr []), ("monitor", .obj []), ("persistence", .obj [])]]),
  ("certificates", .arr [.obj [("id", .str "ca-1"), ("name", .str "ca-api"),
    ("type", .str "imported"), ("content", .str "x")]])]

/-- A fully well-typed HTTPS + mTLS configuration (used to instantiate the
universally quantified theorems). -/
def exHttpsMtls : PyDict := [
  ("metadata", .obj [("environment", .str "PROD"), ("datacenter", .str "DC2"),
    ("lb_type", .str "F5")]),
  ("virtual_server", .obj [
    ("id", .str "vs-1"), ("name", .str "vs-secure.example.com"),
    ("ip_address", .str "10.9.9.9"), ("port", .int 443), ("protocol", .str "https"),
    ("pool_id", .str "pool-1"),
    ("ssl", .obj [("enabled", .bool true), ("certificate_id", .str "cert-1"),
      ("protocols", .arr [.str "TLSv1.2", .str "TLSv1.3"]), ("ciphers", .str "")]),
    ("mtls", .obj [("enabled", .bool true), ("client_auth_type", .str "required"),
      ("client_ca_cert_id", .str "ca-1"), ("verify_depth", .int 2)]),
    ("http", .obj [])]),
  ("pools", .arr [.obj [("id", .str "pool-1"), ("name", .str "pool-secure"),
    ("members", .arr [.obj [("ip_address", .str "10.0.0.1"), ("port", .int 8443),
      ("weight", .int 2), ("max_connections", .int 100)]]),
    ("monitor", .obj [("expected_codes", .str "200,301")]),
    ("persistence", .obj [("type", .str "cookie")])]]),
  ("certificates", .arr [
    .obj [("id", .str "cert-1"), ("name", .str "cert-secure"), ("type", .str "self_signed")],
    .obj [("id", .str "ca-1"), ("name", .str "ca-secure"), ("type", .str "imported"),
      ("content", .str "x")]])]

/-- The configuration the IR builder returns on three empty inputs (for the
closed witnesses). -/
def builderEmptyOut : PyDict :=
  create_standard_config_body [] [] [] "" "HTTP" |> dictOrEmpty

/-- The NGINX artifact lines for a configuration (empty on a raise). -/
def nginxLinesOf (c : PyDict) : List String :=
  match nginx_config_lines (getD c "metadata" (.obj [])) (getD c "virtual_server" (.obj []))
      (getD c "pools" (.arr [])) (getD c "certificates" (.arr [])) with
  | .ok ls => ls
  | .error _ => []

def f5ExCfg : JVal :=
  match f5_build_config (getD exHttpsMtls "metadata" (.obj []))
      (getD exHttpsMtls "virtual_server" (.obj []))
      (getD exHttpsMtls "pools" (.arr [])) (getD exHttpsMtls "certificates" (.arr [])) with
  | .ok c => c
  | .error _ => .null

theorem certs_isSome (config : LBaaS.PyDict)
    (hc : (match LBaaS.lookupKey config "certificates" with
           | some v => (LBaaS.asDictList v).isSome | none => true) = true) :
    (LBaaS.asDictList (LBaaS.getD config "certificates" (JVal.arr []))).isSome := by
  rcases h : LBaaS.lookupKey config "certificates" with _ | v
  · simp only [LBaaS.getD, h, Option.getD_none]
    rfl
  · rw [h] at hc; simpa [LBaaS.getD, h] using hc

theorem validate_mtls_spec (config : LBaaS.PyDict) (vs : LBaaS.PyDict)
    (hm : (match LBaaS.lookupKey vs "mtls" with
           | some (JVal.obj _) => true | some _ => false | none => true) = true)
    (hc : (match LBaaS.lookupKey config "certificates" with
           | some v => (LBaaS.asDictList v).isSome | none => true) = true) :
    (LBaaS.validate_config_mtls config vs = Except.ok () ↔ mtlsFailCond config vs = false) ∧
    (mtlsFailCond config vs = true →
      ∃ m, LBaaS.validate_config_mtls config vs = Except.error (PyErr.valueError m)) := by
  unfold LBaaS.validate_config_mtls mtlsFailCond
  rcases hmv : LBaaS.lookupKey vs "mtls" with _ | mv
  · have hg : LBaaS.getD vs "mtls" (JVal.obj []) = JVal.obj [] := by simp [LBaaS.getD, hmv]
    rw [hg]
    simp [LBaaS.dictOrEmpty, LBaaS.getD, LBaaS.lookupKey, LBaaS.truthy]
  · rw [hmv] at hm
    have hg : LBaaS.getD vs "mtls" (JVal.obj []) = mv := by simp [LBaaS.getD, hmv]
    rw [hg]
    cases mv with
    | obj mtls => ?_
    | null => simp at hm
    | bool b => simp at hm
    | int n => simp at hm
    | str s => simp at hm
    | arr xs => simp at hm
    simp only [LBaaS.dictOrEmpty]
    by_cases te : LBaaS.truthy (LBaaS.getD mtls "enabled" JVal.null) <;>
      simp only [te, if_true, if_false, Bool.true_and, Bool.false_and]
    case neg => simp
    by_cases tca : LBaaS.truthy (LBaaS.getD mtls "client_ca_cert_id" JVal.null) <;>
      simp only [tca, Bool.not_true, Bool.not_false, if_true, if_false, Bool.true_or, Bool.false_or]
    case neg => simp
    have hcs := certs_isSome config hc
    rcases hdl : LBaaS.asDictList (LBaaS.getD config "certificates" (JVal.arr [])) with _ | cs
    · rw [hdl] at hcs; simp at hcs
    simp only [Option.getD_some]
    by_cases mem : LBaaS.pyMem (LBaaS.getD mtls "client_ca_cert_id" JVal.null)
        (cs.map (fun c => LBaaS.getD c "id" JVal.null)) <;>
      simp only [mem, Bool.not_true, Bool.not_false, if_true, if_false]
    · simp
    · simp
/-- C1 (amended): on any well-shaped configuration dictionary,
`_validate_config` succeeds iff none of the claim's conditions (a)-(g)
holds, with (e) and (f) read as the code applies them — under
`protocol == 'https'` only; when some condition holds the raised error is a
`ValueError`.  The claim's protocol-independent reading of (f) is refuted
by `validate_ssl_check_protocol_guarded_cex`. -/
theorem validate_failure_iff_amended (config : LBaaS.PyDict) (h : LBaaS.WFConfig config = true) :
    (LBaaS.validate_config config = Except.ok () ↔ LBaaS.specFailureCondAmended config = false) ∧
    (LBaaS.specFailureCondAmended config = true →
      ∃ m, LBaaS.validate_config config = Except.error (PyErr.valueError m)) := by
  unfold LBaaS.WFConfig at h
  simp only [Bool.and_eq_true] at h
  obtain ⟨⟨hvs, hpools⟩, hcerts⟩ := h
  unfold LBaaS.validate_config LBaaS.specFailureCondAmended
  by_cases h1 : LBaaS.hasKey config "metadata" <;>
    simp only [h1, Bool.not_true, Bool.not_false, if_true, if_false, Bool.true_or, Bool.false_or]
  case neg => simp
  by_cases h2 : LBaaS.hasKey config "virtual_server" <;>
    simp only [h2, Bool.not_true, Bool.not_false, if_true, if_false, Bool.true_or, Bool.false_or]
  case neg => simp
  by_cases h3 : LBaaS.hasKey config "pools" <;>
    simp only [h3, Bool.not_true, Bool.not_false, if_true, if_false, Bool.true_or, Bool.false_or]
  case neg => simp
  rcases hv : LBaaS.lookupKey config "virtual_server" with _ | v
  · simp [LBaaS.hasKey, hv] at h2
  rw [hv] at hvs
  have hgv : LBaaS.getD config "virtual_server" (JVal.obj []) = v := by
    simp [LBaaS.getD, hv]
  rw [hgv]
  cases v with
  | obj vs => ?_
  | null => simp at hvs
  | bool b => simp at hvs
  | int n => simp at hvs
  | str s => simp at hvs
  | arr xs => simp at hvs
  simp only [Bool.and_eq_true] at hvs
  obtain ⟨hssl, hmtls⟩ := hvs
  simp only [LBaaS.dictOrEmpty]
  by_cases f1 : LBaaS.hasKey vs "id" <;>
    simp only [f1, Bool.not_true, Bool.not_false, if_true, if_false, Bool.true_or, Bool.false_or]
  case neg => simp
  by_cases f2 : LBaaS.hasKey vs "name" <;>
    simp only [f2, Bool.not_true, Bool.not_false, if_true, if_false, Bool.true_or, Bool.false_or]
  case neg => simp
  by_cases f3 : LBaaS.hasKey vs "ip_address" <;>
    simp only [f3, Bool.not_true, Bool.not_false, if_true, if_false, Bool.true_or, Bool.false_or]
  case neg => simp
  by_cases f4 : LBaaS.hasKey vs "port" <;>
    simp only [f4, Bool.not_true, Bool.not_false, if_true, if_false, Bool.true_or, Bool.false_or]
  case neg => simp
  by_cases f5 : LBaaS.hasKey vs "protocol" <;>
    simp only [f5, Bool.not_true, Bool.not_false, if_true, if_false, Bool.true_or, Bool.false_or]
  case neg => simp
  by_cases f6 : LBaaS.hasKey vs "pool_id" <;>
    simp only [f6, Bool.not_true, Bool.not_false, if_true, if_false, Bool.true_or, Bool.false_or]
  case neg => simp
  rcases hp : LBaaS.lookupKey config "pools" with _ | pv
  · simp [LBaaS.hasKey, hp] at h3
  have hpools2 : (LBaaS.asDictList pv).isSome := by rw [hp] at hpools; exact hpools
  have hgp : LBaaS.getD config "pools" (JVal.arr []) = pv := by simp [LBaaS.getD, hp]
  rw [hgp]
  by_cases t1 : LBaaS.truthy pv <;>
    simp only [t1, Bool.not_true, Bool.not_false, if_true, if_false, Bool.true_or, Bool.false_or]
  case neg => simp
  rcases hdl : LBaaS.asDictList pv with _ | ps
  · rw [hdl] at hpools2; simp at hpools2
  simp only [Option.getD_some]
  by_cases m1 : LBaaS.pyMem (LBaaS.getD vs "pool_id" JVal.null)
      (ps.map (fun p => LBaaS.getD p "id" JVal.null)) <;>
    simp only [m1, Bool.not_true, Bool.not_false, if_true, if_false, Bool.true_or, Bool.false_or]
  case neg => simp
  have hrest := validate_mtls_spec config vs hmtls hcerts
  unfold mtlsFailCond at hrest
  by_cases hpr : LBaaS.pyEq (LBaaS.getD vs "protocol" JVal.null) (JVal.str "https") <;>
    simp only [hpr, if_true, if_false, Bool.true_and, Bool.false_and, Bool.true_or, Bool.false_or,
      Bool.or_false, Bool.false_or]
  case neg => simpa using hrest
  -- https branch: destructure ssl
  rcases hsslk : LBaaS.lookupKey vs "ssl" with _ | sv
  · have hg : LBaaS.getD vs "ssl" (JVal.obj []) = JVal.obj [] := by simp [LBaaS.getD, hsslk]
    rw [hg]
    simp only [LBaaS.dictOrEmpty]
    by_cases e1 : LBaaS.truthy (LBaaS.getD ([] : LBaaS.PyDict) "enabled" JVal.null) <;>
      simp only [e1, Bool.not_true, Bool.not_false, if_true, if_false, Bool.true_or, Bool.false_or,
        Bool.true_and, Bool.false_and, Bool.or_false, Bool.false_or]
    case pos => simp [LBaaS.getD, LBaaS.lookupKey, LBaaS.truthy] at e1
    simp
  · rw [hsslk] at hssl
    have hg : LBaaS.getD vs "ssl" (JVal.obj []) = sv := by simp [LBaaS.getD, hsslk]
    rw [hg]
    cases sv with
    | obj ssl => ?_
    | null => simp at hssl
    | bool b => simp at hssl
    | int n => simp at hssl
    | str s => simp at hssl
    | arr xs => simp at hssl
    simp only [LBaaS.dictOrEmpty]
    by_cases e1 : LBaaS.truthy (LBaaS.getD ssl "enabled" JVal.null) <;>
      simp only [e1, Bool.not_true, Bool.not_false, if_true, if_false, Bool.true_or, Bool.false_or,
        Bool.true_and, Bool.false_and, Bool.or_false, Bool.false_or]
    case neg => simp
    by_cases e2 : LBaaS.truthy (LBaaS.getD ssl "certificate_id" JVal.null) <;>
      simp only [e2, Bool.not_true, Bool.not_false, if_true, if_false, Bool.true_or, Bool.false_or,
        Bool.true_and, Bool.false_and, Bool.or_false, Bool.false_or]
    case neg => simp
    have hcs := certs_isSome config hcerts
    rcases hdl2 : LBaaS.asDictList (LBaaS.getD config "certificates" (JVal.arr [])) with _ | cs
    · rw [hdl2] at hcs; simp at hcs
    · rw [hdl2] at hrest
      simp only [Option.getD_some] at hrest
      simp only [Option.getD_some]
      by_cases m2 : LBaaS.pyMem (LBaaS.getD ssl "certificate_id" JVal.null)
          (cs.map (fun p => LBaaS.getD p "id" JVal.null)) <;>
        simp only [m2, Bool.not_true, Bool.not_false, if_true, if_false, Bool.true_or,
          Bool.false_or, Bool.or_false]
      case neg => simp
      simpa using hrest

/-- C2: each vendor generator maps the six standard algorithms exactly as
the mapping table states, and every value outside the enumeration falls to
the vendor's round-robin default, so no lookup is undefined. -/
theorem algorithm_mapping_tables :
    (nginx_algorithm_lines (.str "round_robin") = ["        # Using default round robin"] ∧
     nginx_algorithm_lines (.str "least_connections") = ["        least_conn;"] ∧
     nginx_algorithm_lines (.str "ip_hash") = ["        ip_hash;"] ∧
     nginx_algorithm_lines (.str "least_requests") = ["        # Using default round robin"] ∧
     nginx_algorithm_lines (.str "weighted_round_robin") =
       ["        # Using default round robin"] ∧
     nginx_algorithm_lines (.str "fastest_response") = ["        # Using default round robin"]) ∧
    (f5_algorithm_mode (.str "round_robin") = "round-robin" ∧
     f5_algorithm_mode (.str "least_connections") = "least-connections-member" ∧
     f5_algorithm_mode (.str "ip_hash") = "ip-hash" ∧
     f5_algorithm_mode (.str "least_requests") = "round-robin" ∧
     f5_algorithm_mode (.str "weighted_round_robin") = "weighted-round-robin" ∧
     f5_algorithm_mode (.str "fastest_response") = "fastest-app-response") ∧
    (avi_translate_lb_algorithm (.str "round_robin") = "LB_ALGORITHM_ROUND_ROBIN" ∧
     avi_translate_lb_algorithm (.str "least_connections") = "LB_ALGORITHM_LEAST_CONNECTIONS" ∧
     avi_translate_lb_algorithm (.str "ip_hash") = "LB_ALGORITHM_CONSISTENT_HASH" ∧
     avi_translate_lb_algorithm (.str "least_requests") = "LB_ALGORITHM_FEWEST_SERVERS" ∧
     avi_translate_lb_algorithm (.str "weighted_round_robin") = "LB_ALGORITHM_ROUND_ROBIN" ∧
     avi_translate_lb_algorithm (.str "fastest_response") = "LB_ALGORITHM_FASTEST_RESPONSE") ∧
    (∀ s : String,
      s ∉ ["round_robin", "least_connections", "ip_hash", "least_requests",
        "weighted_round_robin", "fastest_response"] →
      nginx_algorithm_lines (.str s) = ["        # Using default round robin"] ∧
      f5_algorithm_mode (.str s) = "round-robin" ∧
      avi_translate_lb_algorithm (.str s) = "LB_ALGORITHM_ROUND_ROBIN") := by
  refine ⟨⟨rfl, rfl, rfl, rfl, rfl, rfl⟩, ⟨rfl, rfl, rfl, rfl, rfl, rfl⟩,
    ⟨rfl, rfl, rfl, rfl, rfl, rfl⟩, ?_⟩
  intro s hs
  simp only [List.mem_cons, List.not_mem_nil, or_false, not_or] at hs
  obtain ⟨h1, h2, h3, h4, h5, h6⟩ := hs
  refine ⟨?_, ?_, ?_⟩ <;>
    simp [nginx_algorithm_lines, f5_algorithm_mode, avi_translate_lb_algorithm, pyEq,
      h1, h2, h3, h4, h5, h6]

/-- C2 witness: the mapping theorem applied at the out-of-enumeration value
`"sticky"`. -/
theorem algorithm_mapping_tables_witness :
    nginx_algorithm_lines (.str "sticky") = ["        # Using default round robin"] ∧
    f5_algorithm_mode (.str "sticky") = "round-robin" ∧
    avi_translate_lb_algorithm (.str "sticky") = "LB_ALGORITHM_ROUND_ROBIN" :=
  algorithm_mapping_tables.2.2.2 "sticky" (by decide)

/-- C3 (amended): an unrecognized protocol string falls back to `"http"`,
but an unrecognized `lb_method` does NOT fall back to `"round_robin"`: the
standardization chain has no else branch, so it passes through unchanged
(only the aliases `round-robin` and `least_conn` are mapped); the builder
emits these standardized values as `virtual_server.protocol` and
`pool.algorithm`. -/
theorem normalization_default_behaviour :
    (∀ p : String, pyLower p ∉ lbProtocolValues → standardize_protocol p = "http") ∧
    (∀ m : JVal, pyMem m lbAlgorithmValues = false → pyEq m (.str "round-robin") = false →
      pyEq m (.str "least_conn") = false → standardize_algorithm m = m) ∧
    (∀ vip_config servers placement_decision fqdn protocol0,
      getD (configVirtualServer
          (dictOrEmpty (create_standard_config_body vip_config servers placement_decision
            fqdn protocol0))) "protocol" .null =
        .str (standardize_protocol (pyLower protocol0)) ∧
      getD (configFirstPool
          (dictOrEmpty (create_standard_config_body vip_config servers placement_decision
            fqdn protocol0))) "algorithm" .null =
        standardize_algorithm (getD vip_config "lb_method" (.str "round_robin"))) := by
  refine ⟨?_, ?_, ?_⟩
  · intro p hp
    simp [standardize_protocol, hp]
  · intro m h1 h2 h3
    simp [standardize_algorithm, h1, h2, h3]
  · intro vip servers placement fqdn protocol0
    constructor <;> rfl
/-- C3 witness: the normalization theorem applied at the unrecognized
protocol `"gopher"` and the unrecognized algorithm `"sticky"`. -/
theorem normalization_default_behaviour_witness :
    pyLower "gopher" ∉ lbProtocolValues ∧ standardize_protocol "gopher" = "http" ∧
    standardize_algorithm (.str "sticky") = .str "sticky" :=
  ⟨by decide, normalization_default_behaviour.1 "gopher" (by decide),
   normalization_default_behaviour.2.1 (.str "sticky") rfl rfl rfl⟩

/-- C3 counterexample: `lb_method = "sticky"` is outside the enumeration and
the aliases, yet the built pool's algorithm is `"sticky"`, not the
`"round_robin"` fallback the claim states. -/
theorem unrecognized_algorithm_passes_through_cex :
    pyMem (.str "sticky") lbAlgorithmValues = false ∧
    builderFirstPoolAlgorithm [("lb_method", .str "sticky")] [] [] = some (.str "sticky") :=
  ⟨rfl, rfl⟩

theorem slug_char_inj {x y : Char} (hx : x ≠ '-') (hy : y ≠ '-')
    (h : (if x = '.' then '-' else x) = (if y = '.' then '-' else y)) : x = y := by
  by_cases hx2 : x = '.' <;> by_cases hy2 : y = '.' <;> simp [hx2, hy2] at h <;>
    first
    | (subst hx2; subst hy2; rfl)
    | (exact absurd h.symm hy)
    | (exact absurd h hx)
    | exact h

theorem slug_data_inj : ∀ l1 l2 : List Char, (∀ c ∈ l1, c ≠ '-') → (∀ c ∈ l2, c ≠ '-') →
    l1.map (fun c => if c = '.' then '-' else c) = l2.map (fun c => if c = '.' then '-' else c) →
    l1 = l2 := by
  intro l1
  induction l1 with
  | nil => intro l2 _ _ h; cases l2 <;> simp_all
  | cons a t ih =>
    intro l2 h1 h2 h
    cases l2 with
    | nil => simp at h
    | cons b t2 =>
      simp only [List.map_cons, List.cons.injEq] at h
      have ha := slug_char_inj (h1 a (by simp)) (h2 b (by simp)) h.1
      have ht := ih t2 (fun c hc => h1 c (by simp [hc])) (fun c hc => h2 c (by simp [hc])) h.2
      rw [ha, ht]

theorem slug_inj (f1 f2 : String) (h1 : f1.toList.contains '-' = false)
    (h2 : f2.toList.contains '-' = false) (hne : f1 ≠ f2) : slug f1 ≠ slug f2 := by
  intro hc
  apply hne
  have hd : f1.toList.map (fun c => if c = '.' then '-' else c) =
      f2.toList.map (fun c => if c = '.' then '-' else c) := by
    have := congrArg String.toList hc
    simpa [slug] using this
  have hm1 : ∀ c ∈ f1.toList, c ≠ '-' := by
    intro c hc2 he
    subst he
    rw [List.contains_eq_any_beq] at h1
    simp at h1
    exact (h1 _ hc2) rfl
  have hm2 : ∀ c ∈ f2.toList, c ≠ '-' := by
    intro c hc2 he
    subst he
    rw [List.contains_eq_any_beq] at h2
    simp at h2
    exact (h2 _ hc2) rfl
  have := slug_data_inj f1.toList f2.toList hm1 hm2 hd
  exact String.toList_inj.mp this

theorem str_append_left_inj (p a b : String) (h : p ++ a = p ++ b) : a = b := by
  have hd := congrArg String.toList h
  rw [show (p ++ a).toList = p.toList ++ a.toList from String.data_append p a,
    show (p ++ b).toList = p.toList ++ b.toList from String.data_append p b] at hd
  exact String.toList_inj.mp (List.append_cancel_left hd)

/-- C6 (amended): the builder derives `pool.id = "pool-" + slug(fqdn)`,
`virtual_server.id = "vs-" + slug(fqdn)` and `ssl.certificate_id =
"cert-" + slug(fqdn)` where `slug` replaces `.` with `-`; the derivation is
deterministic (the ids are functions of the FQDN alone), and collision-free
for distinct FQDNs that contain no `-` character — `slug` identifies
`a.b` with `a-b`, so full collision-freeness fails. -/
theorem id_derivation :
    (∀ vip_config servers placement_decision fqdn protocol0,
      getD (configFirstPool (dictOrEmpty (create_standard_config_body vip_config servers
        placement_decision fqdn protocol0))) "id" .null = .str ("pool-" ++ slug fqdn) ∧
      getD (configVirtualServer (dictOrEmpty (create_standard_config_body vip_config servers
        placement_decision fqdn protocol0))) "id" .null = .str ("vs-" ++ slug fqdn) ∧
      getD (configSSL (dictOrEmpty (create_standard_config_body vip_config servers
        placement_decision fqdn protocol0))) "certificate_id" .null =
        .str ("cert-" ++ slug fqdn)) ∧
    (∀ f1 f2 : String, f1.toList.contains '-' = false → f2.toList.contains '-' = false →
      f1 ≠ f2 →
      "pool-" ++ slug f1 ≠ "pool-" ++ slug f2 ∧ "vs-" ++ slug f1 ≠ "vs-" ++ slug f2 ∧
      "cert-" ++ slug f1 ≠ "cert-" ++ slug f2) := by
  constructor
  · intro vip servers placement fqdn protocol0
    refine ⟨rfl, rfl, rfl⟩
  · intro f1 f2 h1 h2 hne
    have hs := slug_inj f1 f2 h1 h2 hne
    refine ⟨?_, ?_, ?_⟩ <;> exact fun hc => hs (str_append_left_inj _ _ _ hc)

/-- C6 witness: the derivation theorem applied at the concrete FQDNs
`app.example.com` and `api.example.com`. -/
theorem id_derivation_witness :
    getD (configFirstPool (dictOrEmpty (create_standard_config_body [] [] []
      "app.example.com" "HTTP"))) "id" .null = .str ("pool-" ++ slug "app.example.com") ∧
    "pool-" ++ slug "app.example.com" ≠ "pool-" ++ slug "api.example.com" :=
  ⟨(id_derivation.1 [] [] [] "app.example.com" "HTTP").1,
   (id_derivation.2 "app.example.com" "api.example.com" (by decide) (by decide)
     (by decide)).1⟩

/-- C6 counterexample: the distinct FQDNs `a.b` and `a-b` derive the same
pool id, so the derivation is not collision-free over all FQDNs. -/
theorem slug_collision_cex :
    ("a.b" : String) ≠ "a-b" ∧ slug "a.b" = slug "a-b" ∧
    builderFirstPoolId [("vip_fqdn", .str "a.b")] [] [] =
      builderFirstPoolId [("vip_fqdn", .str "a-b")] [] [] :=
  ⟨by decide, rfl, rfl⟩


/-- C1 counterexample: a configuration with protocol `http`, `ssl.enabled`
true and an unresolvable `ssl.certificate_id` — the claim's condition (f)
holds, yet `_validate_config` succeeds, because the code only checks SSL
references when the protocol is `https`. -/
theorem validate_ssl_check_protocol_guarded_cex :
    validate_config cexHttpSslOrphan = Except.ok () ∧
    specFailureCondOriginal cexHttpSslOrphan = true :=
  ⟨rfl, rfl⟩

/-- C1 witness: the amended iff applied to the concrete well-shaped
configuration `cexHttpSslOrphan`. -/
theorem validate_failure_iff_amended_witness :
    LBaaS.WFConfig cexHttpSslOrphan = true ∧
    (LBaaS.validate_config cexHttpSslOrphan = Except.ok () ↔
      LBaaS.specFailureCondAmended cexHttpSslOrphan = false) :=
  ⟨rfl, (validate_failure_iff_amended cexHttpSslOrphan rfl).1⟩

theorem truthy_str_append (p s : String) (hp : p.toList ≠ []) :
    LBaaS.truthy (JVal.str (p ++ s)) = true := by
  simp only [LBaaS.truthy, Bool.not_eq_true']
  rw [Bool.eq_false_iff]
  intro hc
  rw [String.isEmpty_iff] at hc
  have h2 : (p ++ s).toList = [] := by rw [hc]; rfl
  rw [show (p ++ s).toList = p.toList ++ s.toList from String.data_append p s] at h2
  rcases List.append_eq_nil.mp h2 with ⟨h3, _⟩
  exact hp h3

theorem str_beq_false_of_length_ne (a b : String) (h : a.length ≠ b.length) :
    (a == b) = false := by
  rw [beq_eq_false_iff_ne]
  intro hc
  exact h (by rw [hc])

/-- C10: every configuration the IR builder returns passes the base
validate step. -/
theorem builder_output_validates :
    ∀ vip_config servers placement_decision kvs,
      create_standard_config vip_config servers placement_decision =
        Except.ok (JVal.obj kvs) →
      validate_config kvs = Except.ok () := by
  intro vip servers placement kvs h
  unfold create_standard_config at h
  cases hf : asStr (getD vip "vip_fqdn" (JVal.str "")) with
  | error e => rw [hf] at h; simp [Bind.bind, Except.bind] at h
  | ok fqdn =>
  cases hp : asStr (getD vip "protocol" (JVal.str "HTTP")) with
  | error e => rw [hf, hp] at h; simp [Bind.bind, Except.bind] at h
  | ok protocol0 =>
  rw [hf, hp] at h
  simp only [Bind.bind, Except.bind, pure, Except.pure, Except.ok.injEq] at h
  unfold create_standard_config_body at h
  simp only [JVal.obj.injEq] at h
  subst h
  have hCert : ("cert-" ++ slug fqdn).isEmpty = false := by
    have h2 := truthy_str_append "cert-" (slug fqdn) (by decide)
    simp only [truthy, Bool.not_eq_true'] at h2
    exact h2
  have hCa : ("ca-cert-" ++ slug fqdn).isEmpty = false := by
    have h2 := truthy_str_append "ca-cert-" (slug fqdn) (by decide)
    simp only [truthy, Bool.not_eq_true'] at h2
    exact h2
  have hNe : (("cert-" ++ slug fqdn) == ("ca-cert-" ++ slug fqdn)) = false := by
    apply str_beq_false_of_length_ne
    rw [String.length_append, String.length_append]
    rw [show ("cert-" : String).length = 5 from rfl, show ("ca-cert-" : String).length = 8 from rfl]
    intro hc
    omega
  generalize standardize_persistence_type (getD vip "persistence_type" (JVal.str "none")) = spt
  generalize pyMem spt [JVal.str "cookie", JVal.str "app_cookie"] = b1
  generalize pyEq spt (JVal.str "http_header") = b2
  generalize truthy (getD vip "client_ca_cert" (JVal.str "")) = ccb
  generalize standardize_algorithm (getD vip "lb_method" (JVal.str "round_robin")) = alg
  generalize standardize_client_auth_type (getD vip "client_auth_type" (JVal.str "none")) = cat
  generalize List.map (fun p => build_pool_member p.1 p.2) servers.enum = mems
  generalize hSP : standardize_protocol (pyLower protocol0) = sp
  generalize hMV : getD vip "mtls_enabled" (JVal.bool false) = mval
  have hMatch : ∀ mv : JVal, truthy mv =
      (match mv with
       | JVal.null => false
       | JVal.bool b => b
       | JVal.int n => n != 0
       | JVal.str s => !s.isEmpty
       | JVal.arr xs => !xs.isEmpty
       | JVal.obj kvs => !kvs.isEmpty) := fun mv => rfl
  by_cases hS : sp = "https"
  · rw [hS]
    by_cases hM : truthy mval <;> rw [hMatch] at hM <;>
      simp [validate_config, validate_config_mtls, getD, lookupKey, hasKey, asDictList,
        truthy, pyMem, pyEq, hM, hCert, hCa, hNe, List.mapM, List.mapM.loop]
  · have hS2 : (sp == "https") = false := beq_eq_false_iff_ne.mpr hS
    by_cases hM : truthy mval <;> rw [hMatch] at hM <;>
      simp [validate_config, validate_config_mtls, getD, lookupKey, hasKey, asDictList,
        truthy, pyMem, pyEq, hS2, hM, hCert, hCa, hNe, List.mapM, List.mapM.loop]
/-- C10 witness: the theorem applied to the builder run on three empty
inputs. -/
theorem builder_output_validates_witness :
    create_standard_config [] [] [] = Except.ok (JVal.obj builderEmptyOut) ∧
    validate_config builderEmptyOut = Except.ok () :=
  ⟨rfl, builder_output_validates [] [] [] builderEmptyOut rfl⟩

theorem pyresult_bind_ok {α β : Type} {x : LBaaS.PyResult α} {f : α → LBaaS.PyResult β}
    {b : β} (h : Except.bind x f = Except.ok b) :
    ∃ a, x = Except.ok a ∧ f a = Except.ok b := by
  cases x with
  | error e => simp [Except.bind] at h
  | ok a => exact ⟨a, rfl, by simpa [Except.bind] using h⟩

set_option maxHeartbeats 2000000 in
/-- C7 (amended): the NGINX generator emits the upstream block name
verbatim from the pool's `name` — no character is sanitized — so the
artifact's upstream line is exactly `    upstream <pool name> {`. -/
theorem nginx_upstream_name_verbatim :
    ∀ metadata virtual_server pools certificates lines vsd pool,
      asDict virtual_server = Except.ok vsd →
      get_pool_by_id pools (getD vsd "pool_id" (.str "")) = Except.ok (some pool) →
      pool ≠ [] →
      nginx_config_lines metadata virtual_server pools certificates = Except.ok lines →
      ("    upstream " ++ pyStrOf (getD pool "name" (.str "backend")) ++ " \x7b") ∈ lines := by
  intro metadata virtual_server pools certificates lines vsd pool hvs hpool hne h
  unfold nginx_config_lines at h
  simp only [Bind.bind] at h
  obtain ⟨vsd2, hvsd2, h⟩ := pyresult_bind_ok h
  rw [hvs] at hvsd2
  obtain rfl : vsd = vsd2 := by cases hvsd2; rfl
  obtain ⟨poolOpt, hpo, h⟩ := pyresult_bind_ok h
  rw [hpool] at hpo
  obtain rfl : some pool = poolOpt := by cases hpo; rfl
  obtain ⟨pool2, hp2, h⟩ := pyresult_bind_ok h
  have hEmpty : pool.isEmpty = false := by simpa [List.isEmpty_iff] using hne
  simp only [hEmpty, Bool.false_eq_true, if_false] at hp2
  obtain rfl : pool = pool2 := by cases hp2; rfl
  obtain ⟨ssl, hssl, h⟩ := pyresult_bind_ok h
  obtain ⟨mtls, hmtls, h⟩ := pyresult_bind_ok h
  obtain ⟨md, hmd, h⟩ := pyresult_bind_ok h
  obtain ⟨persistence, hpers, h⟩ := pyresult_bind_ok h
  obtain ⟨membersIter, hmem, h⟩ := pyresult_bind_ok h
  obtain ⟨memberLines, hml, h⟩ := pyresult_bind_ok h
  by_cases hSE : truthy (getD ssl "enabled" (JVal.bool false)) = true
  · rw [if_pos hSE] at h
    obtain ⟨certOpt, hco, h⟩ := pyresult_bind_ok h
    obtain ⟨joined, hjo, h⟩ := pyresult_bind_ok h
    by_cases hME : truthy (getD mtls "enabled" (JVal.bool false)) = true
    · rw [if_pos hME] at h
      obtain ⟨caOpt, hca, h⟩ := pyresult_bind_ok h
      obtain ⟨mtlsLines, hmtl, h⟩ := pyresult_bind_ok h
      obtain ⟨sslLines, hsll, h⟩ := pyresult_bind_ok h
      obtain ⟨serverName, hsn, h⟩ := pyresult_bind_ok h
      obtain ⟨http, hhx, h⟩ := pyresult_bind_ok h
      by_cases hRD : (truthy (getD http "redirect_http_to_https" (JVal.bool false)) &&
          !truthy (getD ssl "enabled" (JVal.bool false))) = true
      · rw [if_pos hRD] at h
        obtain ⟨bodyLines, hbl, h⟩ := pyresult_bind_ok h
        simp only [pure, Except.pure, Except.ok.injEq] at h
        subst h
        simp
      · rw [if_neg hRD] at h
        obtain ⟨gt, hgt, h⟩ := pyresult_bind_ok h
        obtain ⟨bodyLines, hbl, h⟩ := pyresult_bind_ok h
        simp only [pure, Except.pure, Except.ok.injEq] at h
        subst h
        simp
    · rw [if_neg hME] at h
      obtain ⟨mtlsLines, hmtl, h⟩ := pyresult_bind_ok h
      obtain ⟨sslLines, hsll, h⟩ := pyresult_bind_ok h
      obtain ⟨serverName, hsn, h⟩ := pyresult_bind_ok h
      obtain ⟨http, hhx, h⟩ := pyresult_bind_ok h
      by_cases hRD : (truthy (getD http "redirect_http_to_https" (JVal.bool false)) &&
          !truthy (getD ssl "enabled" (JVal.bool false))) = true
      · rw [if_pos hRD] at h
        obtain ⟨bodyLines, hbl, h⟩ := pyresult_bind_ok h
        simp only [pure, Except.pure, Except.ok.injEq] at h
        subst h
        simp
      · rw [if_neg hRD] at h
        obtain ⟨gt, hgt, h⟩ := pyresult_bind_ok h
        obtain ⟨bodyLines, hbl, h⟩ := pyresult_bind_ok h
        simp only [pure, Except.pure, Except.ok.injEq] at h
        subst h
        simp
  · rw [if_neg hSE] at h
    obtain ⟨sslLines, hsll, h⟩ := pyresult_bind_ok h
    obtain ⟨serverName, hsn, h⟩ := pyresult_bind_ok h
    obtain ⟨http, hhx, h⟩ := pyresult_bind_ok h
    by_cases hRD : (truthy (getD http "redirect_http_to_https" (JVal.bool false)) &&
        !truthy (getD ssl "enabled" (JVal.bool false))) = true
    · rw [if_pos hRD] at h
      obtain ⟨bodyLines, hbl, h⟩ := pyresult_bind_ok h
      simp only [pure, Except.pure, Except.ok.injEq] at h
      subst h
      simp
    · rw [if_neg hRD] at h
      obtain ⟨gt, hgt, h⟩ := pyresult_bind_ok h
      obtain ⟨bodyLines, hbl, h⟩ := pyresult_bind_ok h
      simp only [pure, Except.pure, Except.ok.injEq] at h
      subst h
      simp
/-- C7 witness: the verbatim-upstream theorem applied to the concrete
configuration `cexHttpSslOrphan`. -/
theorem nginx_upstream_name_verbatim_witness :
    ("    upstream " ++ pyStrOf (getD (configFirstPool cexHttpSslOrphan) "name"
      (.str "backend")) ++ " \x7b") ∈ nginxLinesOf cexHttpSslOrphan :=
  nginx_upstream_name_verbatim (getD cexHttpSslOrphan "metadata" (.obj []))
    (getD cexHttpSslOrphan "virtual_server" (.obj [])) (getD cexHttpSslOrphan "pools" (.arr []))
    (getD cexHttpSslOrphan "certificates" (.arr [])) (nginxLinesOf cexHttpSslOrphan)
    (configVirtualServer cexHttpSslOrphan) (configFirstPool cexHttpSslOrphan)
    rfl rfl (fun hx => List.noConfusion hx) rfl

/-- C7 counterexample: the artifact for `cexHttpSslOrphan` contains the
upstream line `    upstream pool-app.example.com {` — its server name keeps
the `-` and `.` characters the claim says are sanitized to underscores. -/
theorem nginx_upstream_unsanitized_cex :
    validate_config cexHttpSslOrphan = Except.ok () ∧
    ("    upstream pool-app.example.com \x7b" ∈ nginxLinesOf cexHttpSslOrphan) ∧
    "pool-app.example.com".toList.contains '-' = true ∧
    "pool-app.example.com".toList.contains '.' = true :=
  ⟨rfl, by decide, by decide, by decide⟩

theorem lookupKey_append (a b : LBaaS.PyDict) (k : String) :
    LBaaS.lookupKey (a ++ b) k =
      match LBaaS.lookupKey a k with
      | some v => some v
      | none => LBaaS.lookupKey b k := by
  induction a with
  | nil => simp [LBaaS.lookupKey]
  | cons kv rest ih =>
    by_cases hk : kv.1 = k
    · simp [LBaaS.lookupKey, hk]
    · simp [LBaaS.lookupKey, hk, ih]


theorem except_bind_pure {α β ε : Type} (x : α) (f : α → Except ε β) :
    Except.bind (pure x) f = f x := rfl

theorem pyEq_str_of_true (v : JVal) (s : String) (h : LBaaS.pyEq v (.str s) = true) :
    v = .str s := by
  cases v <;> simp [LBaaS.pyEq, LBaaS.numVal] at h <;> simp [h]

set_option maxHeartbeats 1000000 in
/-- C8 (amended): on a configuration whose `ssl.enabled` is true with a
resolvable, string-named server certificate — which validation guarantees
only when the protocol is `https` — and `mtls.enabled` true with
`client_auth_type` `required` and a resolvable, string-named CA
certificate, the F5 declaration's virtual server carries an `ssl` block
with `ca_file` derived from the CA certificate's name (`-` replaced by
`_`) and `verify_depth` equal to the IR's `mtls.verify_depth` (default 1).
Without `ssl.enabled` no TLS settings are emitted at all
(`f5_mtls_without_ssl_cex`). -/
theorem f5_mtls_tls_settings (metadata virtual_server pools certificates cfg : JVal)
    (vsd ssl mtls cert ca : LBaaS.PyDict) (certName caName : String)
    (hvs : asDict virtual_server = Except.ok vsd)
    (hssl : asDict (getD vsd "ssl" (.obj [])) = Except.ok ssl)
    (hmtls : asDict (getD vsd "mtls" (.obj [])) = Except.ok mtls)
    (hSE : truthy (getD ssl "enabled" (.bool false)) = true)
    (hME : truthy (getD mtls "enabled" (.bool false)) = true)
    (hCAT : pyEq (getD mtls "client_auth_type" (.str "none")) (.str "required") = true)
    (hcert : get_certificate_by_id certificates (getD ssl "certificate_id" (.str "")) =
      Except.ok (some cert))
    (hcertne : cert ≠ [])
    (hcertName : pyReplace (getD cert "name" (.str "server")) "-" "_" = Except.ok certName)
    (hca : get_certificate_by_id certificates (getD mtls "client_ca_cert_id" (.str "")) =
      Except.ok (some ca))
    (hcane : ca ≠ [])
    (hcaName : pyReplace (getD ca "name" (.str "ca")) "-" "_" = Except.ok caName)
    (hbuild : f5_build_config metadata virtual_server pools certificates = Except.ok cfg) :
    ∃ sslCfg, lookupKey (f5FirstVirtualServer cfg) "ssl" = some (.obj sslCfg) ∧
      lookupKey sslCfg "client_auth" = some (getD mtls "client_auth_type" (.str "none")) ∧
      lookupKey sslCfg "ca_file" =
        some (.str ("/config/ssl/ssl.crt/" ++ caName ++ ".crt")) ∧
      lookupKey sslCfg "verify_depth" = some (getD mtls "verify_depth" (.int 1)) := by
  unfold f5_build_config at hbuild
  simp only [Bind.bind] at hbuild
  obtain ⟨vsd2, hvsd2, h⟩ := pyresult_bind_ok hbuild
  rw [hvs] at hvsd2
  obtain rfl : vsd = vsd2 := by cases hvsd2; rfl
  obtain ⟨poolOpt, hpo, h⟩ := pyresult_bind_ok h
  obtain ⟨pool, hpm, h⟩ := pyresult_bind_ok h
  obtain ⟨ssl2, hssl2, h⟩ := pyresult_bind_ok h
  rw [hssl] at hssl2
  obtain rfl : ssl = ssl2 := by cases hssl2; rfl
  obtain ⟨mtls2, hmtls2, h⟩ := pyresult_bind_ok h
  rw [hmtls] at hmtls2
  obtain rfl : mtls = mtls2 := by cases hmtls2; rfl
  obtain ⟨membersIter, hmi, h⟩ := pyresult_bind_ok h
  obtain ⟨pool_members, hpmem, h⟩ := pyresult_bind_ok h
  obtain ⟨monitor, hmon, h⟩ := pyresult_bind_ok h
  obtain ⟨pool_name, hpn, h⟩ := pyresult_bind_ok h
  obtain ⟨persistence, hper, h⟩ := pyresult_bind_ok h
  obtain ⟨vs_name, hvn, h⟩ := pyresult_bind_ok h
  obtain ⟨gt1, hgt1, h⟩ := pyresult_bind_ok h
  obtain ⟨gt2, hgt2, h⟩ := pyresult_bind_ok h
  rw [if_pos hSE] at h
  obtain ⟨certOpt, hco, h⟩ := pyresult_bind_ok h
  rw [hcert] at hco
  obtain rfl : some cert = certOpt := by cases hco; rfl
  have hcertEmpty : cert.isEmpty = false := by simpa [List.isEmpty_iff] using hcertne
  simp only [hcertEmpty, Bool.false_eq_true, if_false] at h
  obtain ⟨certName2, hcn2, h⟩ := pyresult_bind_ok h
  rw [hcertName] at hcn2
  obtain rfl : certName = certName2 := by cases hcn2; rfl
  rw [if_pos hME] at h
  have hCATval := pyEq_str_of_true _ _ hCAT
  have hNone : (!pyEq (getD mtls "client_auth_type" (.str "none")) (.str "none")) = true := by
    rw [hCATval]
    decide
  rw [if_pos hNone] at h
  obtain ⟨caOpt, hcao, h⟩ := pyresult_bind_ok h
  rw [hca] at hcao
  obtain rfl : some ca = caOpt := by cases hcao; rfl
  have hcaEmpty : ca.isEmpty = false := by simpa [List.isEmpty_iff] using hcane
  simp only [hcaEmpty, Bool.false_eq_true, if_false] at h
  obtain ⟨caName2, hcan2, h⟩ := pyresult_bind_ok h
  rw [hcaName] at hcan2
  obtain rfl : caName = caName2 := by cases hcan2; rfl
  simp only [except_bind_pure] at h
  by_cases hHT : truthy (getD vsd "http" (.obj [])) = true
  · rw [if_pos hHT] at h
    obtain ⟨http, hht, h⟩ := pyresult_bind_ok h
    obtain ⟨md, hmd, h⟩ := pyresult_bind_ok h
    simp only [pure, Except.pure, Except.ok.injEq] at h
    subst h
    cases gt1 <;> cases gt2 <;>
      by_cases hCRL : truthy (getD mtls "crl_enabled" (JVal.bool false)) = true <;>
        simp [f5FirstVirtualServer, dictOrEmpty, lookupKey, lookupKey_append, hCRL]
  · rw [if_neg hHT] at h
    obtain ⟨md, hmd, h⟩ := pyresult_bind_ok h
    simp only [pure, Except.pure, Except.ok.injEq] at h
    subst h
    cases gt1 <;> cases gt2 <;>
      by_cases hCRL : truthy (getD mtls "crl_enabled" (JVal.bool false)) = true <;>
        simp [f5FirstVirtualServer, dictOrEmpty, lookupKey, lookupKey_append, hCRL]

theorem f5_mtls_tls_settings_witness :
    ∃ sslCfg, lookupKey (f5FirstVirtualServer f5ExCfg) "ssl" = some (.obj sslCfg) ∧
      lookupKey sslCfg "client_auth" = some (.str "required") ∧
      lookupKey sslCfg "ca_file" = some (.str "/config/ssl/ssl.crt/ca_secure.crt") ∧
      lookupKey sslCfg "verify_depth" = some (.int 2) :=
  f5_mtls_tls_settings
    (getD exHttpsMtls "metadata" (.obj [])) (getD exHttpsMtls "virtual_server" (.obj []))
    (getD exHttpsMtls "pools" (.arr [])) (getD exHttpsMtls "certificates" (.arr []))
    f5ExCfg
    [("id", .str "vs-1"), ("name", .str "vs-secure.example.com"),
     ("ip_address", .str "10.9.9.9"), ("port", .int 443), ("protocol", .str "https"),
     ("pool_id", .str "pool-1"),
     ("ssl", .obj [("enabled", .bool true), ("certificate_id", .str "cert-1"),
       ("protocols", .arr [.str "TLSv1.2", .str "TLSv1.3"]), ("ciphers", .str "")]),
     ("mtls", .obj [("enabled", .bool true), ("client_auth_type", .str "required"),
       ("client_ca_cert_id", .str "ca-1"), ("verify_depth", .int 2)]),
     ("http", .obj [])]
    [("enabled", .bool true), ("certificate_id", .str "cert-1"),
     ("protocols", .arr [.str "TLSv1.2", .str "TLSv1.3"]), ("ciphers", .str "")]
    [("enabled", .bool true), ("client_auth_type", .str "required"),
     ("client_ca_cert_id", .str "ca-1"), ("verify_depth", .int 2)]
    [("id", .str "cert-1"), ("name", .str "cert-secure"), ("type", .str "self_signed")]
    [("id", .str "ca-1"), ("name", .str "ca-secure"), ("type", .str "imported"),
     ("content", .str "x")]
    "cert_secure" "ca_secure"
    rfl rfl rfl rfl rfl rfl rfl (fun hx => List.noConfusion hx) rfl rfl
    (fun hx => List.noConfusion hx) rfl rfl

theorem f5_mtls_without_ssl_cex :
    validate_config cexMtlsNoSsl = Except.ok () ∧
    getD (configMtls cexMtlsNoSsl) "enabled" .null = .bool true ∧
    getD (configMtls cexMtlsNoSsl) "client_auth_type" (.str "none") = .str "required" ∧
    Except.map (fun cfg => hasKey (f5FirstVirtualServer cfg) "ssl")
      (f5_build_config (getD cexMtlsNoSsl "metadata" (.obj []))
        (getD cexMtlsNoSsl "virtual_server" (.obj []))
        (getD cexMtlsNoSsl "pools" (.arr [])) (getD cexMtlsNoSsl "certificates" (.arr []))) =
      Except.ok false :=
  ⟨rfl, rfl, rfl, rfl⟩

theorem lookupKey_set (k : String) (v : JVal) :
    ∀ d : LBaaS.PyDict, LBaaS.hasKey d k = true →
      LBaaS.lookupKey (d.map (fun kv => if kv.1 = k then (k, v) else kv)) k = some v := by
  intro d
  induction d with
  | nil => intro h; simp [LBaaS.hasKey, LBaaS.lookupKey] at h
  | cons kv rest ih =>
    obtain ⟨k1, v1⟩ := kv
    intro h
    rw [List.map_cons]
    show LBaaS.lookupKey ((if k1 = k then (k, v) else (k1, v1)) ::
      List.map (fun kv => if kv.1 = k then (k, v) else kv) rest) k = some v
    by_cases hk : k1 = k
    · rw [if_pos hk]
      show (if k = k then some v else
        LBaaS.lookupKey (List.map (fun kv => if kv.1 = k then (k, v) else kv) rest) k) = some v
      rw [if_pos rfl]
    · rw [if_neg hk]
      show (if k1 = k then some v1 else
        LBaaS.lookupKey (List.map (fun kv => if kv.1 = k then (k, v) else kv) rest) k) = some v
      rw [if_neg hk]
      exact ih (by simpa [LBaaS.hasKey, LBaaS.lookupKey, hk] using h)

theorem lookupKey_set_ne (k k' : String) (v : JVal) (hne : k ≠ k') :
    ∀ d : LBaaS.PyDict,
      LBaaS.lookupKey (d.map (fun kv => if kv.1 = k then (k, v) else kv)) k' =
        LBaaS.lookupKey d k' := by
  intro d
  induction d with
  | nil => simp [LBaaS.lookupKey]
  | cons kv rest ih =>
    obtain ⟨k1, v1⟩ := kv
    rw [List.map_cons]
    show LBaaS.lookupKey ((if k1 = k then (k, v) else (k1, v1)) ::
        List.map (fun kv => if kv.1 = k then (k, v) else kv) rest) k' =
      LBaaS.lookupKey ((k1, v1) :: rest) k'
    by_cases hk : k1 = k
    · rw [if_pos hk]
      show (if k = k' then some v else
          LBaaS.lookupKey (List.map (fun kv => if kv.1 = k then (k, v) else kv) rest) k') =
        if k1 = k' then some v1 else LBaaS.lookupKey rest k'
      rw [if_neg hne, if_neg (fun hx => hne (hk.symm.trans hx)), ih]
    · rw [if_neg hk]
      show (if k1 = k' then some v1 else
          LBaaS.lookupKey (List.map (fun kv => if kv.1 = k then (k, v) else kv) rest) k') =
        if k1 = k' then some v1 else LBaaS.lookupKey rest k'
      rw [ih]

theorem lookupKey_dictInsert_self (d : LBaaS.PyDict) (k : String) (v : JVal) :
    LBaaS.lookupKey (LBaaS.dictInsert d k v) k = some v := by
  unfold LBaaS.dictInsert
  by_cases h : LBaaS.hasKey d k = true
  · rw [if_pos h]
    exact lookupKey_set k v d h
  · rw [if_neg h]
    have hn : LBaaS.lookupKey d k = none := by
      rcases hl : LBaaS.lookupKey d k with _ | w
      · rfl
      · simp [LBaaS.hasKey, hl] at h
    rw [lookupKey_append, hn]
    simp [LBaaS.lookupKey]

theorem lookupKey_dictInsert_ne (d : LBaaS.PyDict) (k k' : String) (v : JVal)
    (hne : k ≠ k') :
    LBaaS.lookupKey (LBaaS.dictInsert d k v) k' = LBaaS.lookupKey d k' := by
  unfold LBaaS.dictInsert
  by_cases h : LBaaS.hasKey d k = true
  · rw [if_pos h]
    exact lookupKey_set_ne k k' v hne d
  · rw [if_neg h, lookupKey_append]
    rcases hl : LBaaS.lookupKey d k' with _ | w
    · simp [LBaaS.lookupKey, hne]
    · rfl

theorem asDict_dictOrEmpty {v : JVal} {d : LBaaS.PyDict}
    (h : LBaaS.asDict v = Except.ok d) : LBaaS.dictOrEmpty v = d := by
  cases v <;> simp [LBaaS.asDict] at h <;> simp [LBaaS.dictOrEmpty, h]

/-- C4: `deploy` never propagates an exception — every pipeline failure is
returned as `{'success': False, 'error': 'Exception during deployment: …'}`
— but the claim's second sentence fails: the exception branch's dictionary
never carries `config_path`, even when the pipeline failed at the write
step, after the artifact path had been computed
(`deploy_except_lacks_config_path_cex`); only the success dictionary is
guaranteed to carry the computed path. -/
theorem deploy_result_shape (translate : LBaaS.PyDict → LBaaS.PyResult String) (ext : String)
    (hook : LBaaS.PyDict → String → LBaaS.PyResult JVal) (env : DeployEnv)
    (standard_config : LBaaS.PyDict) (output_dir : String) :
    (∀ e, deploy_pipeline translate ext hook env standard_config output_dir =
        Except.error e →
      deploy translate ext hook env standard_config output_dir =
        [("success", .bool false),
         ("error", .str ("Exception during deployment: " ++ pyErrStr e))] ∧
      lookupKey (deploy translate ext hook env standard_config output_dir)
        "config_path" = none) ∧
    (∀ d, deploy_pipeline translate ext hook env standard_config output_dir =
        Except.ok d →
      deploy translate ext hook env standard_config output_dir = d ∧
      lookupKey d "config_path" =
        some (.str (deploy_config_path ext standard_config output_dir))) := by
  constructor
  · intro e he
    constructor
    · simp [deploy, he]
    · simp [deploy, he, lookupKey]
  · intro d hd
    constructor
    · simp [deploy, hd]
    · unfold deploy_pipeline at hd
      simp only [Bind.bind] at hd
      obtain ⟨vc, hvc, h⟩ := pyresult_bind_ok hd
      rcases hmk : env.makedirs_error with _ | m
      · rw [hmk] at h
        obtain ⟨u1, hu1, h⟩ := pyresult_bind_ok h
        obtain ⟨vsd, hvsd, h⟩ := pyresult_bind_ok h
        rcases hwr : env.write_error with _ | m
        · rw [hwr] at h
          obtain ⟨u2, hu2, h⟩ := pyresult_bind_ok h
          obtain ⟨dres, hdres, h⟩ := pyresult_bind_ok h
          obtain ⟨dr, hdr, h⟩ := pyresult_bind_ok h
          obtain ⟨md, hmd, h⟩ := pyresult_bind_ok h
          simp only [pure, Except.pure, Except.ok.injEq] at h
          subst h
          rw [lookupKey_dictInsert_ne _ _ _ _ (by decide), lookupKey_dictInsert_self]
          rw [deploy_config_path, asDict_dictOrEmpty hvsd]
        · rw [hwr] at h
          simp [Except.bind] at h
      · rw [hmk] at h
        simp [Except.bind] at h

theorem deploy_result_shape_witness :
    (deploy (fun _ => Except.ok "vendor") "conf"
        (fun _ _ => Except.ok (.obj [("success", JVal.bool true)]))
        ⟨none, some "disk full"⟩
        [("virtual_server", .obj [("name", .str "vs1")]), ("metadata", .obj [])] "out" =
      [("success", .bool false),
       ("error", .str "Exception during deployment: disk full")]) ∧
    (deploy (fun _ => Except.ok "vendor") "conf"
        (fun _ _ => Except.ok (.obj [("success", JVal.bool true)]))
        ⟨none, none⟩
        [("virtual_server", .obj [("name", .str "vs1")]), ("metadata", .obj [])] "out" =
      [("success", JVal.bool true), ("config_path", .str "out/vs1.conf"),
       ("lb_type", .str "")]) ∧
    lookupKey [("success", JVal.bool true), ("config_path", JVal.str "out/vs1.conf"),
        ("lb_type", JVal.str "")] "config_path" =
      some (.str (deploy_config_path "conf"
        [("virtual_server", .obj [("name", .str "vs1")]), ("metadata", .obj [])] "out")) :=
  ⟨((deploy_result_shape (fun _ => Except.ok "vendor") "conf"
      (fun _ _ => Except.ok (.obj [("success", JVal.bool true)]))
      ⟨none, some "disk full"⟩
      [("virtual_server", .obj [("name", .str "vs1")]), ("metadata", .obj [])] "out").1
      (.osError "disk full") rfl).1,
   ((deploy_result_shape (fun _ => Except.ok "vendor") "conf"
      (fun _ _ => Except.ok (.obj [("success", JVal.bool true)]))
      ⟨none, none⟩
      [("virtual_server", .obj [("name", .str "vs1")]), ("metadata", .obj [])] "out").2
      [("success", JVal.bool true), ("config_path", .str "out/vs1.conf"),
       ("lb_type", .str "")] rfl).1,
   ((deploy_result_shape (fun _ => Except.ok "vendor") "conf"
      (fun _ _ => Except.ok (.obj [("success", JVal.bool true)]))
      ⟨none, none⟩
      [("virtual_server", .obj [("name", .str "vs1")]), ("metadata", .obj [])] "out").2
      [("success", JVal.bool true), ("config_path", .str "out/vs1.conf"),
       ("lb_type", .str "")] rfl).2⟩

/-- C4 counterexample: on a configuration that the NGINX translator
translates successfully, a failure at the write step — after the artifact
path `out/app.example.com.conf` has been computed — yields a result
dictionary with no `config_path` key, refuting the claim's 'both success
and failure always report config_path when one was computed'. -/
theorem deploy_except_lacks_config_path_cex :
    (nginx_translate_config cexHttpSslOrphan).toOption.isSome = true ∧
    deploy nginx_translate_config "conf"
        (fun _ _ => Except.ok (.obj [("success", JVal.bool true)]))
        ⟨none, some "disk full"⟩ cexHttpSslOrphan "out" =
      [("success", .bool false),
       ("error", .str "Exception during deployment: disk full")] ∧
    lookupKey (deploy nginx_translate_config "conf"
        (fun _ _ => Except.ok (.obj [("success", JVal.bool true)]))
        ⟨none, some "disk full"⟩ cexHttpSslOrphan "out") "config_path" = none :=
  ⟨rfl, rfl, rfl⟩

theorem except_bind_okk {α β ε : Type} (a : α) (f : α → Except ε β) :
    Except.bind (Except.ok a) f = f a := rfl

theorem mapM_ok_of_forall {α β : Type} (f : α → LBaaS.PyResult β) :
    ∀ ms : List α, (∀ m, m ∈ ms → ∃ y, f m = Except.ok y) →
      ∃ ys, ms.mapM f = Except.ok ys := by
  have loop : ∀ (ms : List α) (acc : List β),
      (∀ m, m ∈ ms → ∃ y, f m = Except.ok y) →
      ∃ ys, List.mapM.loop f ms acc = Except.ok ys := by
    intro ms
    induction ms with
    | nil => intro acc h; exact ⟨acc.reverse, rfl⟩
    | cons m rest ih =>
      intro acc h
      obtain ⟨y, hy⟩ := h m (List.mem_cons_self m rest)
      obtain ⟨ys, hys⟩ := ih (y :: acc) (fun m hm => h m (List.mem_cons_of_mem _ hm))
      refine ⟨ys, ?_⟩
      simp only [List.mapM.loop, Bind.bind, hy, except_bind_okk]
      exact hys
  intro ms h
  exact loop ms [] h

theorem pyGtInt_ok {v : JVal} (k : Int) (h : (numVal v).isSome = true) :
    ∃ b, pyGtInt v k = Except.ok b := by
  unfold pyGtInt
  rcases hn : numVal v with _ | n
  · rw [hn] at h; simp at h
  · exact ⟨_, rfl⟩

theorem numVal_getD_isSome (kvs : LBaaS.PyDict) (k : String) (d : Int)
    (h : numIfPresent kvs k = true) :
    (numVal (getD kvs k (.int d))).isSome = true := by
  unfold numIfPresent at h
  unfold getD
  rcases hl : lookupKey kvs k with _ | v
  · rfl
  · rw [hl] at h; simpa using h

theorem pyJoin_ok (sep : String) (xs : List JVal)
    (h : ∀ x, x ∈ xs → ∃ s, x = JVal.str s) :
    ∃ s, pyJoin sep (.arr xs) = Except.ok s := by
  unfold pyJoin
  simp only [Bind.bind, pyIterate, except_bind_okk]
  have hs : ∀ x, x ∈ xs → ∃ s, asStr x = Except.ok s := by
    intro x hx
    obtain ⟨s, rfl⟩ := h x hx
    exact ⟨s, rfl⟩
  obtain ⟨ss, hss⟩ := mapM_ok_of_forall asStr xs hs
  rw [hss, except_bind_okk]
  exact ⟨_, rfl⟩

theorem findById_ok_of_objs (w : JVal) :
    ∀ xs : List JVal, (∀ x, x ∈ xs → ∃ kvs, x = JVal.obj kvs) →
      ∃ r, findById xs w = Except.ok r := by
  intro xs
  induction xs with
  | nil => intro _; exact ⟨none, rfl⟩
  | cons x rest ih =>
    intro h
    obtain ⟨kvs, hx⟩ := h x (List.mem_cons_self x rest)
    subst hx
    unfold findById
    by_cases hb : pyEq (getD kvs "id" .null) w = true
    · rw [if_pos hb]; exact ⟨some kvs, rfl⟩
    · rw [if_neg hb]; exact ih (fun y hy => h y (List.mem_cons_of_mem _ hy))

theorem asDictList_cons (x : JVal) (rest : List JVal) :
    asDictList (JVal.arr (x :: rest)) =
      Option.bind (match x with | JVal.obj kvs => some kvs | _ => none)
        (fun p => Option.bind (asDictList (JVal.arr rest)) (fun ps2 => some (p :: ps2))) := by
  show List.mapM _ (x :: rest) = _
  rw [List.mapM_cons]
  rfl

theorem findById_some_of_pyMem (w : JVal) :
    ∀ (xs : List JVal) (ps : List LBaaS.PyDict),
      asDictList (.arr xs) = some ps →
      pyMem w (ps.map (fun p => getD p "id" .null)) = true →
      ∃ p, findById xs w = Except.ok (some p) ∧ JVal.obj p ∈ xs := by
  intro xs
  induction xs with
  | nil =>
    intro ps hps hm
    injection hps with hps
    subst hps
    simp [pyMem] at hm
  | cons x rest ih =>
    intro ps hps hm
    rw [asDictList_cons] at hps
    rcases x with _ | b | n | s | a | kvs <;> simp only [Option.bind] at hps <;>
      try exact absurd hps (by simp)
    rcases hr : asDictList (JVal.arr rest) with _ | ps2 <;> rw [hr] at hps
    · exact absurd hps (by simp)
    · injection hps with hps
      subst hps
      rw [List.map_cons] at hm
      by_cases hb : pyEq (getD kvs "id" .null) w = true
      · refine ⟨kvs, ?_, List.mem_cons_self _ _⟩
        unfold findById
        rw [if_pos hb]
      · have hm2 : pyMem w (ps2.map (fun p => getD p "id" .null)) = true := by
          simpa [pyMem, List.any_cons, hb] using hm
        obtain ⟨p, hp, hmem⟩ := ih ps2 hr hm2
        refine ⟨p, ?_, List.mem_cons_of_mem _ hmem⟩
        unfold findById
        rw [if_neg hb]
        exact hp

theorem asDictList_of_objs :
    ∀ xs : List JVal, (∀ x, x ∈ xs → ∃ kvs, x = JVal.obj kvs) →
      ∃ ps, asDictList (.arr xs) = some ps ∧ ∀ p, p ∈ ps → JVal.obj p ∈ xs := by
  intro xs
  induction xs with
  | nil => exact fun _ => ⟨[], rfl, by simp⟩
  | cons x rest ih =>
    intro h
    obtain ⟨kvs, hx⟩ := h x (List.mem_cons_self x rest)
    subst hx
    obtain ⟨ps, hps, hmem⟩ := ih (fun y hy => h y (List.mem_cons_of_mem _ hy))
    refine ⟨kvs :: ps, ?_, ?_⟩
    · rw [asDictList_cons, hps]
      rfl
    · intro p hp
      rcases List.mem_cons.mp hp with hp | hp
      · subst hp; exact List.mem_cons_self _ _
      · exact List.mem_cons_of_mem _ (hmem p hp)

theorem getD_of_lookup {d : LBaaS.PyDict} {k : String} {v : JVal}
    (h : lookupKey d k = some v) (dflt : JVal) : getD d k dflt = v := by
  unfold getD
  rw [h]
  rfl

theorem nginx_member_line_ok (m : JVal) (h : memberWellTyped m = true) :
    ∃ s, nginx_member_line m = Except.ok s := by
  unfold memberWellTyped at h
  rcases m with _ | b | n | s | a | kvs <;> simp at h
  obtain ⟨h1, h2⟩ := h
  obtain ⟨b, hb⟩ := pyGtInt_ok 0 (numVal_getD_isSome kvs "max_connections" 0 h1)
  unfold nginx_member_line
  simp only [Bind.bind, asDict, except_bind_okk, hb]
  exact ⟨_, rfl⟩

theorem f5_member_config_ok (m : JVal) (h : memberWellTyped m = true) :
    ∃ s, f5_member_config m = Except.ok s := by
  unfold memberWellTyped at h
  rcases m with _ | b | n | s | a | kvs <;> simp at h
  obtain ⟨h1, h2⟩ := h
  obtain ⟨b, hb⟩ := pyGtInt_ok 0 (numVal_getD_isSome kvs "connection_limit" 0 h2)
  unfold f5_member_config
  simp only [Bind.bind, asDict, except_bind_okk, hb]
  exact ⟨_, rfl⟩

theorem avi_server_config_ok (m : JVal) (h : memberWellTyped m = true) :
    ∃ s, avi_server_config m = Except.ok s := by
  unfold memberWellTyped at h
  rcases m with _ | b | n | s | a | kvs <;> simp at h
  obtain ⟨h1, h2⟩ := h
  obtain ⟨b, hb⟩ := pyGtInt_ok 0 (numVal_getD_isSome kvs "connection_limit" 0 h2)
  unfold avi_server_config
  simp only [Bind.bind, asDict, except_bind_okk, hb]
  exact ⟨_, rfl⟩

set_option maxHeartbeats 2000000 in
theorem nginx_config_lines_ok
    (metadata virtual_server pools certificates : JVal)
    (vsd ssl mtls md pool : LBaaS.PyDict) (ms : List JVal)
    (hvs : asDict virtual_server = Except.ok vsd)
    (hpool : get_pool_by_id pools (getD vsd "pool_id" (.str "")) = Except.ok (some pool))
    (hpne : pool.isEmpty = false)
    (hssl : asDict (getD vsd "ssl" (.obj [])) = Except.ok ssl)
    (hmtls : asDict (getD vsd "mtls" (.obj [])) = Except.ok mtls)
    (hmd : asDict metadata = Except.ok md)
    (hpers : ∃ d, asDict (getD pool "persistence" (.obj [])) = Except.ok d)
    (hmem : pyIterate (getD pool "members" (.arr [])) = Except.ok ms)
    (hmemok : ∀ m, m ∈ ms → memberWellTyped m = true)
    (hcert : ∀ w, ∃ r, get_certificate_by_id certificates w = Except.ok r)
    (hjoin : ∃ s, pyJoin " " (getD ssl "protocols" (.arr [.str "TLSv1.2", .str "TLSv1.3"])) =
      Except.ok s)
    (hname : ∃ s, asStr (getD vsd "name" (.str "")) = Except.ok s)
    (hhttp : ∃ d, asDict (getD vsd "http" (.obj [])) = Except.ok d)
    (hconn : (numVal (getD vsd "connection_limit" (.int 0))).isSome = true) :
    ∃ ls, nginx_config_lines metadata virtual_server pools certificates = Except.ok ls := by
  obtain ⟨pers, hpers⟩ := hpers
  obtain ⟨joined, hjoin⟩ := hjoin
  obtain ⟨sname, hname⟩ := hname
  obtain ⟨http, hhttp⟩ := hhttp
  obtain ⟨memLines, hmemLines⟩ :=
    mapM_ok_of_forall nginx_member_line ms (fun m hm => nginx_member_line_ok m (hmemok m hm))
  obtain ⟨r1, hr1⟩ := hcert (getD ssl "certificate_id" (.str ""))
  obtain ⟨r2, hr2⟩ := hcert (getD mtls "client_ca_cert_id" (.str ""))
  obtain ⟨g1, hg1⟩ := pyGtInt_ok 0 hconn
  have hrep : pyReplace (getD vsd "name" (.str "")) "vs-" "" =
      Except.ok (pyStrReplace sname "vs-" "") := by
    unfold pyReplace
    simp only [Bind.bind, hname, except_bind_okk]
    rfl
  unfold nginx_config_lines
  by_cases hse : truthy (getD ssl "enabled" (.bool false)) = true <;>
    by_cases hme : truthy (getD mtls "enabled" (.bool false)) = true <;>
    by_cases hrd : truthy (getD http "redirect_http_to_https" (.bool false)) = true <;>
    simp only [Bind.bind, hvs, except_bind_okk, hpool, hpne, Bool.false_eq_true, if_false,
      hssl, hmtls, hmd, hpers, hmem, hmemLines, hr1, hr2, hg1, hrep, hhttp, hjoin,
      hse, hme, hrd, if_true, if_false, Bool.true_eq_false, pure, Except.pure,
      Bool.not_true, Bool.not_false, Bool.and_true, Bool.and_false, Bool.true_and,
      Bool.false_and, Bool.eq_false_iff, eq_self_iff_true, not_true, not_false_iff,
      Bool.not_eq_true] <;>
    exact ⟨_, rfl⟩

theorem asStr_getD_ok (kvs : LBaaS.PyDict) (k d : String)
    (h : strIfPresent kvs k = true) :
    ∃ s, asStr (getD kvs k (.str d)) = Except.ok s := by
  unfold strIfPresent at h
  unfold getD
  rcases hl : lookupKey kvs k with _ | v
  · exact ⟨d, rfl⟩
  · rw [hl] at h
    rcases v with _ | b | n | s | a | o <;> simp at h
    exact ⟨s, rfl⟩

theorem pyReplace_ok (v : JVal) (pat rep : String)
    (h : ∃ s, asStr v = Except.ok s) :
    ∃ s, LBaaS.pyReplace v pat rep = Except.ok s := by
  obtain ⟨s, hs⟩ := h
  unfold LBaaS.pyReplace
  simp only [Bind.bind, hs, except_bind_okk]
  exact ⟨_, rfl⟩

theorem exists_ok_of_ite {ε β : Type} (c : Prop) [Decidable c] {x y : Except ε β}
    (hx : ∃ a, x = Except.ok a) (hy : ∃ a, y = Except.ok a) :
    ∃ a, (if c then x else y) = Except.ok a := by
  by_cases h : c
  · simpa [h] using hx
  · simpa [h] using hy

theorem except_bind_ite {ε α β : Type} (c : Prop) [Decidable c] (x y : Except ε α)
    (f : α → Except ε β) :
    Except.bind (if c then x else y) f =
      if c then Except.bind x f else Except.bind y f := by
  by_cases h : c
  · rw [if_pos h, if_pos h]
  · rw [if_neg h, if_neg h]

set_option maxHeartbeats 4000000 in
set_option maxRecDepth 8000 in
theorem f5_build_config_ok
    (metadata virtual_server pools certificates : JVal)
    (vsd ssl mtls md pool : LBaaS.PyDict) (ms : List JVal)
    (hvs : asDict virtual_server = Except.ok vsd)
    (hpool : get_pool_by_id pools (getD vsd "pool_id" (.str "")) = Except.ok (some pool))
    (hpne : pool.isEmpty = false)
    (hssl : asDict (getD vsd "ssl" (.obj [])) = Except.ok ssl)
    (hmtls : asDict (getD vsd "mtls" (.obj [])) = Except.ok mtls)
    (hmd : asDict metadata = Except.ok md)
    (hmon : ∃ d, asDict (getD pool "monitor" (.obj [])) = Except.ok d)
    (hpers : ∃ d, asDict (getD pool "persistence" (.obj [])) = Except.ok d)
    (hmem : pyIterate (getD pool "members" (.arr [])) = Except.ok ms)
    (hmemok : ∀ m, m ∈ ms → memberWellTyped m = true)
    (hcert : ∀ w, ∃ r, get_certificate_by_id certificates w = Except.ok r)
    (hcws : ∀ w c, get_certificate_by_id certificates w = Except.ok (some c) →
      certWellTyped (.obj c) = true)
    (hpname : ∃ s, asStr (getD pool "name" (.str "pool")) = Except.ok s)
    (hvname : ∃ s, asStr (getD vsd "name" (.str "vs")) = Except.ok s)
    (hhttp : ∃ d, asDict (getD vsd "http" (.obj [])) = Except.ok d)
    (hconn : (numVal (getD vsd "connection_limit" (.int 0))).isSome = true)
    (hrate : (numVal (getD vsd "connection_rate_limit" (.int 0))).isSome = true) :
    ∃ cfg, f5_build_config metadata virtual_server pools certificates = Except.ok cfg := by
  obtain ⟨mon, hmon⟩ := hmon
  obtain ⟨pers, hpers⟩ := hpers
  obtain ⟨http, hhttp⟩ := hhttp
  obtain ⟨memCfgs, hmemCfgs⟩ :=
    mapM_ok_of_forall f5_member_config ms (fun m hm => f5_member_config_ok m (hmemok m hm))
  obtain ⟨pname, hpname⟩ := pyReplace_ok _ "-" "_" hpname
  obtain ⟨vname, hvname⟩ := pyReplace_ok _ "-" "_" hvname
  obtain ⟨g1, hg1⟩ := pyGtInt_ok 0 hconn
  obtain ⟨g2, hg2⟩ := pyGtInt_ok 0 hrate
  obtain ⟨r1, hr1⟩ := hcert (getD ssl "certificate_id" (.str ""))
  obtain ⟨r2, hr2⟩ := hcert (getD mtls "client_ca_cert_id" (.str ""))
  unfold f5_build_config
  rcases r1 with _ | cert
  · simp only [Bind.bind, hvs, except_bind_okk, hpool, hpne, Bool.false_eq_true, if_false,
      hssl, hmtls, hmem, hmemCfgs, hmon, hpname, hpers, hvname, hg1, hg2, hhttp, hmd,
      hr1, pure, Except.pure, except_bind_ite]
    repeat' (first | exact ⟨_, rfl⟩ | refine exists_ok_of_ite _ ?_ ?_)
  · obtain ⟨cname, hcname⟩ := pyReplace_ok (getD cert "name" (.str "server")) "-" "_"
      (asStr_getD_ok cert "name" "server" (by
        have hct := hcws _ _ hr1
        unfold certWellTyped at hct
        exact hct))
    rcases r2 with _ | ca
    · simp only [Bind.bind, hvs, except_bind_okk, hpool, hpne, Bool.false_eq_true, if_false,
        hssl, hmtls, hmem, hmemCfgs, hmon, hpname, hpers, hvname, hg1, hg2, hhttp, hmd,
        hr1, hr2, hcname, pure, Except.pure, except_bind_ite]
      repeat' (first | exact ⟨_, rfl⟩ | refine exists_ok_of_ite _ ?_ ?_)
    · obtain ⟨caname, hcaname⟩ := pyReplace_ok (getD ca "name" (.str "ca")) "-" "_"
        (asStr_getD_ok ca "name" "ca" (by
          have hct := hcws _ _ hr2
          unfold certWellTyped at hct
          exact hct))
      simp only [Bind.bind, hvs, except_bind_okk, hpool, hpne, Bool.false_eq_true, if_false,
        hssl, hmtls, hmem, hmemCfgs, hmon, hpname, hpers, hvname, hg1, hg2, hhttp, hmd,
        hr1, hr2, hcname, hcaname, pure, Except.pure, except_bind_ite]
      repeat' (first | exact ⟨_, rfl⟩ | refine exists_ok_of_ite _ ?_ ?_)

set_option maxHeartbeats 4000000 in
set_option maxRecDepth 8000 in
theorem avi_build_config_ok
    (metadata virtual_server pools certificates : JVal)
    (vsd ssl mtls md pool mon : LBaaS.PyDict) (ms : List JVal)
    (hvs : asDict virtual_server = Except.ok vsd)
    (hpool : get_pool_by_id pools (getD vsd "pool_id" (.str "")) = Except.ok (some pool))
    (hpne : pool.isEmpty = false)
    (hssl : asDict (getD vsd "ssl" (.obj [])) = Except.ok ssl)
    (hmtls : asDict (getD vsd "mtls" (.obj [])) = Except.ok mtls)
    (hmd : asDict metadata = Except.ok md)
    (hmon : asDict (getD pool "monitor" (.obj [])) = Except.ok mon)
    (hcodes : ∃ ls, pySplit (getD mon "expected_codes" (.str "200")) "," = Except.ok ls)
    (hpers : ∃ d, asDict (getD pool "persistence" (.obj [])) = Except.ok d)
    (hmem : pyIterate (getD pool "members" (.arr [])) = Except.ok ms)
    (hmemok : ∀ m, m ∈ ms → memberWellTyped m = true)
    (hcert : ∀ w, ∃ r, get_certificate_by_id certificates w = Except.ok r)
    (hproto : ∃ xs, pyIterate (getD ssl "protocols" (.arr [.str "TLSv1.2", .str "TLSv1.3"])) =
      Except.ok xs)
    (hhttp : ∃ d, asDict (getD vsd "http" (.obj [])) = Except.ok d)
    (hconn : (numVal (getD vsd "connection_limit" (.int 0))).isSome = true) :
    ∃ cfg, avi_build_config metadata virtual_server pools certificates = Except.ok cfg := by
  obtain ⟨codes, hcodes⟩ := hcodes
  obtain ⟨pers, hpers⟩ := hpers
  obtain ⟨protoList, hproto⟩ := hproto
  obtain ⟨http, hhttp⟩ := hhttp
  obtain ⟨servers, hservers⟩ :=
    mapM_ok_of_forall avi_server_config ms (fun m hm => avi_server_config_ok m (hmemok m hm))
  obtain ⟨g1, hg1⟩ := pyGtInt_ok 0 hconn
  obtain ⟨r1, hr1⟩ := hcert (getD ssl "certificate_id" (.str ""))
  obtain ⟨r2, hr2⟩ := hcert (getD mtls "client_ca_cert_id" (.str ""))
  unfold avi_build_config
  rcases r1 with _ | cert <;> rcases r2 with _ | ca <;>
    simp only [Bind.bind, hvs, except_bind_okk, hpool, hpne, Bool.false_eq_true, if_false,
      hssl, hmtls, hmem, hservers, hmon, hcodes, hpers, hg1, hhttp, hmd, hr1, hr2, hproto,
      pure, Except.pure, except_bind_ite] <;>
    repeat' (first | exact ⟨_, rfl⟩ | refine exists_ok_of_ite _ ?_ ?_)

theorem getD_default_of_none {kvs : LBaaS.PyDict} {k : String}
    (h : lookupKey kvs k = none) (d : JVal) : getD kvs k d = d := by
  unfold getD
  rw [h]
  rfl

theorem getD_eq_getD_of_hasKey {kvs : LBaaS.PyDict} {k : String}
    (h : LBaaS.hasKey kvs k = true) (d1 d2 : JVal) : getD kvs k d1 = getD kvs k d2 := by
  unfold LBaaS.hasKey at h
  rcases hl : lookupKey kvs k with _ | v
  · rw [hl] at h; simp at h
  · rw [getD_of_lookup hl, getD_of_lookup hl]

theorem asDict_getD_ok (kvs : LBaaS.PyDict) (k : String)
    (h : dictIfPresent kvs k = true) :
    ∃ d, asDict (getD kvs k (.obj [])) = Except.ok d := by
  unfold dictIfPresent at h
  rcases hl : lookupKey kvs k with _ | v
  · exact ⟨[], by rw [getD_default_of_none hl]; rfl⟩
  · rw [hl] at h
    rcases v with _ | b | n | s | a | o <;> simp at h
    exact ⟨o, by rw [getD_of_lookup hl]; rfl⟩

theorem pySplit_getD_ok (kvs : LBaaS.PyDict) (k d sep : String)
    (h : strIfPresent kvs k = true) :
    ∃ ls, pySplit (getD kvs k (.str d)) sep = Except.ok ls := by
  obtain ⟨s, hs⟩ := asStr_getD_ok kvs k d h
  unfold pySplit
  simp only [Bind.bind, hs, except_bind_okk]
  exact ⟨_, rfl⟩

theorem pyJoin_getD_ok (kvs : LBaaS.PyDict) (k : String)
    (h : strListIfPresent kvs k = true) :
    ∃ s, pyJoin " " (getD kvs k (.arr [.str "TLSv1.2", .str "TLSv1.3"])) = Except.ok s := by
  unfold strListIfPresent at h
  rcases hl : lookupKey kvs k with _ | v
  · rw [getD_default_of_none hl]
    refine pyJoin_ok " " _ ?_
    intro x hx
    simp only [List.mem_cons, List.not_mem_nil, or_false] at hx
    rcases hx with rfl | rfl
    · exact ⟨_, rfl⟩
    · exact ⟨_, rfl⟩
  · rw [hl] at h
    rcases v with _ | b | n | s | a | o <;> simp at h
    rw [getD_of_lookup hl]
    refine pyJoin_ok " " a ?_
    intro x hx
    have hx2 := h x hx
    rcases x with _ | b | n | s | a2 | o <;> simp at hx2
    exact ⟨s, rfl⟩

theorem pyIterate_getD_ok (kvs : LBaaS.PyDict) (k : String)
    (h : strListIfPresent kvs k = true) :
    ∃ xs, pyIterate (getD kvs k (.arr [.str "TLSv1.2", .str "TLSv1.3"])) = Except.ok xs := by
  unfold strListIfPresent at h
  rcases hl : lookupKey kvs k with _ | v
  · rw [getD_default_of_none hl]
    exact ⟨_, rfl⟩
  · rw [hl] at h
    rcases v with _ | b | n | s | a | o <;> simp at h
    rw [getD_of_lookup hl]
    exact ⟨a, rfl⟩

theorem findById_mem (w : JVal) :
    ∀ (xs : List JVal) (c : LBaaS.PyDict), findById xs w = Except.ok (some c) →
      JVal.obj c ∈ xs := by
  intro xs
  induction xs with
  | nil => intro c h; exact absurd h (by simp [findById])
  | cons x rest ih =>
    intro c h
    rcases x with _ | b | n | s | a | kvs
    case obj =>
      unfold findById at h
      by_cases hb : pyEq (getD kvs "id" .null) w = true
      · rw [if_pos hb] at h
        injection h with h
        injection h with h
        subst h
        exact List.mem_cons_self _ _
      · rw [if_neg hb] at h
        exact List.mem_cons_of_mem _ (ih c h)
    all_goals simp [findById] at h

theorem validate_ok_facts (config : LBaaS.PyDict) (vs : LBaaS.PyDict) (xs : List JVal)
    (ps : List LBaaS.PyDict)
    (hvs0 : lookupKey config "virtual_server" = some (.obj vs))
    (hpl : lookupKey config "pools" = some (.arr xs))
    (hps : asDictList (.arr xs) = some ps)
    (hv : validate_config config = Except.ok ()) :
    LBaaS.hasKey config "metadata" = true ∧
    LBaaS.hasKey vs "pool_id" = true ∧
    pyMem (getD vs "pool_id" .null) (ps.map (fun p => getD p "id" .null)) = true := by
  unfold validate_config at hv
  have h2 : LBaaS.hasKey config "virtual_server" = true := by
    unfold LBaaS.hasKey; rw [hvs0]; rfl
  have h3 : LBaaS.hasKey config "pools" = true := by
    unfold LBaaS.hasKey; rw [hpl]; rfl
  by_cases h1 : LBaaS.hasKey config "metadata" = true
  case neg =>
    rw [Bool.not_eq_true] at h1
    rw [h1] at hv
    simp at hv
  rw [h1, h2, h3, getD_of_lookup hvs0] at hv
  simp only [Bool.not_true, Bool.false_eq_true, if_false] at hv
  by_cases hk1 : LBaaS.hasKey vs "id" = true
  case neg => rw [Bool.not_eq_true] at hk1; rw [hk1] at hv; simp at hv
  rw [hk1] at hv
  by_cases hk2 : LBaaS.hasKey vs "name" = true
  case neg => rw [Bool.not_eq_true] at hk2; rw [hk2] at hv; simp at hv
  rw [hk2] at hv
  by_cases hk3 : LBaaS.hasKey vs "ip_address" = true
  case neg => rw [Bool.not_eq_true] at hk3; rw [hk3] at hv; simp at hv
  rw [hk3] at hv
  by_cases hk4 : LBaaS.hasKey vs "port" = true
  case neg => rw [Bool.not_eq_true] at hk4; rw [hk4] at hv; simp at hv
  rw [hk4] at hv
  by_cases hk5 : LBaaS.hasKey vs "protocol" = true
  case neg => rw [Bool.not_eq_true] at hk5; rw [hk5] at hv; simp at hv
  rw [hk5] at hv
  by_cases hk6 : LBaaS.hasKey vs "pool_id" = true
  case neg => rw [Bool.not_eq_true] at hk6; rw [hk6] at hv; simp at hv
  rw [hk6] at hv
  rw [getD_of_lookup hpl] at hv
  simp only [Bool.not_true, Bool.false_eq_true, if_false, hps] at hv
  by_cases ht : truthy (JVal.arr xs) = true
  case neg =>
    rw [Bool.not_eq_true] at ht
    simp [ht] at hv
  simp only [ht, Bool.true_eq_false, if_false] at hv
  by_cases hm : pyMem (getD vs "pool_id" .null) (ps.map (fun p => getD p "id" .null)) = true
  case neg =>
    rw [Bool.not_eq_true] at hm
    rw [hm] at hv
    simp at hv
  exact ⟨h1, hk6, hm⟩

/-- C5 (amended): validation alone does not make translation total — it never
inspects member or monitor field types, and a validated configuration whose
member `max_connections` is a string makes the NGINX generator raise a
`TypeError` (`translate_after_validate_cex`).  Translation of a validated
configuration is total once the generator-touched fields carry their schema
types (`WellTypedConfig`): all three vendor `translate_config`s then return a
string. -/
theorem translate_total_on_welltyped (config : LBaaS.PyDict)
    (hv : validate_config config = Except.ok ())
    (hw : WellTypedConfig config = true) :
    (∃ s, nginx_translate_config config = Except.ok s) ∧
    (∃ s, f5_translate_config config = Except.ok s) ∧
    (∃ s, avi_translate_config config = Except.ok s) := by
  unfold WellTypedConfig at hw
  simp only [Bool.and_eq_true] at hw
  obtain ⟨⟨⟨hw1, hw2⟩, hw3⟩, hw4⟩ := hw
  rcases hvs0 : lookupKey config "virtual_server" with _ | v
  case none => rw [hvs0] at hw2; simp at hw2
  rw [hvs0] at hw2
  rcases v with _ | b0 | n0 | s0 | a0 | vs <;> simp at hw2
  obtain ⟨⟨⟨⟨⟨⟨hnameT, hsslT⟩, hmtlsT⟩, hhttpT⟩, hconnT⟩, hrateT⟩, hprotoT⟩ := hw2
  rcases hpl : lookupKey config "pools" with _ | v2
  case none => rw [hpl] at hw3; simp at hw3
  rw [hpl] at hw3
  rcases v2 with _ | b1 | n1 | s1 | xs | o1 <;> simp at hw3
  have hall : ∀ x, x ∈ xs → poolWellTyped x = true := hw3
  obtain ⟨ps, hps, hpslink⟩ := asDictList_of_objs xs (fun x hx => by
    have hx2 := hall x hx
    rcases x with _ | _ | _ | _ | _ | kvs <;> simp [poolWellTyped] at hx2
    exact ⟨kvs, rfl⟩)
  obtain ⟨hmdHas, hpidHas, hpm⟩ := validate_ok_facts config vs xs ps hvs0 hpl hps hv
  obtain ⟨pool, hfind, hpoolmem⟩ :=
    findById_some_of_pyMem (getD vs "pool_id" .null) xs ps hps hpm
  have hpwt : poolWellTyped (.obj pool) = true := hall _ hpoolmem
  unfold poolWellTyped at hpwt
  simp only [Bool.and_eq_true, Bool.not_eq_true'] at hpwt
  obtain ⟨⟨⟨⟨⟨hpe, hpnameT⟩, hpmonT⟩, hppersT⟩, hpexpT⟩, hpmemsT⟩ := hpwt
  rcases hmdl : lookupKey config "metadata" with _ | vmd
  case none =>
    unfold LBaaS.hasKey at hmdHas
    rw [hmdl] at hmdHas
    simp at hmdHas
  unfold dictIfPresent at hw1
  rw [hmdl] at hw1
  rcases vmd with _ | b2 | n2 | s2 | a2 | md <;> simp at hw1
  have hmd : asDict (getD config "metadata" (.obj [])) = Except.ok md := by
    rw [getD_of_lookup hmdl]; rfl
  have hvsD : asDict (getD config "virtual_server" (.obj [])) = Except.ok vs := by
    rw [getD_of_lookup hvs0]; rfl
  have hpool : get_pool_by_id (getD config "pools" (.arr []))
      (getD vs "pool_id" (.str "")) = Except.ok (some pool) := by
    rw [getD_of_lookup hpl, getD_eq_getD_of_hasKey hpidHas (.str "") .null]
    unfold get_pool_by_id
    simp only [Bind.bind, pyIterate, except_bind_okk]
    exact hfind
  obtain ⟨sslD, hsslD2, hsslProto⟩ : ∃ d, asDict (getD vs "ssl" (.obj [])) = Except.ok d ∧
      strListIfPresent d "protocols" = true := by
    rcases hsll : lookupKey vs "ssl" with _ | vssl
    · exact ⟨[], by rw [getD_default_of_none hsll]; rfl, rfl⟩
    · unfold dictIfPresent at hsslT
      rw [hsll] at hsslT
      rcases vssl with _ | b3 | n3 | s3 | a3 | sslD <;> simp at hsslT
      refine ⟨sslD, by rw [getD_of_lookup hsll]; rfl, ?_⟩
      rw [hsll] at hprotoT
      exact hprotoT
  obtain ⟨mtlsD, hmtlsD2⟩ := asDict_getD_ok vs "mtls" hmtlsT
  obtain ⟨httpD, hhttpD2⟩ := asDict_getD_ok vs "http" hhttpT
  obtain ⟨monD, hmonD2, hexpD⟩ : ∃ d, asDict (getD pool "monitor" (.obj [])) = Except.ok d ∧
      strIfPresent d "expected_codes" = true := by
    rcases hmnl : lookupKey pool "monitor" with _ | vmon
    · exact ⟨[], by rw [getD_default_of_none hmnl]; rfl, rfl⟩
    · unfold dictIfPresent at hpmonT
      rw [hmnl] at hpmonT
      rcases vmon with _ | b4 | n4 | s4 | a4 | monD <;> simp at hpmonT
      refine ⟨monD, by rw [getD_of_lookup hmnl]; rfl, ?_⟩
      rw [hmnl] at hpexpT
      exact hpexpT
  obtain ⟨ms, hmemIter, hmemall⟩ : ∃ ms,
      pyIterate (getD pool "members" (.arr [])) = Except.ok ms ∧
      ∀ m, m ∈ ms → memberWellTyped m = true := by
    rcases hmml : lookupKey pool "members" with _ | vmem
    · exact ⟨[], by rw [getD_default_of_none hmml]; rfl, by simp⟩
    · rw [hmml] at hpmemsT
      rcases vmem with _ | b5 | n5 | s5 | ms | o5 <;> simp at hpmemsT
      refine ⟨ms, by rw [getD_of_lookup hmml]; rfl, ?_⟩
      intro m hm
      exact hpmemsT m hm
  obtain ⟨hcert, hcws⟩ :
      (∀ w, ∃ r, get_certificate_by_id (getD config "certificates" (.arr [])) w =
        Except.ok r) ∧
      (∀ w c, get_certificate_by_id (getD config "certificates" (.arr [])) w =
        Except.ok (some c) → certWellTyped (.obj c) = true) := by
    rcases hcl : lookupKey config "certificates" with _ | v3
    · rw [getD_default_of_none hcl]
      constructor
      · intro w
        exact ⟨none, rfl⟩
      · intro w c h
        unfold get_certificate_by_id at h
        simp [Bind.bind, pyIterate, except_bind_okk, findById] at h
    · rw [hcl] at hw4
      rcases v3 with _ | b6 | n6 | s6 | cs | o6 <;> simp at hw4
      rw [getD_of_lookup hcl]
      have hcobj : ∀ x, x ∈ cs → ∃ kvs, x = JVal.obj kvs := by
        intro x hx
        have hx2 := hw4 x hx
        rcases x with _ | _ | _ | _ | _ | kvs <;> simp [certWellTyped] at hx2
        exact ⟨kvs, rfl⟩
      constructor
      · intro w
        obtain ⟨r, hr⟩ := findById_ok_of_objs w cs hcobj
        refine ⟨r, ?_⟩
        unfold get_certificate_by_id
        simp only [Bind.bind, pyIterate, except_bind_okk]
        exact hr
      · intro w c h
        unfold get_certificate_by_id at h
        simp only [Bind.bind, pyIterate, except_bind_okk] at h
        exact hw4 _ (findById_mem w cs c h)
  have hnameS := asStr_getD_ok vs "name" "" hnameT
  have hvnameS := asStr_getD_ok vs "name" "vs" hnameT
  have hpnameS := asStr_getD_ok pool "name" "pool" hpnameT
  have hconnN := numVal_getD_isSome vs "connection_limit" 0 hconnT
  have hrateN := numVal_getD_isSome vs "connection_rate_limit" 0 hrateT
  have hjoinS := pyJoin_getD_ok sslD "protocols" hsslProto
  have hprotoS := pyIterate_getD_ok sslD "protocols" hsslProto
  have hcodesS := pySplit_getD_ok monD "expected_codes" "200" "," hexpD
  have hpersS := asDict_getD_ok pool "persistence" hppersT
  obtain ⟨ls, hls⟩ := nginx_config_lines_ok (getD config "metadata" (.obj []))
    (getD config "virtual_server" (.obj [])) (getD config "pools" (.arr []))
    (getD config "certificates" (.arr [])) vs sslD mtlsD md pool ms
    hvsD hpool hpe hsslD2 hmtlsD2 hmd hpersS hmemIter hmemall hcert hjoinS hnameS
    ⟨httpD, hhttpD2⟩ hconnN
  obtain ⟨cfg5, hcfg5⟩ := f5_build_config_ok (getD config "metadata" (.obj []))
    (getD config "virtual_server" (.obj [])) (getD config "pools" (.arr []))
    (getD config "certificates" (.arr [])) vs sslD mtlsD md pool ms
    hvsD hpool hpe hsslD2 hmtlsD2 hmd ⟨monD, hmonD2⟩ hpersS hmemIter hmemall hcert hcws
    hpnameS hvnameS ⟨httpD, hhttpD2⟩ hconnN hrateN
  obtain ⟨cfgA, hcfgA⟩ := avi_build_config_ok (getD config "metadata" (.obj []))
    (getD config "virtual_server" (.obj [])) (getD config "pools" (.arr []))
    (getD config "certificates" (.arr [])) vs sslD mtlsD md pool monD ms
    hvsD hpool hpe hsslD2 hmtlsD2 hmd hmonD2 hcodesS hpersS hmemIter hmemall hcert
    hprotoS ⟨httpD, hhttpD2⟩ hconnN
  refine ⟨?_, ?_, ?_⟩
  · unfold nginx_translate_config translate_config nginx_generate_vendor_config
    simp only [Bind.bind, hv, except_bind_okk, hls]
    exact ⟨_, rfl⟩
  · unfold f5_translate_config translate_config f5_generate_vendor_config
    simp only [Bind.bind, hv, except_bind_okk, hcfg5]
    exact ⟨_, rfl⟩
  · unfold avi_translate_config translate_config avi_generate_vendor_config
    simp only [Bind.bind, hv, except_bind_okk, hcfgA]
    exact ⟨_, rfl⟩

theorem translate_total_on_welltyped_witness :
    (∃ s, nginx_translate_config exHttpsMtls = Except.ok s) ∧
    (∃ s, f5_translate_config exHttpsMtls = Except.ok s) ∧
    (∃ s, avi_translate_config exHttpsMtls = Except.ok s) :=
  translate_total_on_welltyped exHttpsMtls rfl rfl

/-- C5 counterexample: a configuration that passes `_validate_config` —
validation never types member fields — whose member `max_connections` is the
string `"10"`; the NGINX generator's `max_connections > 0` comparison then
raises `TypeError`, an unhandled fault outside the documented taxonomy. -/
theorem translate_after_validate_cex :
    validate_config cexStringMaxConns = Except.ok () ∧
    nginx_translate_config cexStringMaxConns = Except.error PyErr.typeError :=
  ⟨rfl, rfl⟩

/-! ### The JSON round-trip (`from_json (to_json c) = c`) -/


theorem char_eq_of_toNat (a b : Char) (h : a.toNat = b.toNat) : a = b := by
  apply Char.eq_of_val_eq
  exact UInt32.toNat.inj h

theorem char_toNat_ofNat {n : Nat} (h : n < 0xD800) : (Char.ofNat n).toNat = n := by
  unfold Char.ofNat
  rw [dif_pos (Or.inl h)]
  rfl

theorem digitChar_toNat {k : Nat} (h : k < 10) : (digitChar k).toNat = 48 + k := by
  unfold digitChar
  rw [show '0'.toNat = 48 from rfl]
  exact char_toNat_ofNat (by omega)

theorem digitChar_ne {k : Nat} (h : k < 10) (c : Char)
    (hc : ¬c.toNat = 48 + k) : ¬digitChar k = c := by
  intro he
  apply hc
  rw [← he, digitChar_toNat h]

theorem isDigitC_digitChar {k : Nat} (h : k < 10) : isDigitC (digitChar k) = true := by
  unfold isDigitC
  have h1 : '0' ≤ digitChar k := by
    show '0'.toNat ≤ (digitChar k).toNat
    rw [digitChar_toNat h]
    show 48 ≤ 48 + k
    omega
  have h2 : digitChar k ≤ '9' := by
    show (digitChar k).toNat ≤ '9'.toNat
    rw [digitChar_toNat h]
    show 48 + k ≤ 57
    omega
  simp [h1, h2]

theorem isJsonWS_digitChar {k : Nat} (h : k < 10) : isJsonWS (digitChar k) = false := by
  unfold isJsonWS
  have h1 := digitChar_toNat h
  simp only [Bool.or_eq_false_iff, decide_eq_false_iff_not]
  refine ⟨⟨⟨?_, ?_⟩, ?_⟩, ?_⟩ <;> intro he <;> rw [he] at h1 <;> simp at h1 <;> omega

theorem skipWS_cons_not (c : Char) (h : isJsonWS c = false) (cs : List Char) :
    skipWS (c :: cs) = c :: cs := by
  simp [skipWS, h]

theorem skipWS_append_ws (cs : List Char) :
    ∀ pre, (∀ c, c ∈ pre → isJsonWS c = true) → skipWS (pre ++ cs) = skipWS cs := by
  intro pre
  induction pre with
  | nil => intro _; rfl
  | cons c rest ih =>
    intro h
    rw [List.cons_append]
    show skipWS (c :: (rest ++ cs)) = skipWS cs
    rw [show skipWS (c :: (rest ++ cs)) = skipWS (rest ++ cs) from by
      simp [skipWS, h c (List.mem_cons_self c rest)]]
    exact ih (fun c hc => h c (List.mem_cons_of_mem _ hc))

theorem nlIndent_ws (n : Nat) : ∀ c, c ∈ nlIndent n → isJsonWS c = true := by
  intro c hc
  unfold nlIndent at hc
  rcases List.mem_cons.mp hc with rfl | hc
  · rfl
  · rw [List.eq_of_mem_replicate hc]
    rfl

theorem skipWS_nlIndent (n : Nat) (cs : List Char) :
    skipWS (nlIndent n ++ cs) = skipWS cs :=
  skipWS_append_ws cs (nlIndent n) (nlIndent_ws n)

theorem parseJsonValue_ws (fuel : Nat) (pre cs : List Char)
    (h : ∀ c, c ∈ pre → isJsonWS c = true) :
    parseJsonValue fuel (pre ++ cs) = parseJsonValue fuel cs := by
  cases fuel with
  | zero => rfl
  | succ fuel =>
    simp only [parseJsonValue]
    rw [skipWS_append_ws cs pre h]

theorem parseJsonItems_ws (fuel : Nat) (pre cs : List Char)
    (h : ∀ c, c ∈ pre → isJsonWS c = true) :
    parseJsonItems fuel (pre ++ cs) = parseJsonItems fuel cs := by
  cases fuel with
  | zero => rfl
  | succ fuel =>
    simp only [parseJsonItems]
    rw [parseJsonValue_ws fuel pre cs h]

theorem parseJsonMembers_ws (fuel : Nat) (pre cs : List Char)
    (h : ∀ c, c ∈ pre → isJsonWS c = true) :
    parseJsonMembers fuel (pre ++ cs) = parseJsonMembers fuel cs := by
  cases fuel with
  | zero => rfl
  | succ fuel =>
    simp only [parseJsonMembers]
    rw [skipWS_append_ws cs pre h]

theorem natDigitsRev_ne_nil (n : Nat) : natDigitsRev n ≠ [] := by
  unfold natDigitsRev
  split
  · simp
  · simp

theorem natDigitsRev_digits : ∀ n c, c ∈ natDigitsRev n → ∃ k, k < 10 ∧ c = digitChar k := by
  intro n
  induction n using Nat.strong_induction_on with
  | _ n ih =>
    intro c hc
    unfold natDigitsRev at hc
    split at hc
    · rcases List.mem_singleton.mp hc with rfl
      exact ⟨n, by omega, rfl⟩
    · rcases List.mem_cons.mp hc with rfl | hc
      · exact ⟨n % 10, by omega, rfl⟩
      · exact ih (n / 10) (Nat.div_lt_self (by omega) (by omega)) c hc

theorem takeDigitRun_spec (rest : List Char)
    (hrest : ∀ c r, rest = c :: r → isDigitC c = false) :
    ∀ ds, (∀ c, c ∈ ds → isDigitC c = true) → takeDigitRun (ds ++ rest) = (ds, rest) := by
  intro ds
  induction ds with
  | nil =>
    intro _
    cases rest with
    | nil => rfl
    | cons c r =>
      simp only [List.nil_append]
      unfold takeDigitRun
      rw [hrest c r rfl]
      rfl
  | cons c ds ih =>
    intro h
    rw [List.cons_append]
    unfold takeDigitRun
    rw [h c (List.mem_cons_self c ds), ih (fun c hc => h c (List.mem_cons_of_mem _ hc))]
    rfl

theorem digitRunVal_append (ds : List Char) (c : Char) :
    digitRunVal (ds ++ [c]) = digitRunVal ds * 10 + (c.toNat - 48) := by
  unfold digitRunVal
  rw [List.foldl_append]
  rfl

theorem digitRunVal_natDigitsRev : ∀ n, digitRunVal (natDigitsRev n).reverse = n := by
  intro n
  induction n using Nat.strong_induction_on with
  | _ n ih =>
    unfold natDigitsRev
    split
    · rename_i h
      show digitRunVal [digitChar n] = n
      show 0 * 10 + ((digitChar n).toNat - 48) = n
      rw [digitChar_toNat h]
      omega
    · rename_i h
      rw [List.reverse_cons, digitRunVal_append,
        ih (n / 10) (Nat.div_lt_self (by omega) (by omega)),
        digitChar_toNat (by omega)]
      omega

theorem natDigitsRev_head_digit (n : Nat) :
    ∃ k rest, (natDigitsRev n).reverse = digitChar k :: rest ∧ k < 10 := by
  rcases hr : (natDigitsRev n).reverse with _ | ⟨c, rest⟩
  · exact absurd (by simpa using congrArg List.reverse hr) (natDigitsRev_ne_nil n)
  · have hc : c ∈ natDigitsRev n := by
      have : c ∈ (natDigitsRev n).reverse := by rw [hr]; exact List.mem_cons_self _ _
      simpa using this
    obtain ⟨k, hk, rfl⟩ := natDigitsRev_digits n c hc
    exact ⟨k, rest, rfl, hk⟩

theorem parseJsonInt_intChars (i : Int) (rest : List Char) (hd : jsonNumDelim rest) :
    parseJsonInt (intChars i ++ rest) = some (i, rest) := by
  have hdig : ∀ c, c ∈ (natDigitsRev i.natAbs).reverse → isDigitC c = true := by
    intro c hc
    obtain ⟨k, hk, rfl⟩ := natDigitsRev_digits i.natAbs c (by simpa using hc)
    exact isDigitC_digitChar hk
  have hrest : ∀ c r, rest = c :: r → isDigitC c = false := by
    intro c r he
    rw [he] at hd
    exact hd.1
  have htd := takeDigitRun_spec rest hrest (natDigitsRev i.natAbs).reverse hdig
  have hne : ((natDigitsRev i.natAbs).reverse).isEmpty = false := by
    rcases hr : (natDigitsRev i.natAbs).reverse with _ | ⟨c, r⟩
    · exact absurd (by simpa using congrArg List.reverse hr) (natDigitsRev_ne_nil _)
    · rfl
  have hval : digitRunVal (natDigitsRev i.natAbs).reverse = i.natAbs :=
    digitRunVal_natDigitsRev i.natAbs
  by_cases hneg : i < 0
  · rw [show intChars i = '-' :: (natDigitsRev i.natAbs).reverse from by
      unfold intChars; rw [if_pos hneg]]
    unfold parseJsonInt
    simp only [List.cons_append, htd, hne, Bool.false_eq_true, if_false, hval]
    have hiv : -(i.natAbs : Int) = i := by omega
    cases rest with
    | nil => simp only [if_true, hiv]
    | cons c r =>
      obtain ⟨h1, h2, h3, h4⟩ := hd
      split
      · simp_all
      · simp_all
      · simp_all
      · simp only [if_true, hiv]
  · rw [show intChars i = (natDigitsRev i.natAbs).reverse from by
      unfold intChars; rw [if_neg hneg]]
    obtain ⟨k, tail, heq, hk⟩ := natDigitsRev_head_digit i.natAbs
    have hknd : ¬digitChar k = '-' := digitChar_ne hk '-' (by
      intro h
      rw [show ('-').toNat = 45 from rfl] at h
      omega)
    unfold parseJsonInt
    rw [heq, List.cons_append]
    split
    · simp_all
    rw [← List.cons_append, ← heq]
    simp only [htd, hne, Bool.false_eq_true, if_false, hval]
    have hiv : ((i.natAbs : Nat) : Int) = i := by omega
    cases rest with
    | nil => simp only [Bool.false_eq_true, if_false, if_true, hiv]
    | cons c r =>
      obtain ⟨h1, h2, h3, h4⟩ := hd
      split
      · simp_all
      · simp_all
      · simp_all
      · simp only [Bool.false_eq_true, if_false, if_true, hiv]


theorem hexDigitVal_hexDigitChar {k : Nat} (hk : k < 16) :
    hexDigitVal (hexDigitChar k) = some k := by
  unfold hexDigitVal hexDigitChar
  by_cases h10 : k < 10
  · rw [if_pos h10]
    have ht : (Char.ofNat ('0'.toNat + k)).toNat = 48 + k := by
      rw [show '0'.toNat = 48 from rfl]
      exact char_toNat_ofNat (by omega)
    have h1 : '0' ≤ Char.ofNat ('0'.toNat + k) := by
      show '0'.toNat ≤ (Char.ofNat ('0'.toNat + k)).toNat
      rw [ht]
      show 48 ≤ 48 + k
      omega
    have h2 : Char.ofNat ('0'.toNat + k) ≤ '9' := by
      show (Char.ofNat ('0'.toNat + k)).toNat ≤ '9'.toNat
      rw [ht]
      show 48 + k ≤ 57
      omega
    rw [if_pos ⟨h1, h2⟩, ht]
    simp only [Option.some.injEq]
    show (48 : Nat) + k - 48 = k
    omega
  · rw [if_neg h10]
    have ht : (Char.ofNat ('a'.toNat + (k - 10))).toNat = 97 + (k - 10) := by
      rw [show 'a'.toNat = 97 from rfl]
      exact char_toNat_ofNat (by omega)
    have h1 : ¬('0' ≤ Char.ofNat ('a'.toNat + (k - 10)) ∧
        Char.ofNat ('a'.toNat + (k - 10)) ≤ '9') := by
      intro hx
      have h2 : (Char.ofNat ('a'.toNat + (k - 10))).toNat ≤ '9'.toNat := hx.2
      rw [ht] at h2
      have : (57 : Nat) = '9'.toNat := rfl
      omega
    rw [if_neg h1]
    have h2 : 'a' ≤ Char.ofNat ('a'.toNat + (k - 10)) := by
      show 'a'.toNat ≤ (Char.ofNat ('a'.toNat + (k - 10))).toNat
      rw [ht]
      show 97 ≤ 97 + (k - 10)
      omega
    have h3 : Char.ofNat ('a'.toNat + (k - 10)) ≤ 'f' := by
      show (Char.ofNat ('a'.toNat + (k - 10))).toNat ≤ 'f'.toNat
      rw [ht]
      show 97 + (k - 10) ≤ 102
      omega
    rw [if_pos ⟨h2, h3⟩, ht]
    simp only [Option.some.injEq]
    show 97 + (k - 10) - 97 + 10 = k
    omega

theorem hex4Val_digits {n : Nat} (h : n < 0x10000) :
    hex4Val (hexDigitChar (n / 4096 % 16)) (hexDigitChar (n / 256 % 16))
      (hexDigitChar (n / 16 % 16)) (hexDigitChar (n % 16)) = some n := by
  unfold hex4Val
  have harith : ((n / 4096 % 16 * 16 + n / 256 % 16) * 16 + n / 16 % 16) * 16 + n % 16 = n := by
    omega
  simp only [hexDigitVal_hexDigitChar (Nat.mod_lt _ (by omega))]
  exact congrArg some harith

theorem char_valid (c : Char) : c.toNat < 0xD800 ∨ (0xE000 ≤ c.toNat ∧ c.toNat < 0x110000) := by
  have h := c.valid
  unfold UInt32.isValidChar Nat.isValidChar at h
  exact h

theorem char_ofNat_toNat (c : Char) : Char.ofNat c.toNat = c := by
  apply char_eq_of_toNat
  unfold Char.ofNat
  rw [dif_pos (show c.toNat.isValidChar from c.valid)]
  rfl

theorem parseJsonString_u6 (acc : List Char) (d1 d2 d3 d4 : Char) (rest : List Char)
    (hnot : ∀ e f g h r2, rest ≠ '\\' :: 'u' :: e :: f :: g :: h :: r2) :
    parseJsonString acc ('\\' :: 'u' :: d1 :: d2 :: d3 :: d4 :: rest) =
      match hex4Val d1 d2 d3 d4 with
      | none => none
      | some n => parseJsonString (Char.ofNat n :: acc) rest := by
  conv_lhs => rw [parseJsonString.eq_def]
  split
  · simp_all
  · rename_i a b c d e f g h r2 heq
    simp only [List.cons.injEq] at heq
    obtain ⟨_, _, _, _, _, _, hr⟩ := heq
    exact absurd hr (hnot e f g h r2)
  · rename_i a b c d r heq
    simp only [List.cons.injEq] at heq
    obtain ⟨_, _, rfl, rfl, rfl, rfl, rfl⟩ := heq
    rfl
  · exfalso
    rename_i xa e r h12 h6 heq
    simp only [List.cons.injEq] at heq
    obtain ⟨h1, h2, h3⟩ := heq
    exact h6 d1 d2 d3 d4 rest h2.symm h3.symm
  · exfalso
    rename_i xa c2 r h1 h12 h6 h2c heq
    simp only [List.cons.injEq] at heq
    obtain ⟨hc, hr⟩ := heq
    exact h6 d1 d2 d3 d4 rest hc.symm hr.symm
  · simp_all


theorem hexEscape_eq (n : Nat) : hexEscape n =
    '\\' :: 'u' :: hexDigitChar (n / 4096 % 16) :: hexDigitChar (n / 256 % 16) ::
      hexDigitChar (n / 16 % 16) :: hexDigitChar (n % 16) :: [] := rfl

theorem parseJsonString_esc (acc : List Char) (e c' : Char) (rest : List Char)
    (he : ¬e = 'u')
    (hdec : (if e = '"' then some '"' else if e = '\\' then some '\\'
      else if e = '/' then some '/' else if e = 'n' then some '\n'
      else if e = 'r' then some '\r' else if e = 't' then some '\t'
      else if e = 'b' then some (Char.ofNat 8) else if e = 'f' then some (Char.ofNat 12)
      else none) = some c') :
    parseJsonString acc ('\\' :: e :: rest) = parseJsonString (c' :: acc) rest := by
  conv_lhs => rw [parseJsonString.eq_def]
  split
  · simp_all
  · simp_all
  · simp_all
  · rename_i e2 r2 heq
    simp only [List.cons.injEq] at heq
    obtain ⟨_, he2, hr2⟩ := heq
    subst he2
    subst hr2
    split_ifs at hdec ⊢ <;> first | (cases hdec; rfl) | simp_all
  · rename_i xa c2 r h1 h12 h6 h2c heq
    simp only [List.cons.injEq] at heq
    obtain ⟨hc, hr⟩ := heq
    exact absurd (h2c e rest hc.symm hr.symm) (fun x => x)
  · simp_all

theorem parseJsonString_u12 (acc : List Char) (d1 d2 d3 d4 e f g h : Char) (r2 : List Char) :
    parseJsonString acc ('\\' :: 'u' :: d1 :: d2 :: d3 :: d4 :: '\\' :: 'u' ::
        e :: f :: g :: h :: r2) =
      match hex4Val d1 d2 d3 d4 with
      | none => none
      | some n =>
        if 0xD800 ≤ n ∧ n < 0xDC00 then
          match hex4Val e f g h with
          | some m =>
            if 0xDC00 ≤ m ∧ m < 0xE000 then
              parseJsonString
                (Char.ofNat (0x10000 + (n - 0xD800) * 0x400 + (m - 0xDC00)) :: acc) r2
            else parseJsonString (Char.ofNat n :: acc) ('\\' :: 'u' :: e :: f :: g :: h :: r2)
          | none => parseJsonString (Char.ofNat n :: acc) ('\\' :: 'u' :: e :: f :: g :: h :: r2)
        else parseJsonString (Char.ofNat n :: acc) ('\\' :: 'u' :: e :: f :: g :: h :: r2) := by
  conv_lhs => rw [parseJsonString.eq_def]
  split
  · simp_all
  · rename_i a b c d e2 f2 g2 h2 r2x heq
    simp only [List.cons.injEq] at heq
    obtain ⟨_, _, h1, h2, h3, h4, _, _, h5, h6, h7, h8, h9⟩ := heq
    subst h1; subst h2; subst h3; subst h4
    subst h5; subst h6; subst h7; subst h8; subst h9
    rfl
  · exfalso
    rename_i xa a b c d r hn2 heq
    simp only [List.cons.injEq] at heq
    obtain ⟨_, _, h1, h2, h3, h4, hr⟩ := heq
    exact hn2 e f g h r2 (by rw [← hr])
  · exfalso
    rename_i xa e2 r hn12 hn6 heq
    simp only [List.cons.injEq] at heq
    obtain ⟨_, he2, hr⟩ := heq
    exact hn6 d1 d2 d3 d4 ('\\' :: 'u' :: e :: f :: g :: h :: r2) he2.symm hr.symm
  · exfalso
    rename_i xa c2 r h1 hn12 hn6 hn2 heq
    simp only [List.cons.injEq] at heq
    obtain ⟨hc, hr⟩ := heq
    exact hn6 d1 d2 d3 d4 ('\\' :: 'u' :: e :: f :: g :: h :: r2) hc.symm hr.symm
  · simp_all


theorem parseJsonString_u6p (acc : List Char) (d1 d2 d3 d4 : Char) (rest : List Char)
    (n : Nat)
    (hnot : ∀ e f g h r2, rest ≠ '\\' :: 'u' :: e :: f :: g :: h :: r2)
    (hhex : hex4Val d1 d2 d3 d4 = some n) :
    parseJsonString acc ('\\' :: 'u' :: d1 :: d2 :: d3 :: d4 :: rest) =
      parseJsonString (Char.ofNat n :: acc) rest := by
  rw [parseJsonString_u6 acc d1 d2 d3 d4 rest hnot, hhex]

theorem parseJsonString_u12skip (acc : List Char) (d1 d2 d3 d4 e f g h : Char)
    (r2 : List Char) (n : Nat)
    (hhex : hex4Val d1 d2 d3 d4 = some n) (hn : ¬(0xD800 ≤ n ∧ n < 0xDC00)) :
    parseJsonString acc ('\\' :: 'u' :: d1 :: d2 :: d3 :: d4 :: '\\' :: 'u' ::
        e :: f :: g :: h :: r2) =
      parseJsonString (Char.ofNat n :: acc) ('\\' :: 'u' :: e :: f :: g :: h :: r2) := by
  rw [parseJsonString_u12, hhex]
  simp only [eq_false hn, if_false]

theorem parseJsonString_u12join (acc : List Char) (d1 d2 d3 d4 e f g h : Char)
    (r2 : List Char) (n m : Nat)
    (hhex1 : hex4Val d1 d2 d3 d4 = some n) (hn : 0xD800 ≤ n ∧ n < 0xDC00)
    (hhex2 : hex4Val e f g h = some m) (hm : 0xDC00 ≤ m ∧ m < 0xE000) :
    parseJsonString acc ('\\' :: 'u' :: d1 :: d2 :: d3 :: d4 :: '\\' :: 'u' ::
        e :: f :: g :: h :: r2) =
      parseJsonString (Char.ofNat (0x10000 + (n - 0xD800) * 0x400 + (m - 0xDC00)) :: acc)
        r2 := by
  rw [parseJsonString_u12, hhex1]
  simp only [eq_true hn, if_true, hhex2, eq_true hm]

theorem jsonEscapeChar_shape (c : Char) :
    (c = '"' ∨ c = '\\' ∨ c = '\n' ∨ c = '\r' ∨ c = '\t' ∨ c = Char.ofNat 8 ∨
      c = Char.ofNat 12) ∨
    (jsonEscapeChar c = hexEscape c.toNat ∧ c.toNat < 0x10000) ∨
    (jsonEscapeChar c =
      hexEscape (0xD800 + (c.toNat - 0x10000) / 0x400) ++
      hexEscape (0xDC00 + (c.toNat - 0x10000) % 0x400) ∧ 0x10000 ≤ c.toNat) ∨
    (jsonEscapeChar c = [c] ∧ ¬c = '"' ∧ ¬c = '\\') := by
  by_cases h1 : c = '"'
  · exact Or.inl (Or.inl h1)
  by_cases h2 : c = '\\'
  · exact Or.inl (Or.inr (Or.inl h2))
  by_cases h3 : c = '\n'
  · exact Or.inl (Or.inr (Or.inr (Or.inl h3)))
  by_cases h4 : c = '\r'
  · exact Or.inl (Or.inr (Or.inr (Or.inr (Or.inl h4))))
  by_cases h5 : c = '\t'
  · exact Or.inl (Or.inr (Or.inr (Or.inr (Or.inr (Or.inl h5)))))
  by_cases h6 : c = Char.ofNat 8
  · exact Or.inl (Or.inr (Or.inr (Or.inr (Or.inr (Or.inr (Or.inl h6))))))
  by_cases h7 : c = Char.ofNat 12
  · exact Or.inl (Or.inr (Or.inr (Or.inr (Or.inr (Or.inr (Or.inr h7))))))
  have hrw : ∀ x : List Char,
      (if c = '"' then ['\\', '"'] else if c = '\\' then ['\\', '\\']
       else if c = '\n' then ['\\', 'n'] else if c = '\r' then ['\\', 'r']
       else if c = '\t' then ['\\', 't'] else if c = Char.ofNat 8 then ['\\', 'b']
       else if c = Char.ofNat 12 then ['\\', 'f'] else x) = x := by
    intro x
    rw [if_neg h1, if_neg h2, if_neg h3, if_neg h4, if_neg h5, if_neg h6, if_neg h7]
  by_cases h8 : c.toNat < 0x20
  · refine Or.inr (Or.inl ⟨?_, by omega⟩)
    unfold jsonEscapeChar
    rw [hrw, if_pos h8]
  by_cases h9 : c.toNat < 0x7F
  · refine Or.inr (Or.inr (Or.inr ⟨?_, h1, h2⟩))
    unfold jsonEscapeChar
    rw [hrw, if_neg h8, if_pos h9]
  by_cases h10 : c.toNat < 0x10000
  · refine Or.inr (Or.inl ⟨?_, h10⟩)
    unfold jsonEscapeChar
    rw [hrw, if_neg h8, if_neg h9, if_pos h10]
  · refine Or.inr (Or.inr (Or.inl ⟨?_, by omega⟩))
    unfold jsonEscapeChar
    rw [hrw, if_neg h8, if_neg h9, if_neg h10]

theorem char_not_surrogate (c : Char) : ¬(0xD800 ≤ c.toNat ∧ c.toNat < 0xDC00) := by
  rcases char_valid c with h | h <;> omega

theorem parseJsonString_plain (c : Char) (h1 : ¬c = '"') (h2 : ¬c = '\\')
    (acc cs : List Char) :
    parseJsonString acc (c :: cs) = parseJsonString (c :: acc) cs := by
  conv_lhs => rw [parseJsonString.eq_def]
  split
  · simp_all
  · simp_all
  · simp_all
  · simp_all
  · rename_i c2 rest heq
    rw [List.cons.injEq] at heq
    obtain ⟨rfl, rfl⟩ := heq
    rfl
  · simp_all

theorem parseJsonString_render :
    ∀ (cs acc rest : List Char),
      parseJsonString acc (cs.flatMap jsonEscapeChar ++ '"' :: rest) =
        some (String.mk (acc.reverse ++ cs), rest) := by
  intro cs
  induction cs with
  | nil =>
    intro acc rest
    simp only [List.flatMap_nil, List.nil_append]
    rw [parseJsonString]
    simp
  | cons c cs ih =>
    intro acc rest
    rw [List.flatMap_cons, List.append_assoc]
    have hfin : ∀ acc2 : List Char,
        parseJsonString (acc2 : List Char) (cs.flatMap jsonEscapeChar ++ '"' :: rest) =
          some (String.mk (acc2.reverse ++ cs), rest) := fun acc2 => ih acc2 rest
    rcases jsonEscapeChar_shape c with h7 | ⟨hbmp, hlt⟩ | ⟨hast, hge⟩ | ⟨hpl, hq, hbs⟩
    · rcases h7 with rfl | rfl | rfl | rfl | rfl | rfl | rfl
      · rw [show jsonEscapeChar '"' = ['\\', '"'] from rfl]
        simp only [List.cons_append, List.nil_append]
        rw [parseJsonString_esc acc '"' '"' _ (by decide) (by decide), hfin]
        try simp
      · rw [show jsonEscapeChar '\\' = ['\\', '\\'] from rfl]
        simp only [List.cons_append, List.nil_append]
        rw [parseJsonString_esc acc '\\' '\\' _ (by decide) (by decide), hfin]
        try simp
      · rw [show jsonEscapeChar '\n' = ['\\', 'n'] from rfl]
        simp only [List.cons_append, List.nil_append]
        rw [parseJsonString_esc acc 'n' '\n' _ (by decide) (by decide), hfin]
        try simp
      · rw [show jsonEscapeChar '\r' = ['\\', 'r'] from rfl]
        simp only [List.cons_append, List.nil_append]
        rw [parseJsonString_esc acc 'r' '\r' _ (by decide) (by decide), hfin]
        try simp
      · rw [show jsonEscapeChar '\t' = ['\\', 't'] from rfl]
        simp only [List.cons_append, List.nil_append]
        rw [parseJsonString_esc acc 't' '\t' _ (by decide) (by decide), hfin]
        try simp
      · rw [show jsonEscapeChar (Char.ofNat 8) = ['\\', 'b'] from rfl]
        simp only [List.cons_append, List.nil_append]
        rw [parseJsonString_esc acc 'b' (Char.ofNat 8) _ (by decide) (by decide), hfin]
        try simp
      · rw [show jsonEscapeChar (Char.ofNat 12) = ['\\', 'f'] from rfl]
        simp only [List.cons_append, List.nil_append]
        rw [parseJsonString_esc acc 'f' (Char.ofNat 12) _ (by decide) (by decide), hfin]
        try simp
    · rw [hbmp, hexEscape_eq]
      simp only [List.cons_append, List.nil_append]
      have hnosur := char_not_surrogate c
      cases cs with
      | nil =>
        rw [parseJsonString_u6p _ _ _ _ _ _ _ (by
          intro e f g h r2 hx
          simp only [List.flatMap_nil, List.nil_append] at hx
          simp at hx) (hex4Val_digits hlt), char_ofNat_toNat]
        have hih := hfin (c :: acc)
        simp only [List.flatMap_nil, List.nil_append] at hih ⊢
        rw [hih]
        simp
      | cons c2 cs2 =>
        rcases jsonEscapeChar_shape c2 with g7 | ⟨gbmp, glt⟩ | ⟨gast, gge⟩ | ⟨gpl, gq, gbs⟩
        · rcases g7 with rfl | rfl | rfl | rfl | rfl | rfl | rfl <;>
            · rw [parseJsonString_u6p _ _ _ _ _ _ _ (by
                intro e f g h r2 hx
                simp [jsonEscapeChar] at hx) (hex4Val_digits hlt), char_ofNat_toNat, hfin]
              try simp
        · rw [List.flatMap_cons, gbmp, hexEscape_eq]
          simp only [List.cons_append, List.append_assoc, List.nil_append]
          rw [parseJsonString_u12skip _ _ _ _ _ _ _ _ _ _ _ (hex4Val_digits hlt) hnosur,
            char_ofNat_toNat]
          have hih := hfin (c :: acc)
          rw [List.flatMap_cons, gbmp, hexEscape_eq] at hih
          simp only [List.cons_append, List.append_assoc, List.nil_append] at hih
          rw [hih]
          simp
        · rw [List.flatMap_cons, gast, hexEscape_eq, hexEscape_eq]
          simp only [List.cons_append, List.append_assoc, List.nil_append]
          rw [parseJsonString_u12skip _ _ _ _ _ _ _ _ _ _ _ (hex4Val_digits hlt) hnosur,
            char_ofNat_toNat]
          have hih := hfin (c :: acc)
          rw [List.flatMap_cons, gast, hexEscape_eq, hexEscape_eq] at hih
          simp only [List.cons_append, List.append_assoc, List.nil_append] at hih
          rw [hih]
          simp
        · rw [parseJsonString_u6p _ _ _ _ _ _ _ (by
            intro e f g h r2 hx
            rw [List.flatMap_cons, gpl] at hx
            simp only [List.cons_append, List.cons.injEq] at hx
            exact gbs hx.1) (hex4Val_digits hlt), char_ofNat_toNat, hfin]
          try simp
    · rw [hast, hexEscape_eq, hexEscape_eq]
      simp only [List.cons_append, List.append_assoc, List.nil_append]
      have hhi : (c.toNat - 0x10000) / 0x400 < 0x400 := by
        have := char_valid c
        omega
      have hlo : (c.toNat - 0x10000) % 0x400 < 0x400 := Nat.mod_lt _ (by omega)
      rw [parseJsonString_u12join _ _ _ _ _ _ _ _ _ _ _ _
        (hex4Val_digits (by omega)) (by omega) (hex4Val_digits (by omega)) (by omega)]
      have hv : 0x10000 + (0xD800 + (c.toNat - 0x10000) / 0x400 - 0xD800) * 0x400 +
          (0xDC00 + (c.toNat - 0x10000) % 0x400 - 0xDC00) = c.toNat := by
        omega
      rw [hv, char_ofNat_toNat, hfin]
      try simp
    · rw [hpl]
      simp only [List.cons_append, List.nil_append]
      rw [parseJsonString_plain c hq hbs, hfin]
      simp

theorem string_mk_toList (s : String) : String.mk s.toList = s := rfl

theorem parseJsonValue_int_head (c : Char) (r : List Char) (fuel : Nat)
    (h1 : ¬c = 'n') (h2 : ¬c = 't') (h3 : ¬c = 'f') (h4 : ¬c = '"')
    (h5 : ¬c = '[') (h6 : ¬c = '{') (h7 : isJsonWS c = false) :
    parseJsonValue (fuel + 1) (c :: r) =
      (if c = '-' || isDigitC c then
        match parseJsonInt (c :: r) with
        | some (i, r2) => some (.int i, r2)
        | none => none
      else none) := by
  conv_lhs => rw [parseJsonValue]
  rw [show skipWS (c :: r) = c :: r from by simp [skipWS, h7]]
  split
  · simp_all
  · simp_all
  · simp_all
  · simp_all
  · simp_all
  · simp_all
  · rename_i c2 rest heq
    rw [List.cons.injEq] at heq
    obtain ⟨rfl, rfl⟩ := heq
    rfl
  · simp_all

theorem parseJsonValue_null (fuel : Nat) (r : List Char) :
    parseJsonValue (fuel + 1) ('n' :: 'u' :: 'l' :: 'l' :: r) = some (.null, r) := by
  simp only [parseJsonValue]
  rw [skipWS_cons_not _ (by decide)]
  rfl

theorem parseJsonValue_true (fuel : Nat) (r : List Char) :
    parseJsonValue (fuel + 1) ('t' :: 'r' :: 'u' :: 'e' :: r) = some (.bool true, r) := by
  simp only [parseJsonValue]
  rw [skipWS_cons_not _ (by decide)]
  rfl

theorem parseJsonValue_false (fuel : Nat) (r : List Char) :
    parseJsonValue (fuel + 1) ('f' :: 'a' :: 'l' :: 's' :: 'e' :: r) = some (.bool false, r) := by
  simp only [parseJsonValue]
  rw [skipWS_cons_not _ (by decide)]
  rfl

theorem parseJsonValue_str_head (fuel : Nat) (r : List Char) :
    parseJsonValue (fuel + 1) ('"' :: r) =
      (match parseJsonString [] r with
       | some (s, r2) => some (.str s, r2)
       | none => none) := by
  simp only [parseJsonValue]
  rw [skipWS_cons_not _ (by decide)]
  rfl

theorem parseJsonValue_str (fuel : Nat) (s : String) (rest : List Char) :
    parseJsonValue (fuel + 1) (jsonQuote s ++ rest) = some (.str s, rest) := by
  have h : jsonQuote s ++ rest = '"' :: (s.toList.flatMap jsonEscapeChar ++ '"' :: rest) := by
    simp [jsonQuote]
  rw [h, parseJsonValue_str_head, parseJsonString_render s.toList [] rest]
  simp [string_mk_toList]

theorem parseJsonValue_arr_head (fuel : Nat) (r : List Char) :
    parseJsonValue (fuel + 1) ('[' :: r) =
      (match skipWS r with
       | ']' :: r2 => some (.arr [], r2)
       | r2 =>
         match parseJsonItems fuel r2 with
         | some (xs, r3) => some (.arr xs, r3)
         | none => none) := by
  simp only [parseJsonValue]
  rw [skipWS_cons_not _ (by decide)]
  rfl

theorem parseJsonValue_arr_cons (fuel : Nat) (r r2 r3 : List Char) (c : Char) (xs : List JVal)
    (hc : ¬c = ']') (hws : skipWS r = c :: r2)
    (hit : parseJsonItems fuel (c :: r2) = some (xs, r3)) :
    parseJsonValue (fuel + 1) ('[' :: r) = some (.arr xs, r3) := by
  rw [parseJsonValue_arr_head, hws]
  split
  · simp_all
  · rw [hit]

theorem parseJsonValue_obj_head (fuel : Nat) (r : List Char) :
    parseJsonValue (fuel + 1) ('{' :: r) =
      (match skipWS r with
       | '}' :: r2 => some (.obj [], r2)
       | r2 =>
         match parseJsonMembers fuel r2 with
         | some (ps, r3) => some (.obj (dictFromPairs ps), r3)
         | none => none) := by
  simp only [parseJsonValue]
  rw [skipWS_cons_not _ (by decide)]
  rfl

theorem parseJsonValue_obj_cons (fuel : Nat) (r r2 r3 : List Char) (c : Char) (ps : PyDict)
    (hc : ¬c = '}') (hws : skipWS r = c :: r2)
    (hit : parseJsonMembers fuel (c :: r2) = some (ps, r3)) :
    parseJsonValue (fuel + 1) ('{' :: r) = some (.obj (dictFromPairs ps), r3) := by
  rw [parseJsonValue_obj_head, hws]
  split
  · simp_all
  · rw [hit]

theorem parseJsonItems_last (fuel : Nat) (cs r r2 : List Char) (x : JVal)
    (hv : parseJsonValue fuel cs = some (x, r)) (hws : skipWS r = ']' :: r2) :
    parseJsonItems (fuel + 1) cs = some ([x], r2) := by
  conv_lhs => rw [parseJsonItems]
  simp only [hv, hws]

theorem parseJsonItems_cons (fuel : Nat) (cs r r2 r3 : List Char) (x : JVal) (vs : List JVal)
    (hv : parseJsonValue fuel cs = some (x, r)) (hws : skipWS r = ',' :: r2)
    (hit : parseJsonItems fuel r2 = some (vs, r3)) :
    parseJsonItems (fuel + 1) cs = some (x :: vs, r3) := by
  conv_lhs => rw [parseJsonItems]
  simp only [hv, hws, hit]

theorem parseJsonMembers_last (fuel : Nat) (cs r r1 r2 r3 r4 : List Char)
    (k : String) (v : JVal)
    (hcs : skipWS cs = '"' :: r) (hstr : parseJsonString [] r = some (k, r1))
    (hws1 : skipWS r1 = ':' :: r2) (hv : parseJsonValue fuel r2 = some (v, r3))
    (hws2 : skipWS r3 = '}' :: r4) :
    parseJsonMembers (fuel + 1) cs = some ([(k, v)], r4) := by
  conv_lhs => rw [parseJsonMembers]
  simp only [hcs, hstr, hws1, hv, hws2]

theorem parseJsonMembers_cons (fuel : Nat) (cs r r1 r2 r3 r4 r5 : List Char)
    (k : String) (v : JVal) (ps : PyDict)
    (hcs : skipWS cs = '"' :: r) (hstr : parseJsonString [] r = some (k, r1))
    (hws1 : skipWS r1 = ':' :: r2) (hv : parseJsonValue fuel r2 = some (v, r3))
    (hws2 : skipWS r3 = ',' :: r4) (hm : parseJsonMembers fuel r4 = some (ps, r5)) :
    parseJsonMembers (fuel + 1) cs = some ((k, v) :: ps, r5) := by
  conv_lhs => rw [parseJsonMembers]
  simp only [hcs, hstr, hws1, hv, hws2, hm]

theorem renderJson_head (ind : Nat) (v : JVal) :
    ∃ c cs, renderJson ind v = c :: cs ∧ isJsonWS c = false ∧ ¬c = ']' ∧ ¬c = '}' := by
  cases v with
  | null => exact ⟨'n', ['u', 'l', 'l'], by simp [renderJson], by decide, by decide, by decide⟩
  | bool b =>
    cases b with
    | false =>
      exact ⟨'f', ['a', 'l', 's', 'e'], by simp [renderJson], by decide, by decide, by decide⟩
    | true =>
      exact ⟨'t', ['r', 'u', 'e'], by simp [renderJson], by decide, by decide, by decide⟩
  | int i =>
    by_cases hi : i < 0
    · exact ⟨'-', (natDigitsRev i.natAbs).reverse, by simp [renderJson, intChars, hi],
        by decide, by decide, by decide⟩
    · obtain ⟨k, rest, hr, hk⟩ := natDigitsRev_head_digit i.natAbs
      refine ⟨digitChar k, rest, ?_, isJsonWS_digitChar hk, ?_, ?_⟩
      · simp [renderJson, intChars, hi, hr]
      · exact digitChar_ne hk ']' (by simp only [show (']').toNat = 93 from rfl]; omega)
      · exact digitChar_ne hk '}' (by simp only [show ('}').toNat = 125 from rfl]; omega)
  | str s =>
    exact ⟨'"', s.toList.flatMap jsonEscapeChar ++ ['"'], by simp [renderJson, jsonQuote],
      by decide, by decide, by decide⟩
  | arr xs =>
    cases xs with
    | nil => exact ⟨'[', [']'], by simp [renderJson], by decide, by decide, by decide⟩
    | cons x xs =>
      exact ⟨'[', nlIndent (ind + 2) ++ renderJson (ind + 2) x ++ renderArrRest (ind + 2) xs ++
        nlIndent ind ++ [']'], by simp [renderJson], by decide, by decide, by decide⟩
  | obj kvs =>
    cases kvs with
    | nil => exact ⟨'{', ['}'], by simp [renderJson], by decide, by decide, by decide⟩
    | cons kv kvs =>
      exact ⟨'{', nlIndent (ind + 2) ++ jsonQuote kv.1 ++ ':' :: ' ' ::
        (renderJson (ind + 2) kv.2 ++ renderObjRest (ind + 2) kvs ++ nlIndent ind ++ ['}']),
        by simp [renderJson], by decide, by decide, by decide⟩

theorem dictInsert_not_has (acc : PyDict) (k : String) (v : JVal)
    (h : hasKey acc k = false) : dictInsert acc k v = acc ++ [(k, v)] := by
  simp [dictInsert, h]

theorem hasKey_append_single (acc : PyDict) (k k2 : String) (v : JVal)
    (h1 : hasKey acc k2 = false) (h2 : ¬k = k2) :
    hasKey (acc ++ [(k, v)]) k2 = false := by
  unfold hasKey at h1 ⊢
  rw [lookupKey_append]
  rcases hl : lookupKey acc k2 with _ | w
  · simp [lookupKey, h2]
  · rw [hl] at h1
    simp at h1

theorem contains_false_not_mem : ∀ (ks : List String) (k : String),
    ks.contains k = false → ¬k ∈ ks := by
  intro ks
  induction ks with
  | nil =>
    intro k _ hm
    cases hm
  | cons a as ih =>
    intro k h hm
    have h2 : (match k == a with
      | true => true
      | false => List.elem k as) = false := h
    rcases hb : k == a with _ | _
    · rw [hb] at h2
      rcases List.mem_cons.mp hm with rfl | hmem
      · simp at hb
      · exact ih k h2 hmem
    · rw [hb] at h2
      simp at h2

theorem dictFromPairs_go : ∀ (ps acc : PyDict),
    keysDistinct (ps.map Prod.fst) = true →
    (∀ kv, kv ∈ ps → hasKey acc kv.1 = false) →
    ps.foldl (fun acc kv => dictInsert acc kv.1 kv.2) acc = acc ++ ps := by
  intro ps
  induction ps with
  | nil =>
    intro acc _ _
    simp
  | cons kv ps ih =>
    intro acc hkd hacc
    obtain ⟨k, v⟩ := kv
    rw [List.foldl_cons]
    rw [show dictInsert acc (k, v).1 (k, v).2 = acc ++ [(k, v)] from
      dictInsert_not_has acc k v (hacc (k, v) (List.mem_cons_self _ _))]
    rw [List.map_cons] at hkd
    simp only [keysDistinct, Bool.and_eq_true] at hkd
    have hknot : ¬k ∈ ps.map Prod.fst :=
      contains_false_not_mem _ k (by simpa using hkd.1)
    rw [ih (acc ++ [(k, v)]) hkd.2 ?_]
    · simp
    · intro kv2 hkv2
      have hne : ¬k = kv2.1 := by
        intro he
        exact hknot (he ▸ List.mem_map_of_mem Prod.fst hkv2)
      exact hasKey_append_single acc k kv2.1 v (hacc kv2 (List.mem_cons_of_mem _ hkv2)) hne

theorem dictFromPairs_id (ps : PyDict) (h : keysDistinct (ps.map Prod.fst) = true) :
    dictFromPairs ps = ps := by
  unfold dictFromPairs
  rw [dictFromPairs_go ps [] h (fun kv _ => rfl)]
  simp

theorem length_nlIndent (n : Nat) : (nlIndent n).length = n + 1 := by
  simp [nlIndent]

theorem length_renderJson_arrcons (ind : Nat) (x : JVal) (xs : List JVal) :
    (renderJson ind (.arr (x :: xs))).length =
      (renderJson (ind + 2) x).length + (renderArrRest (ind + 2) xs).length + (2 * ind + 6) := by
  simp [renderJson, nlIndent]
  omega

theorem length_renderJson_objcons (ind : Nat) (k0 : String) (v0 : JVal)
    (kvs : List (String × JVal)) :
    (renderJson ind (.obj ((k0, v0) :: kvs))).length =
      (jsonQuote k0).length + (renderJson (ind + 2) v0).length +
        (renderObjRest (ind + 2) kvs).length + (2 * ind + 8) := by
  simp [renderJson, nlIndent, jsonQuote]
  omega

theorem length_renderArrRest_cons (ind : Nat) (y : JVal) (ys : List JVal) :
    (renderArrRest ind (y :: ys)).length =
      (renderJson ind y).length + (renderArrRest ind ys).length + (ind + 2) := by
  simp [renderArrRest, nlIndent]
  omega

theorem length_renderObjRest_cons (ind : Nat) (k2 : String) (v2 : JVal)
    (kvs : List (String × JVal)) :
    (renderObjRest ind ((k2, v2) :: kvs)).length =
      (jsonQuote k2).length + (renderJson ind v2).length +
        (renderObjRest ind kvs).length + (ind + 4) := by
  simp [renderObjRest, nlIndent, jsonQuote]
  omega

theorem jsonNumDelim_arrRest (ind j : Nat) (xs : List JVal) (rest : List Char) :
    jsonNumDelim (renderArrRest ind xs ++ (nlIndent j ++ (']' :: rest))) := by
  cases xs with
  | nil =>
    rw [show renderArrRest ind ([] : List JVal) = ([] : List Char) from by simp [renderArrRest],
      List.nil_append,
      show nlIndent j ++ (']' :: rest) = '\n' :: (List.replicate j ' ' ++ ']' :: rest) from by
        simp [nlIndent]]
    exact ⟨by decide, by decide, by decide, by decide⟩
  | cons y ys =>
    rw [show renderArrRest ind (y :: ys) =
        ',' :: (nlIndent ind ++ (renderJson ind y ++ renderArrRest ind ys)) from by
      simp [renderArrRest], List.cons_append]
    exact ⟨by decide, by decide, by decide, by decide⟩

theorem jsonNumDelim_objRest (ind j : Nat) (kvs : List (String × JVal)) (rest : List Char) :
    jsonNumDelim (renderObjRest ind kvs ++ (nlIndent j ++ ('}' :: rest))) := by
  cases kvs with
  | nil =>
    rw [show renderObjRest ind ([] : List (String × JVal)) = ([] : List Char) from by
      simp [renderObjRest], List.nil_append,
      show nlIndent j ++ ('}' :: rest) = '\n' :: (List.replicate j ' ' ++ '}' :: rest) from by
        simp [nlIndent]]
    exact ⟨by decide, by decide, by decide, by decide⟩
  | cons kv kvs =>
    rw [show renderObjRest ind (kv :: kvs) =
        ',' :: (nlIndent ind ++ (jsonQuote kv.1 ++
          (':' :: ' ' :: (renderJson ind kv.2 ++ renderObjRest ind kvs)))) from by
      simp [renderObjRest], List.cons_append]
    exact ⟨by decide, by decide, by decide, by decide⟩

theorem renderParse : ∀ fuel : Nat,
    (∀ (v : JVal) (ind : Nat) (rest : List Char),
      nodupKeys v = true → (renderJson ind v).length < fuel → jsonNumDelim rest →
      parseJsonValue fuel (renderJson ind v ++ rest) = some (v, rest)) ∧
    (∀ (x : JVal) (xs : List JVal) (ind j : Nat) (rest : List Char),
      nodupKeys x = true → nodupKeysList xs = true →
      (renderJson ind x).length + (renderArrRest ind xs).length + 1 < fuel →
      parseJsonItems fuel
        (renderJson ind x ++ (renderArrRest ind xs ++ (nlIndent j ++ (']' :: rest)))) =
        some (x :: xs, rest)) ∧
    (∀ (k : String) (v : JVal) (kvs : List (String × JVal)) (ind j : Nat) (rest : List Char),
      nodupKeys v = true → nodupKeysMembers kvs = true →
      (jsonQuote k).length + (renderJson ind v).length + (renderObjRest ind kvs).length + 3 <
        fuel →
      parseJsonMembers fuel
        (jsonQuote k ++ (':' :: ' ' :: (renderJson ind v ++
          (renderObjRest ind kvs ++ (nlIndent j ++ ('}' :: rest)))))) =
        some ((k, v) :: kvs, rest)) := by
  intro fuel
  induction fuel with
  | zero =>
    refine ⟨fun v ind rest _ h _ => absurd h (by omega),
      fun x xs ind j rest _ _ h => absurd h (by omega),
      fun k v kvs ind j rest _ _ h => absurd h (by omega)⟩
  | succ fuel ih =>
    obtain ⟨ihV, ihI, ihM⟩ := ih
    refine ⟨?_, ?_, ?_⟩
    · -- values
      intro v ind rest hnd hlen hdelim
      cases v with
      | null =>
        rw [show renderJson ind JVal.null = ['n', 'u', 'l', 'l'] from by simp [renderJson]]
        exact parseJsonValue_null fuel rest
      | bool b =>
        cases b with
        | true =>
          rw [show renderJson ind (JVal.bool true) = ['t', 'r', 'u', 'e'] from by
            simp [renderJson]]
          exact parseJsonValue_true fuel rest
        | false =>
          rw [show renderJson ind (JVal.bool false) = ['f', 'a', 'l', 's', 'e'] from by
            simp [renderJson]]
          exact parseJsonValue_false fuel rest
      | int i =>
        rw [show renderJson ind (JVal.int i) = intChars i from by simp [renderJson]]
        by_cases hi : i < 0
        · have he : intChars i = '-' :: (natDigitsRev i.natAbs).reverse := by
            simp [intChars, hi]
          rw [he, List.cons_append,
            parseJsonValue_int_head '-' _ fuel (by decide) (by decide) (by decide) (by decide)
              (by decide) (by decide) (by decide),
            if_pos (by decide),
            show '-' :: ((natDigitsRev i.natAbs).reverse ++ rest) = intChars i ++ rest from by
              rw [he, List.cons_append],
            parseJsonInt_intChars i rest hdelim]
        · obtain ⟨k, ds, hr, hk⟩ := natDigitsRev_head_digit i.natAbs
          have he : intChars i = (natDigitsRev i.natAbs).reverse := by
            simp [intChars, hi]
          have h110 : ¬digitChar k = 'n' :=
            digitChar_ne hk 'n' (by simp only [show ('n').toNat = 110 from rfl]; omega)
          have h116 : ¬digitChar k = 't' :=
            digitChar_ne hk 't' (by simp only [show ('t').toNat = 116 from rfl]; omega)
          have h102 : ¬digitChar k = 'f' :=
            digitChar_ne hk 'f' (by simp only [show ('f').toNat = 102 from rfl]; omega)
          have h34 : ¬digitChar k = '"' :=
            digitChar_ne hk '"' (by simp only [show ('"').toNat = 34 from rfl]; omega)
          have h91 : ¬digitChar k = '[' :=
            digitChar_ne hk '[' (by simp only [show ('[').toNat = 91 from rfl]; omega)
          have h123 : ¬digitChar k = '{' :=
            digitChar_ne hk '{' (by simp only [show ('{').toNat = 123 from rfl]; omega)
          rw [he, hr, List.cons_append,
            parseJsonValue_int_head (digitChar k) _ fuel h110 h116 h102 h34 h91 h123
              (isJsonWS_digitChar hk),
            if_pos (by rw [isDigitC_digitChar hk]; simp),
            show digitChar k :: (ds ++ rest) = intChars i ++ rest from by
              rw [← List.cons_append, ← hr, ← he],
            parseJsonInt_intChars i rest hdelim]
      | str s =>
        rw [show renderJson ind (JVal.str s) = jsonQuote s from by simp [renderJson]]
        exact parseJsonValue_str fuel s rest
      | arr xs =>
        cases xs with
        | nil =>
          rw [show renderJson ind (JVal.arr []) ++ rest = '[' :: ']' :: rest from by
            simp [renderJson]]
          rw [parseJsonValue_arr_head, skipWS_cons_not _ (by decide)]
          rfl
        | cons x xs =>
          simp only [nodupKeys, nodupKeysList, Bool.and_eq_true] at hnd
          obtain ⟨hx, hxs⟩ := hnd
          have hlen2 : (renderJson (ind + 2) x).length +
              (renderArrRest (ind + 2) xs).length + 1 < fuel := by
            rw [length_renderJson_arrcons] at hlen
            omega
          have hit := ihI x xs (ind + 2) ind rest hx hxs hlen2
          obtain ⟨c, cs0, hhead, hwsc, hrb, _⟩ := renderJson_head (ind + 2) x
          rw [hhead, List.cons_append] at hit
          rw [show renderJson ind (JVal.arr (x :: xs)) ++ rest =
              '[' :: (nlIndent (ind + 2) ++ (renderJson (ind + 2) x ++
                (renderArrRest (ind + 2) xs ++ (nlIndent ind ++ (']' :: rest))))) from by
            simp [renderJson]]
          refine parseJsonValue_arr_cons fuel _ _ rest c (x :: xs) hrb ?_ hit
          rw [skipWS_nlIndent, hhead, List.cons_append, skipWS_cons_not c hwsc]
      | obj kvs =>
        cases kvs with
        | nil =>
          rw [show renderJson ind (JVal.obj []) ++ rest = '{' :: '}' :: rest from by
            simp [renderJson]]
          rw [parseJsonValue_obj_head, skipWS_cons_not _ (by decide)]
          rfl
        | cons kv kvs =>
          obtain ⟨k0, v0⟩ := kv
          simp only [nodupKeys, nodupKeysMembers, Bool.and_eq_true] at hnd
          obtain ⟨hkd, hv0, hkvs⟩ := hnd
          have hlen2 : (jsonQuote k0).length + (renderJson (ind + 2) v0).length +
              (renderObjRest (ind + 2) kvs).length + 3 < fuel := by
            rw [length_renderJson_objcons] at hlen
            omega
          have hit := ihM k0 v0 kvs (ind + 2) ind rest hv0 hkvs hlen2
          rw [show jsonQuote k0 ++ (':' :: ' ' :: (renderJson (ind + 2) v0 ++
              (renderObjRest (ind + 2) kvs ++ (nlIndent ind ++ ('}' :: rest))))) =
              '"' :: (k0.toList.flatMap jsonEscapeChar ++
                ('"' :: (':' :: ' ' :: (renderJson (ind + 2) v0 ++
                  (renderObjRest (ind + 2) kvs ++ (nlIndent ind ++ ('}' :: rest))))))) from by
            simp [jsonQuote]] at hit
          rw [show renderJson ind (JVal.obj ((k0, v0) :: kvs)) ++ rest =
              '{' :: (nlIndent (ind + 2) ++ ('"' :: (k0.toList.flatMap jsonEscapeChar ++
                ('"' :: (':' :: ' ' :: (renderJson (ind + 2) v0 ++
                  (renderObjRest (ind + 2) kvs ++ (nlIndent ind ++ ('}' :: rest))))))))) from by
            simp [renderJson, jsonQuote]]
          rw [parseJsonValue_obj_cons fuel _ _ rest '"' ((k0, v0) :: kvs) (by decide)
            (by rw [skipWS_nlIndent]; exact skipWS_cons_not _ (by decide) _) hit,
            dictFromPairs_id _ hkd]
    · -- array items
      intro x xs ind j rest hx hxs hlen
      have hlenx : (renderJson ind x).length < fuel := by omega
      cases xs with
      | nil =>
        refine parseJsonItems_last fuel _
          (renderArrRest ind [] ++ (nlIndent j ++ (']' :: rest))) rest x ?_ ?_
        · exact ihV x ind _ hx hlenx (jsonNumDelim_arrRest ind j [] rest)
        · rw [show renderArrRest ind ([] : List JVal) = ([] : List Char) from by
            simp [renderArrRest], List.nil_append, skipWS_nlIndent]
          exact skipWS_cons_not _ (by decide) _
      | cons y ys =>
        simp only [nodupKeysList, Bool.and_eq_true] at hxs
        obtain ⟨hy, hys⟩ := hxs
        have hlen2 : (renderJson ind y).length + (renderArrRest ind ys).length + 1 < fuel := by
          rw [length_renderArrRest_cons] at hlen
          omega
        refine parseJsonItems_cons fuel _
          (renderArrRest ind (y :: ys) ++ (nlIndent j ++ (']' :: rest)))
          (nlIndent ind ++ (renderJson ind y ++ (renderArrRest ind ys ++
            (nlIndent j ++ (']' :: rest)))))
          rest x (y :: ys) ?_ ?_ ?_
        · exact ihV x ind _ hx hlenx (jsonNumDelim_arrRest ind j (y :: ys) rest)
        · rw [show renderArrRest ind (y :: ys) =
            ',' :: (nlIndent ind ++ (renderJson ind y ++ renderArrRest ind ys)) from by
              simp [renderArrRest], List.cons_append,
            skipWS_cons_not _ (by decide)]
          simp only [List.append_assoc]
        · rw [parseJsonItems_ws fuel (nlIndent ind) _ (nlIndent_ws ind)]
          exact ihI y ys ind j rest hy hys hlen2
    · -- object members
      intro k v kvs ind j rest hv hkvs hlen
      have hlenv : (renderJson ind v).length < fuel := by
        have h2 : 2 ≤ (jsonQuote k).length := by
          simp [jsonQuote]
        omega
      have hstr0 := parseJsonString_render k.toList []
        (':' :: ' ' :: (renderJson ind v ++
          (renderObjRest ind kvs ++ (nlIndent j ++ ('}' :: rest)))))
      simp only [List.reverse_nil, List.nil_append, string_mk_toList] at hstr0
      have hval : parseJsonValue fuel
          (' ' :: (renderJson ind v ++ (renderObjRest ind kvs ++ (nlIndent j ++ ('}' :: rest))))) =
          some (v, renderObjRest ind kvs ++ (nlIndent j ++ ('}' :: rest))) := by
        rw [show (' ' :: (renderJson ind v ++
              (renderObjRest ind kvs ++ (nlIndent j ++ ('}' :: rest))))) =
            [' '] ++ (renderJson ind v ++
              (renderObjRest ind kvs ++ (nlIndent j ++ ('}' :: rest)))) from rfl,
          parseJsonValue_ws fuel [' '] _ (by
            intro c hc
            rw [List.mem_singleton] at hc
            subst hc
            rfl)]
        exact ihV v ind _ hv hlenv (jsonNumDelim_objRest ind j kvs rest)
      have hcs : skipWS (jsonQuote k ++ (':' :: ' ' :: (renderJson ind v ++
          (renderObjRest ind kvs ++ (nlIndent j ++ ('}' :: rest)))))) =
          '"' :: (k.toList.flatMap jsonEscapeChar ++
            ('"' :: (':' :: ' ' :: (renderJson ind v ++
              (renderObjRest ind kvs ++ (nlIndent j ++ ('}' :: rest))))))) := by
        rw [show jsonQuote k ++ (':' :: ' ' :: (renderJson ind v ++
            (renderObjRest ind kvs ++ (nlIndent j ++ ('}' :: rest))))) =
            '"' :: (k.toList.flatMap jsonEscapeChar ++
              ('"' :: (':' :: ' ' :: (renderJson ind v ++
                (renderObjRest ind kvs ++ (nlIndent j ++ ('}' :: rest))))))) from by
          simp [jsonQuote]]
        exact skipWS_cons_not _ (by decide) _
      cases kvs with
      | nil =>
        refine parseJsonMembers_last fuel _ _ _ _ _ rest k v hcs hstr0
          (skipWS_cons_not _ (by decide) _) hval ?_
        rw [show renderObjRest ind ([] : List (String × JVal)) = ([] : List Char) from by
          simp [renderObjRest], List.nil_append, skipWS_nlIndent]
        exact skipWS_cons_not _ (by decide) _
      | cons kv2 kvs2 =>
        obtain ⟨k2, v2⟩ := kv2
        simp only [nodupKeysMembers, Bool.and_eq_true] at hkvs
        obtain ⟨hv2, hkvs2⟩ := hkvs
        have hlen2 : (jsonQuote k2).length + (renderJson ind v2).length +
            (renderObjRest ind kvs2).length + 3 < fuel := by
          rw [length_renderObjRest_cons] at hlen
          omega
        refine parseJsonMembers_cons fuel _ _ _ _ _
          (nlIndent ind ++ (jsonQuote k2 ++ (':' :: ' ' :: (renderJson ind v2 ++
            (renderObjRest ind kvs2 ++ (nlIndent j ++ ('}' :: rest)))))))
          rest k v ((k2, v2) :: kvs2) hcs hstr0
          (skipWS_cons_not _ (by decide) _) hval ?_ ?_
        · rw [show renderObjRest ind ((k2, v2) :: kvs2) =
            ',' :: (nlIndent ind ++ (jsonQuote k2 ++
              (':' :: ' ' :: (renderJson ind v2 ++ renderObjRest ind kvs2)))) from by
              simp [renderObjRest], List.cons_append,
            skipWS_cons_not _ (by decide)]
          simp only [List.append_assoc, List.cons_append]
        · rw [parseJsonMembers_ws fuel (nlIndent ind) _ (nlIndent_ws ind)]
          exact ihM k2 v2 kvs2 ind j rest hv2 hkvs2 hlen2

theorem json_loads_dumps (v : JVal) (h : nodupKeys v = true) :
    json_loads (json_dumps_indent2 v) = some v := by
  have hA := (renderParse ((renderJson 0 v).length + 1)).1 v 0 [] h (by omega) trivial
  rw [List.append_nil] at hA
  simp only [json_loads, json_dumps_indent2]
  rw [show (String.mk (renderJson 0 v)).toList = renderJson 0 v from rfl, hA]
  rfl

/-- C9: for every StandardConfig dictionary produced by the IR builder
(`create_standard_config`), parsing its JSON serialization returns an equal
dictionary: `from_json (to_json config) = some config`, losslessly for every
field.  `nodupKeys config` states that every dict reachable in the value has
pairwise-distinct keys, which is true of every value that exists as a Python
object. -/
theorem builder_json_roundtrip (vip_config : PyDict) (servers : List PyDict)
    (placement_decision : PyDict) (cfg : JVal)
    (hok : create_standard_config vip_config servers placement_decision = Except.ok cfg)
    (hnd : nodupKeys cfg = true) :
    from_json (to_json cfg) = some cfg := json_loads_dumps cfg hnd

theorem builder_json_roundtrip_witness :
    create_standard_config [] [] [] = Except.ok (JVal.obj builderEmptyOut) ∧
    nodupKeys (JVal.obj builderEmptyOut) = true ∧
    from_json (to_json (JVal.obj builderEmptyOut)) = some (JVal.obj builderEmptyOut) :=
  ⟨rfl, by decide,
    builder_json_roundtrip [] [] [] (JVal.obj builderEmptyOut) rfl (by decide)⟩

end LBaaS
